import Mathlib

/-!
# Order service: delivery-assignment broadcast and claim protocol

A shallow embedding of `src/controllers/order.controller.js` and
`src/socket/socket.js`.

* Mongo `ObjectId`s are natural numbers; comparing two ids through
  `toString()` is equality of the numbers.
* The two collections are lists of documents in natural order; `findById`
  and `findOne` return the first match, `save` rewrites the stored document
  that carries the same `_id`.
* A handler returns an `Outcome`: the HTTP response, the store it leaves
  behind, and the socket events it emitted, in order.
* A JavaScript exception inside a handler reaches the handler's `catch` and
  becomes the 500 response; whatever was saved before it stays saved.
* `new Date()` is a parameter `now`; the socket handle of `socket.js` is a
  parameter saying whether `initializeSocket` has run.
* Amounts (prices, quantities, subtotals, totals) are JavaScript numbers:
  IEEE-754 doubles, which `Number` below models with round-to-nearest-even
  addition and multiplication, the two infinities and NaN. A rating is the
  rational value of `Number(req.body.rating)`, which the handler only compares
  and stores. Fields of a document that no handler reads back (payment
  details, image, food type, timestamps) are left out of the records.
* Collaborators reached over HTTP (shop lookup, nearby couriers, code
  verification, item catalog) are parameters that say what each call answers.
-/

namespace OrderService

/-- Mongo ObjectId. -/
abbrev Id := Nat

/-! ## JavaScript numbers

The handlers add, multiply and compare amounts with the `+`, `*` and `<` of
JavaScript, which work on IEEE-754 binary64 values. A finite double is a
rational number, so a finite `Number` carries that rational; the result of an
operation is the exact result rounded to the nearest double, ties going to the
even significand, and to an infinity from `2 ^ 1024 - 2 ^ 970` on. The two zeros
of IEEE-754 are one value here: the handlers never divide, and `+`, `*`, `<` and
the JSON a response is written in do not tell them apart.
-/

/-- A JavaScript number: a finite double, given by its exact value, one of the
two infinities, or NaN. -/
inductive Number where
  | fin (q : ℚ)
  | posInf
  | negInf
  | nan
  deriving DecidableEq, Repr

/-- The binary logarithm of `n`, rounded down, by halving; `fuel` bounds the
number of halvings. -/
def log2Fuel : Nat → Nat → Nat
  | 0, _ => 0
  | fuel + 1, n => if n < 2 then 0 else log2Fuel fuel (n / 2) + 1

/-- The position of the leading binary digit of `n`: `2 ^ log2 n ≤ n < 2 ^ (log2 n + 1)`
for a positive `n`. -/
def log2 (n : Nat) : Nat :=
  log2Fuel n n

/-- The binary exponent of the positive fraction `a / b`: the `e` with
`2 ^ e ≤ a / b < 2 ^ (e + 1)`. -/
def floorLog2 (a b : Nat) : Int :=
  let e0 : Int := (log2 a : Int) - (log2 b : Int)
  if (if 0 ≤ e0 then 2 ^ e0.toNat * b ≤ a else b ≤ a * 2 ^ (-e0).toNat) then e0 else e0 - 1

/-- The integer nearest to `a / b`, a tie going to the even one. -/
def roundHalfEven (a : Int) (b : Nat) : Int :=
  let f := a / b
  let r := a % b
  if 2 * r < b then f
  else if (b : Int) < 2 * r then f + 1
  else if f % 2 = 0 then f else f + 1

/-- The double nearest to the fraction `n / d`: IEEE-754 round-to-nearest-even
to a 53-bit significand. `s` is the exponent of the last place of the result,
which is `-1074` for a subnormal, and `m` is the significand as an integer. A
result of magnitude `2 ^ 1024` or more is the infinity of that sign. -/
def roundQuot (n : Int) (d : Nat) : Number :=
  if n = 0 ∨ d = 0 then Number.fin 0
  else
    let s : Int := max (floorLog2 n.natAbs d) (-1022) - 52
    let m : Int := roundHalfEven (n * 2 ^ (-s).toNat) (d * 2 ^ s.toNat)
    if 1024 ≤ (log2 m.natAbs : Int) + s then
      (if 0 < n then Number.posInf else Number.negInf)
    else Number.fin (mkRat (m * 2 ^ s.toNat) (2 ^ (-s).toNat))

/-- A numeral written in the source, such as the `500` and `50` of
`getOwnerOrders`, or sent in a request body: the double nearest to it. -/
instance instOfNatNumber (n : Nat) : OfNat Number n :=
  ⟨roundQuot n 1⟩

/-- The `+` of two numbers. -/
def Number.add : Number → Number → Number
  | Number.fin a, Number.fin b => roundQuot (a.num * b.den + b.num * a.den) (a.den * b.den)
  | Number.nan, _ => Number.nan
  | _, Number.nan => Number.nan
  | Number.posInf, Number.negInf => Number.nan
  | Number.negInf, Number.posInf => Number.nan
  | Number.posInf, _ => Number.posInf
  | _, Number.posInf => Number.posInf
  | Number.negInf, _ => Number.negInf
  | _, Number.negInf => Number.negInf

/-- The sign of a number: `1`, `0` or `-1`; NaN has none. -/
def Number.sign : Number → Int
  | Number.fin q => q.num.sign
  | Number.posInf => 1
  | Number.negInf => -1
  | Number.nan => 0

/-- The `*` of two numbers; an infinity times zero is NaN. -/
def Number.mul : Number → Number → Number
  | Number.fin a, Number.fin b => roundQuot (a.num * b.num) (a.den * b.den)
  | Number.nan, _ => Number.nan
  | _, Number.nan => Number.nan
  | x, y =>
    if x.sign * y.sign = 0 then Number.nan
    else if 0 < x.sign * y.sign then Number.posInf else Number.negInf

/-- The `<` of two numbers; every comparison with NaN is false. -/
def Number.lt : Number → Number → Bool
  | Number.fin a, Number.fin b => decide (a.num * b.den < b.num * a.den)
  | Number.negInf, Number.fin _ => true
  | Number.negInf, Number.posInf => true
  | Number.fin _, Number.posInf => true
  | _, _ => false

/-- The exact value of a finite number, and `0` for an infinity or NaN. -/
def Number.toRat : Number → ℚ
  | Number.fin q => q
  | _ => 0

/-! ## Documents -/

/-- Status of a DeliveryAssignment document. -/
inductive AssignmentStatus where
  | broadcasted
  | assigned
  | pickedUp
  | enRoute
  | completed
  deriving DecidableEq, Repr

/-- Status of a ShopOrder sub-document. -/
inductive ShopOrderStatus where
  | pending
  | preparing
  | outForDelivery
  | delivered
  | cancelled
  deriving DecidableEq, Repr

/-- One entry of `shopOrderItems`. -/
structure OrderItem where
  item : Option Id
  name : String
  quantity : Number
  price : Number
  userRating : Option ℚ
  ratedAt : Option Nat
  deriving DecidableEq, Repr

/-- One entry of `order.shopOrder`. -/
structure ShopOrder where
  _id : Id
  shop : Id
  owner : Option Id
  subtotal : Number
  shopOrderItems : List OrderItem
  status : ShopOrderStatus
  assignment : Option Id
  assignedDeliveryBoy : Option Id
  deriving DecidableEq, Repr

/-- The `deliveryAddress` of an order. -/
structure DeliveryAddress where
  text : String
  latitude : Int
  longitude : Int
  deriving DecidableEq, Repr

/-- An Order document. -/
structure Order where
  _id : Id
  userId : Option Id
  deliveryAddress : DeliveryAddress
  totalAmount : Number
  shopOrder : List ShopOrder
  deriving DecidableEq, Repr

/-- A DeliveryAssignment document. -/
structure Assignment where
  _id : Id
  order : Id
  shop : Id
  shopOrderId : Id
  broadcastedTo : List Id
  assignedTo : Option Id
  status : AssignmentStatus
  acceptedAt : Option Nat
  completedAt : Option Nat
  deriving DecidableEq, Repr

/-- The two collections. -/
structure Store where
  assignments : List Assignment
  orders : List Order
  deriving DecidableEq, Repr

/-- A socket room: `io.to(...)` with one of the four key forms, or the bare
`io.emit` that reaches every socket. -/
inductive Room where
  | order (id : Id)
  | user (id : Id)
  | owner (id : Id)
  | delivery (id : Id)
  | everyone
  deriving DecidableEq, Repr

/-- The objects handed to `emit`. -/
inductive Payload where
  | status (orderId shopOrderId : Id) (status : ShopOrderStatus)
      (assignmentId assignedDeliveryBoy userId ownerId : Option Id) (message : String)
  | refresh (scope : String) (orderId : Id) (actor : Option Id)
  | closed (assignmentId orderId shopOrderId : Id)
  | offer (orderId shopOrderId assignmentId shop : Id) (address : DeliveryAddress)
      (subtotal : Number) (items : List (String × Number × Number))
  deriving DecidableEq, Repr

/-- One `io.to(room).emit(event, payload)` call. -/
structure Emit where
  room : Room
  event : String
  payload : Payload
  deriving DecidableEq, Repr

/-- The JSON envelope a handler answers with, and its HTTP status. -/
structure Response (α : Type) where
  status : Nat
  success : Bool
  message : String
  data : Option α
  deriving DecidableEq, Repr

/-- What a handler call leaves behind. -/
structure Outcome (α : Type) where
  response : Response α
  store : Store
  emits : List Emit
  deriving DecidableEq, Repr

/-- A failure envelope: `res.status(code).json(success false, message)`. -/
def failure {α : Type} (code : Nat) (message : String) : Response α :=
  { status := code, success := false, message := message, data := none }

/-- The envelope of every handler's `catch` block. -/
def internalError {α : Type} : Response α :=
  failure 500 "Internal server error"

/-- Rewrites the first element that satisfies `p`; the list is otherwise kept. -/
def updateFirst {α : Type} (p : α → Bool) (f : α → α) : List α → List α
  | [] => []
  | x :: xs => if p x then f x :: xs else x :: updateFirst p f xs

/-- The lookup `DeliveryAssignment.findById`. -/
def findAssignmentById (st : Store) (id : Id) : Option Assignment :=
  st.assignments.find? (fun a => a._id == id)

/-- The lookup `Order.findById`. -/
def findOrderById (st : Store) (id : Id) : Option Order :=
  st.orders.find? (fun o => o._id == id)

/-- The write `assignment.save()` of a loaded document. -/
def saveAssignment (st : Store) (a : Assignment) : Store :=
  { st with assignments := updateFirst (fun d => d._id == a._id) (fun _ => a) st.assignments }

/-- The write `order.save()` of a loaded document. -/
def saveOrder (st : Store) (o : Order) : Store :=
  { st with orders := updateFirst (fun d => d._id == o._id) (fun _ => o) st.orders }

/-- The accessor of `socket.js`: it throws until `initializeSocket` has run. -/
def getIO (ready : Bool) : Except String Unit :=
  if ready then .ok () else .error "Socket.io not initialized!"

/-- The events `acceptOrder` emits once both documents are saved. -/
def acceptEmits (assignment : Assignment) (order : Order) (shopOrder : ShopOrder)
    (deliveryBoyId : Id) (previousBroadcast : List Id) : List Emit :=
  let orderId := order._id
  let shopOrderId := assignment.shopOrderId
  let userId := order.userId
  let ownerId := shopOrder.owner
  let payload := Payload.status orderId shopOrderId shopOrder.status (some assignment._id)
    (some deliveryBoyId) userId ownerId "Delivery partner assigned"
  [⟨Room.order orderId, "order:status", payload⟩]
  ++ (match userId with
      | some u =>
        [⟨Room.user u, "order:status", payload⟩,
         ⟨Room.user u, "orders:refresh", Payload.refresh "user" orderId (some u)⟩,
         ⟨Room.everyone, "orders:refresh", Payload.refresh "user" orderId (some u)⟩]
      | none => [])
  ++ (match ownerId with
      | some o =>
        [⟨Room.owner o, "order:status", payload⟩,
         ⟨Room.owner o, "orders:refresh", Payload.refresh "owner" orderId (some o)⟩,
         ⟨Room.everyone, "orders:refresh", Payload.refresh "owner" orderId (some o)⟩]
      | none => [])
  ++ [⟨Room.delivery deliveryBoyId, "order:status", payload⟩,
      ⟨Room.delivery deliveryBoyId, "orders:refresh", Payload.refresh "delivery" orderId none⟩]
  ++ (previousBroadcast.filter (fun id => id != deliveryBoyId)).map
      (fun id => ⟨Room.delivery id, "delivery:assignment-closed",
        Payload.closed assignment._id orderId shopOrderId⟩)

/-- Lines 477-480 of `acceptOrder`: the fields set on the loaded Assignment
before `assignment.save()`. -/
def acceptedBy (assignment : Assignment) (deliveryBoyId : Id) (now : Nat) : Assignment :=
  { assignment with
    status := AssignmentStatus.assigned
    assignedTo := some deliveryBoyId
    acceptedAt := some now
    broadcastedTo := [] }

/-- Lines 484-487 of `acceptOrder`: `find` the ShopOrder by sub-id and set its
`assignedDeliveryBoy`. -/
def assignCourier (order : Order) (shopOrderId deliveryBoyId : Id) : Order :=
  { order with
    shopOrder := updateFirst (fun so => so._id == shopOrderId)
      (fun so => { so with assignedDeliveryBoy := some deliveryBoyId }) order.shopOrder }

/-- The success envelope of `acceptOrder`; its payload is the pair
(assignmentId, orderId). -/
def acceptedResponse (assignmentId orderId : Id) : Response (Id × Id) :=
  { status := 200, success := true, message := "Order accepted successfully",
    data := some (assignmentId, orderId) }

/-- The handler `acceptOrder`. `deliveryBoyId` is `req.userId`, `assignmentId`
is `req.params.assignmentId` (`none` when it is missing). -/
def acceptOrder (st : Store) (ready : Bool) (now : Nat) (deliveryBoyId : Id)
    (assignmentId : Option Id) : Outcome (Id × Id) :=
  match assignmentId with
  | none => ⟨failure 400 "assignmentId is required", st, []⟩
  | some aid =>
    match findAssignmentById st aid with
    | none => ⟨failure 404 "Assignment not found", st, []⟩
    | some assignment =>
      if assignment.status ≠ AssignmentStatus.broadcasted then
        ⟨failure 400 "Assignment is not in broadcasted state", st, []⟩
      else if ¬ assignment.broadcastedTo.contains deliveryBoyId then
        ⟨failure 403 "You are not authorized to accept this assignment", st, []⟩
      else
        let previousBroadcast := assignment.broadcastedTo
        let assignment1 := acceptedBy assignment deliveryBoyId now
        let st1 := saveAssignment st assignment1
        match findOrderById st1 assignment1.order with
        | none => ⟨internalError, st1, []⟩
        | some order =>
          match order.shopOrder.find? (fun so => so._id == assignment1.shopOrderId) with
          | none => ⟨internalError, st1, []⟩
          | some shopOrder =>
            let shopOrder1 : ShopOrder :=
              { shopOrder with assignedDeliveryBoy := some deliveryBoyId }
            let order1 := assignCourier order assignment1.shopOrderId deliveryBoyId
            let st2 := saveOrder st1 order1
            match getIO ready with
            | .error _ => ⟨internalError, st2, []⟩
            | .ok _ =>
              ⟨acceptedResponse assignment1._id order1._id, st2,
               acceptEmits assignment1 order1 shopOrder1 deliveryBoyId previousBroadcast⟩

/-! ## updateOrderStatus -/

/-- A courier as the auth service describes it; `location` is the pair
`coordinates[0]`, `coordinates[1]` (longitude, latitude). -/
structure Person where
  _id : Id
  fullName : String
  email : String
  mobile : String
  location : Option (Int × Int)
  deriving DecidableEq, Repr

/-- The answer of one POST to `/api/auth/nearby-delivery-boys`: the call throws,
or it answers with a body whose `data` field may be missing. -/
inductive NearbyAnswer where
  | failed
  | answered (data : Option (List Person))
  deriving DecidableEq, Repr

/-- The nearby-courier collaborator: longitude, latitude and `maxDistance` to
its answer. -/
abbrev NearbyCouriers := Int → Int → Nat → NearbyAnswer

/-- One entry of `deliveryBoyPayload`. -/
structure BoyPayload where
  id : Id
  name : String
  email : String
  phone : String
  latitude : Option Int
  longitude : Option Int
  deriving DecidableEq, Repr

/-- The `data` of the success envelope of `updateOrderStatus`. -/
structure StatusData where
  shopOrder : ShopOrder
  assignedDeliveryBoy : Option Id
  availableDeliveryBoys : List BoyPayload
  assignment : Option Id
  deriving DecidableEq, Repr

/-- What an `updateOrderStatus` call leaves behind: its outcome, the
`maxDistance` values it posted to the nearby-courier collaborator, in order,
and the document it made with `DeliveryAssignment.create`, if any. -/
structure StatusOutcome where
  outcome : Outcome StatusData
  queries : List Nat
  created : Option Assignment
  deriving DecidableEq, Repr

/-- The statuses of the busy-courier query. -/
def activeStatuses : List AssignmentStatus :=
  [AssignmentStatus.assigned, AssignmentStatus.pickedUp, AssignmentStatus.enRoute]

/-- The query `DeliveryAssignment.find(assignedTo in nearByIds, status in
active).distinct("assignedTo")`. -/
def busyDeliveryBoys (st : Store) (nearByIds : List Id) : List Id :=
  ((st.assignments.filter (fun a =>
      (match a.assignedTo with
       | some c => nearByIds.contains c
       | none => false) && activeStatuses.contains a.status)).filterMap
    (fun a => a.assignedTo)).dedup

/-- Lines 248-264: the first lookup at 5000, and the fallback at 20000 when the
first list (a missing `data` reads as the empty list) has length 0. The result
is the list of radii posted and the list kept, `none` when a call threw. -/
def lookupNearby (nearby : NearbyCouriers) (longitude latitude : Int) :
    List Nat × Option (List Person) :=
  match nearby longitude latitude 5000 with
  | NearbyAnswer.failed => ([5000], none)
  | NearbyAnswer.answered data =>
    let nearestDeliveryPerson := data.getD []
    if nearestDeliveryPerson.length = 0 then
      match nearby longitude latitude 20000 with
      | NearbyAnswer.failed => ([5000, 20000], none)
      | NearbyAnswer.answered fallback => ([5000, 20000], some (fallback.getD []))
    else ([5000], some nearestDeliveryPerson)

/-- Lines 274-277: the nearby couriers that are not in the busy set, in the
order of the nearby list. -/
def availableBoys (st : Store) (nearestDeliveryPerson : List Person) : List Person :=
  let nearByIds := nearestDeliveryPerson.map (fun person => person._id)
  let busySet := busyDeliveryBoys st nearByIds
  nearestDeliveryPerson.filter (fun person => !busySet.contains person._id)

/-- Modelled from the spec: `models/deliveryAssignment.model.js` is not among
the sources, so the defaults `DeliveryAssignment.create` fills in are the
spec's: the Assignment is created in `broadcasted` state, no courier
pre-selected, no timestamps. -/
def createAssignment (newId order shop shopOrderId : Id) (broadcastedTo : List Id) :
    Assignment :=
  { _id := newId, order := order, shop := shop, shopOrderId := shopOrderId,
    broadcastedTo := broadcastedTo, assignedTo := none,
    status := AssignmentStatus.broadcasted, acceptedAt := none, completedAt := none }

/-- One entry of `deliveryBoyPayload` (lines 290-297). -/
def boyPayload (b : Person) : BoyPayload :=
  { id := b._id, name := b.fullName, email := b.email, phone := b.mobile,
    latitude := b.location.map (fun c => c.2), longitude := b.location.map (fun c => c.1) }

/-- The table `statusMessages`. -/
def statusMessage : ShopOrderStatus → String
  | ShopOrderStatus.pending => "Order placed"
  | ShopOrderStatus.preparing => "Order is being prepared"
  | ShopOrderStatus.outForDelivery => "Order is out for delivery"
  | ShopOrderStatus.delivered => "Order delivered"
  | ShopOrderStatus.cancelled => "Order cancelled"

/-- The events `updateOrderStatus` emits after `order.save()`. -/
def statusEmits (order : Order) (updatedShopOrder : ShopOrder)
    (deliveryAssignment : Option Assignment) (deliveryBoyPayload : List BoyPayload) :
    List Emit :=
  let orderId := order._id
  let shopOrderKey := updatedShopOrder._id
  let userId := order.userId
  let ownerId := updatedShopOrder.owner
  let assignedDeliveryId := updatedShopOrder.assignedDeliveryBoy
  let payload := Payload.status orderId shopOrderKey updatedShopOrder.status
    updatedShopOrder.assignment assignedDeliveryId userId ownerId
    (statusMessage updatedShopOrder.status)
  [⟨Room.order orderId, "order:status", payload⟩]
  ++ (match userId with
      | some u =>
        [⟨Room.user u, "order:status", payload⟩,
         ⟨Room.user u, "orders:refresh", Payload.refresh "user" orderId (some u)⟩,
         ⟨Room.everyone, "orders:refresh", Payload.refresh "user" orderId (some u)⟩]
      | none => [])
  ++ (match ownerId with
      | some o =>
        [⟨Room.owner o, "order:status", payload⟩,
         ⟨Room.owner o, "orders:refresh", Payload.refresh "owner" orderId (some o)⟩,
         ⟨Room.everyone, "orders:refresh", Payload.refresh "owner" orderId (some o)⟩]
      | none => [])
  ++ (match assignedDeliveryId with
      | some d =>
        [⟨Room.delivery d, "order:status", payload⟩,
         ⟨Room.delivery d, "orders:refresh", Payload.refresh "delivery" orderId none⟩]
      | none => [])
  ++ (match deliveryAssignment with
      | some da =>
        if deliveryBoyPayload.length ≠ 0 then
          deliveryBoyPayload.map (fun boy =>
            ⟨Room.delivery boy.id, "delivery:assignment",
              Payload.offer orderId shopOrderKey da._id updatedShopOrder.shop
                order.deliveryAddress updatedShopOrder.subtotal
                (updatedShopOrder.shopOrderItems.map
                  (fun item => (item.name, item.quantity, item.price)))⟩)
        else []
      | none => [])

/-- Lines 243-301 of `updateOrderStatus`: the broadcast. Given the store, the
order, the ShopOrder with its new status already set, and the fresh id
`DeliveryAssignment.create` will draw, it returns the radii posted, the
document created, the ShopOrder after it, `deliveryBoyPayload` and the store.
A throwing collaborator call is caught and leaves everything as it was. -/
def broadcast (st : Store) (newId : Id) (nearby : NearbyCouriers) (order : Order)
    (shopOrder : ShopOrder) :
    List Nat × Option Assignment × ShopOrder × List BoyPayload × Store :=
  if shopOrder.status = ShopOrderStatus.outForDelivery ∧ shopOrder.assignment = none then
    match lookupNearby nearby order.deliveryAddress.longitude order.deliveryAddress.latitude with
    | (queries, none) => (queries, none, shopOrder, [], st)
    | (queries, some nearestDeliveryPerson) =>
      let available := availableBoys st nearestDeliveryPerson
      let candidates := available.map (fun b => b._id)
      let deliveryAssignment :=
        createAssignment newId order._id shopOrder.shop shopOrder._id candidates
      (queries, some deliveryAssignment,
       { shopOrder with
         assignment := some deliveryAssignment._id
         assignedDeliveryBoy := deliveryAssignment.assignedTo },
       available.map boyPayload,
       { st with assignments := st.assignments ++ [deliveryAssignment] })
  else ([], none, shopOrder, [], st)

/-- The handler `updateOrderStatus`. `orderId` and `shopOrderId` are the route
parameters and `status` is `req.body.status` (`none` when missing); `newId` is
the id `DeliveryAssignment.create` draws. The e-mail sent on `preparing`
touches neither store, response nor socket and is left out. -/
def updateOrderStatus (st : Store) (ready : Bool) (newId : Id) (nearby : NearbyCouriers)
    (orderId shopOrderId : Option Id) (status : Option ShopOrderStatus) : StatusOutcome :=
  match orderId, shopOrderId, status with
  | some oid, some sid, some status =>
    match findOrderById st oid with
    | none => ⟨⟨failure 404 "Order not found", st, []⟩, [], none⟩
    | some order =>
      match order.shopOrder.find? (fun so => so._id == sid) with
      | none => ⟨⟨failure 404 "Shop order not found", st, []⟩, [], none⟩
      | some shopOrder =>
        match broadcast st newId nearby order { shopOrder with status := status } with
        | (queries, deliveryAssignment, updatedShopOrder, deliveryBoyPayload, st1) =>
          let order1 : Order :=
            { order with
              shopOrder := updateFirst (fun so => so._id == sid) (fun _ => updatedShopOrder)
                order.shopOrder }
          let st2 := saveOrder st1 order1
          match getIO ready with
          | .error _ => ⟨⟨internalError, st2, []⟩, queries, deliveryAssignment⟩
          | .ok _ =>
            ⟨⟨{ status := 200, success := true,
                message := "Order status updated successfully",
                data := some
                  { shopOrder := updatedShopOrder
                    assignedDeliveryBoy := updatedShopOrder.assignedDeliveryBoy
                    availableDeliveryBoys := deliveryBoyPayload
                    assignment := updatedShopOrder.assignment } },
              st2,
              statusEmits order1 updatedShopOrder deliveryAssignment deliveryBoyPayload⟩,
             queries, deliveryAssignment⟩
  | _, _, _ =>
    ⟨⟨failure 400 "orderId, shopOrderId and status are required", st, []⟩, [], none⟩

/-- Whether some Assignment in an active status is held by courier `c`. -/
def isBusy (st : Store) (c : Id) : Prop :=
  ∃ a, a ∈ st.assignments ∧ a.assignedTo = some c ∧ a.status ∈ activeStatuses

/-! ## orderDelivered -/

/-- The answer of the POST to `/api/auth/verify-delivery-otp`: the call throws
(a non-2xx status included), or it answers with `success` and maybe a
`message`. -/
inductive VerifyAnswer where
  | failed
  | answered (success : Bool) (message : Option String)
  deriving DecidableEq, Repr

/-- The code-verification collaborator: the customer's user id and the
submitted code to its answer. -/
abbrev OtpVerifier := Option Id → String → VerifyAnswer

/-- The query `DeliveryAssignment.findOne(assignedTo: deliveryBoyId, status:
"assigned")`. -/
def findCurrentAssignment (st : Store) (deliveryBoyId : Id) : Option Assignment :=
  st.assignments.find? (fun a =>
    a.assignedTo == some deliveryBoyId && a.status == AssignmentStatus.assigned)

/-- The expression `verifyResponse.data.message || "Invalid OTP"`. -/
def invalidOtpMessage (message : Option String) : String :=
  match message with
  | some m => if m = "" then "Invalid OTP" else m
  | none => "Invalid OTP"

/-- The events `orderDelivered` emits once both documents are saved. -/
def deliveredEmits (order : Order) (shopOrder : ShopOrder) (deliveryBoyId : Id) : List Emit :=
  let orderId := order._id
  let shopOrderId := shopOrder._id
  let userIdStr := order.userId
  let ownerId := shopOrder.owner
  let payload := Payload.status orderId shopOrderId ShopOrderStatus.delivered none none
    userIdStr ownerId "Order delivered"
  [⟨Room.order orderId, "order:status", payload⟩]
  ++ (match userIdStr with
      | some u =>
        [⟨Room.user u, "order:status", payload⟩,
         ⟨Room.user u, "orders:refresh", Payload.refresh "user" orderId (some u)⟩,
         ⟨Room.everyone, "orders:refresh", Payload.refresh "user" orderId (some u)⟩]
      | none => [])
  ++ (match ownerId with
      | some o =>
        [⟨Room.owner o, "order:status", payload⟩,
         ⟨Room.owner o, "orders:refresh", Payload.refresh "owner" orderId (some o)⟩,
         ⟨Room.everyone, "orders:refresh", Payload.refresh "owner" orderId (some o)⟩]
      | none => [])
  ++ [⟨Room.delivery deliveryBoyId, "order:status", payload⟩,
      ⟨Room.delivery deliveryBoyId, "orders:refresh", Payload.refresh "delivery" orderId none⟩]

/-- Lines 721-723 of `orderDelivered`: the fields set on the loaded Assignment
before `assignment.save()`. -/
def markCompleted (assignment : Assignment) (now : Nat) : Assignment :=
  { assignment with
    status := AssignmentStatus.completed
    completedAt := some now
    assignedTo := none }

/-- Lines 727-731 of `orderDelivered`: `find` the ShopOrder by sub-id, set its
status to `delivered` and clear its courier. -/
def markDelivered (order : Order) (shopOrderId : Id) : Order :=
  { order with
    shopOrder := updateFirst (fun so => so._id == shopOrderId)
      (fun so => { so with status := ShopOrderStatus.delivered, assignedDeliveryBoy := none })
      order.shopOrder }

/-- The handler `orderDelivered`. `deliveryBoyId` is `req.userId` and `otp` is
`req.body.otp`. `populate("order")` is the lookup of the referenced order; when
it is gone, reading `assignment.order.userId` throws. -/
def orderDelivered (st : Store) (ready : Bool) (now : Nat) (verify : OtpVerifier)
    (deliveryBoyId : Id) (otp : String) : Outcome Unit :=
  match findCurrentAssignment st deliveryBoyId with
  | none => ⟨failure 404 "No current assignment found", st, []⟩
  | some assignment =>
    match findOrderById st assignment.order with
    | none => ⟨internalError, st, []⟩
    | some populated =>
      let userId := populated.userId
      match verify userId otp with
      | VerifyAnswer.failed => ⟨failure 400 "Invalid or expired OTP", st, []⟩
      | VerifyAnswer.answered success message =>
        if !success then ⟨failure 400 (invalidOtpMessage message), st, []⟩
        else
          let assignment1 := markCompleted assignment now
          let st1 := saveAssignment st assignment1
          match findOrderById st1 populated._id with
          | none => ⟨internalError, st1, []⟩
          | some order =>
            match order.shopOrder.find? (fun so => so._id == assignment1.shopOrderId) with
            | none => ⟨internalError, st1, []⟩
            | some shopOrder =>
              let shopOrder1 : ShopOrder :=
                { shopOrder with
                  status := ShopOrderStatus.delivered, assignedDeliveryBoy := none }
              let order1 := markDelivered order assignment1.shopOrderId
              let st2 := saveOrder st1 order1
              match getIO ready with
              | .error _ => ⟨internalError, st2, []⟩
              | .ok _ =>
                ⟨{ status := 200, success := true,
                   message := "Order marked as delivered successfully", data := none },
                 st2, deliveredEmits order1 shopOrder1 deliveryBoyId⟩

/-! ## acceptOrder under interleaving

`acceptOrder` gives up control at each of its four `await`s:
`DeliveryAssignment.findById`, `assignment.save()`, `Order.findById` and
`order.save()`. Between two of them the handler runs without interruption; at
each of them another call may run. A call is therefore a small machine whose
steps are the four database operations, each followed by the synchronous code
up to the next `await`.

`models/deliveryAssignment.model.js` is not among the sources, so whether the
schema keeps Mongoose's version key is a parameter `versionKey`. When it does,
`save()` of a document whose array path was set carries the version the
document was loaded with, fails (VersionError, caught as 500) when the stored
version differs, and increments the stored version when it succeeds. When it
does not, `save()` writes unconditionally.
-/

/-- Where an `acceptOrder` call stands. -/
inductive AcceptPc where
  /-- Before `await DeliveryAssignment.findById`. -/
  | start
  /-- The checks passed and the fields are set on the loaded document, which was
  read at `version`; `await assignment.save()` is pending. -/
  | saving (assignment : Assignment) (version : Nat) (previousBroadcast : List Id)
  /-- The assignment is saved; `await Order.findById` is pending. -/
  | loadingOrder (assignment : Assignment) (previousBroadcast : List Id)
  /-- The courier is set on the loaded order; `await order.save()` is pending. -/
  | savingOrder (assignment : Assignment) (order : Order) (shopOrder : ShopOrder)
      (previousBroadcast : List Id)
  /-- The call has answered. -/
  | finished (response : Response (Id × Id)) (emits : List Emit)
  deriving DecidableEq, Repr

/-- One `acceptOrder` call in flight: who calls, what its clock reads, and where
it stands. -/
structure AcceptCall where
  deliveryBoyId : Id
  now : Nat
  pc : AcceptPc
  deriving DecidableEq, Repr

/-- One step of one call against the shared store and the stored version of the
contested Assignment. -/
def acceptStep (versionKey ready : Bool) (aid : Id) (st : Store) (version : Nat)
    (c : AcceptCall) : Store × Nat × AcceptCall :=
  match c.pc with
  | AcceptPc.start =>
    match findAssignmentById st aid with
    | none =>
      (st, version, { c with pc := (AcceptPc.finished (failure 404 "Assignment not found") []) })
    | some assignment =>
      if assignment.status ≠ AssignmentStatus.broadcasted then
        (st, version,
          { c with pc := (AcceptPc.finished
              (failure 400 "Assignment is not in broadcasted state") []) })
      else if ¬ assignment.broadcastedTo.contains c.deliveryBoyId then
        (st, version,
          { c with pc := (AcceptPc.finished
              (failure 403 "You are not authorized to accept this assignment") []) })
      else
        (st, version,
          { c with pc := (AcceptPc.saving (acceptedBy assignment c.deliveryBoyId c.now)
              version assignment.broadcastedTo) })
  | AcceptPc.saving assignment1 loaded previousBroadcast =>
    if versionKey && loaded != version then
      (st, version, { c with pc := (AcceptPc.finished internalError []) })
    else
      (saveAssignment st assignment1, if versionKey then version + 1 else version,
        { c with pc := (AcceptPc.loadingOrder assignment1 previousBroadcast) })
  | AcceptPc.loadingOrder assignment1 previousBroadcast =>
    match findOrderById st assignment1.order with
    | none => (st, version, { c with pc := (AcceptPc.finished internalError []) })
    | some order =>
      match order.shopOrder.find? (fun so => so._id == assignment1.shopOrderId) with
      | none => (st, version, { c with pc := (AcceptPc.finished internalError []) })
      | some shopOrder =>
        (st, version,
          { c with pc := (AcceptPc.savingOrder assignment1
              (assignCourier order assignment1.shopOrderId c.deliveryBoyId)
              { shopOrder with assignedDeliveryBoy := some c.deliveryBoyId }
              previousBroadcast) })
  | AcceptPc.savingOrder assignment1 order1 shopOrder1 previousBroadcast =>
    match getIO ready with
    | .error _ =>
      (saveOrder st order1, version, { c with pc := (AcceptPc.finished internalError []) })
    | .ok _ =>
      (saveOrder st order1, version,
        { c with pc := (AcceptPc.finished (acceptedResponse assignment1._id order1._id)
            (acceptEmits assignment1 order1 shopOrder1 c.deliveryBoyId previousBroadcast)) })
  | AcceptPc.finished _ _ => (st, version, c)

/-- The shared store, the stored version of the contested Assignment, and the
calls in flight. -/
structure World where
  store : Store
  version : Nat
  calls : List AcceptCall
  deriving DecidableEq, Repr

/-- The scheduler lets call number `i` take its next step. -/
def stepAt (versionKey ready : Bool) (aid : Id) (w : World) (i : Nat) : World :=
  match w.calls[i]? with
  | none => w
  | some c =>
    match acceptStep versionKey ready aid w.store w.version c with
    | (st, version, c1) => { store := st, version := version, calls := w.calls.set i c1 }

/-- Runs a schedule: the calls take their steps in the order listed. -/
def run (versionKey ready : Bool) (aid : Id) (schedule : List Nat) (w : World) : World :=
  schedule.foldl (stepAt versionKey ready aid) w

/-- The calls of the listed couriers, none of which has taken a step; each
reads its clock one tick after the one before it. -/
def startCalls (now : Nat) : List Id → List AcceptCall
  | [] => []
  | d :: ds => ⟨d, now, AcceptPc.start⟩ :: startCalls (now + 1) ds

/-- The world in which the listed couriers have each just called `acceptOrder`. -/
def startWorld (st : Store) (now : Nat) (couriers : List Id) : World :=
  { store := st, version := 0, calls := startCalls now couriers }

/-- A number of consecutive steps of one call, no other call running in between. -/
def acceptSteps (versionKey ready : Bool) (aid : Id) :
    Nat → Store × Nat × AcceptCall → Store × Nat × AcceptCall
  | 0, x => x
  | n + 1, x => acceptSteps versionKey ready aid n (acceptStep versionKey ready aid x.1 x.2.1 x.2.2)

/-- The listed calls, each taking its four steps before the next one starts. -/
def serialFold (versionKey ready : Bool) (aid : Id) :
    Store → Nat → List AcceptCall → Store × Nat × List AcceptCall
  | st, v, [] => (st, v, [])
  | st, v, c :: cs =>
    ((serialFold versionKey ready aid (acceptSteps versionKey ready aid 4 (st, v, c)).1
        (acceptSteps versionKey ready aid 4 (st, v, c)).2.1 cs).1,
     (serialFold versionKey ready aid (acceptSteps versionKey ready aid 4 (st, v, c)).1
        (acceptSteps versionKey ready aid 4 (st, v, c)).2.1 cs).2.1,
     (acceptSteps versionKey ready aid 4 (st, v, c)).2.2 ::
      (serialFold versionKey ready aid (acceptSteps versionKey ready aid 4 (st, v, c)).1
        (acceptSteps versionKey ready aid 4 (st, v, c)).2.1 cs).2.2)

/-- The schedule without interleaving: call 0 takes its four steps, then call 1
takes its four steps, and so on. -/
def serialSchedule (n : Nat) : List Nat :=
  (List.range n).flatMap (fun i => [i, i, i, i])

/-- The answer of a call, once it has answered. -/
def AcceptCall.response (c : AcceptCall) : Option (Response (Id × Id)) :=
  match c.pc with
  | AcceptPc.finished r _ => some r
  | _ => none

/-- The call answered 200. -/
def AcceptCall.succeeded (c : AcceptCall) : Bool :=
  match c.pc with
  | AcceptPc.finished r _ => r.status == 200
  | _ => false

/-- The call answered InvalidState (400, not in broadcasted state) or Forbidden
(403). -/
def AcceptCall.rejected (c : AcceptCall) : Bool :=
  match c.pc with
  | AcceptPc.finished r _ =>
    (r.status == 400 && r.message == "Assignment is not in broadcasted state")
      || r.status == 403
  | _ => false

/-- The concurrency property of the Accept Resolver, read off a world in which
every call has answered: exactly one call succeeded, every other call was
rejected with InvalidState or Forbidden, and the stored Assignment is assigned
to the courier of the call that succeeded. -/
def exactlyOneWins (aid : Id) (w : World) : Bool :=
  (w.calls.filter AcceptCall.succeeded).length == 1
    && w.calls.all (fun c => c.succeeded || c.rejected)
    && (match findAssignmentById w.store aid with
        | some a => w.calls.any (fun c => c.succeeded && a.assignedTo == some c.deliveryBoyId)
        | none => false)

/-- Some save has landed: the stored Assignment is there and no longer
broadcasted. -/
def landed (aid : Id) (st : Store) : Prop :=
  ∃ a, findAssignmentById st aid = some a ∧ a.status ≠ AssignmentStatus.broadcasted

/-- Every save still pending carries a document that is not broadcasted. -/
def pendingAssigned (w : World) : Prop :=
  ∀ c, c ∈ w.calls → ∀ a1 v prev, c.pc = AcceptPc.saving a1 v prev →
    a1.status ≠ AssignmentStatus.broadcasted

/-- The call is past its `assignment.save()`: the save has landed and the call
is loading or saving the order, or has answered 200. -/
def AcceptCall.past (c : AcceptCall) : Bool :=
  match c.pc with
  | AcceptPc.loadingOrder _ _ => true
  | AcceptPc.savingOrder _ _ _ _ => true
  | AcceptPc.finished r _ => r.status == 200
  | _ => false

/-- What holds of one call in flight against the Assignment `a` as it was
broadcasted: the caller is a candidate; a document waiting to be saved is `a`
with this caller's fields set and was loaded at version 0; an order waiting to
be saved is the parent order and holds the shop order; an answer is the success
envelope, InvalidState, or, with the version key only, the 500 of a rejected
save. -/
def CallInv (versionKey : Bool) (a : Assignment) (c : AcceptCall) : Prop :=
  c.deliveryBoyId ∈ a.broadcastedTo ∧
  match c.pc with
  | AcceptPc.start => True
  | AcceptPc.saving a1 loaded _ => a1 = acceptedBy a c.deliveryBoyId c.now ∧ loaded = 0
  | AcceptPc.loadingOrder a1 _ => a1 = acceptedBy a c.deliveryBoyId c.now
  | AcceptPc.savingOrder a1 o1 _ _ =>
    a1 = acceptedBy a c.deliveryBoyId c.now ∧ o1._id = a.order ∧
      (o1.shopOrder.find? (fun s => s._id == a.shopOrderId)).isSome = true
  | AcceptPc.finished r _ =>
    r = acceptedResponse a._id a.order
      ∨ r = failure 400 "Assignment is not in broadcasted state"
      ∨ (versionKey = true ∧ r = internalError)

/-- What holds of the world after any number of steps of calls by candidates of
the broadcasted Assignment `a`: every call satisfies `CallInv`; the parent
order is stored and holds the shop order; and either no save has landed, the
stored Assignment is `a` at version 0 and every call is still reading or
waiting to save, or some call is past its save and the stored Assignment is
`a` with that caller's fields set, in which case, with the version key, the
stored version is 1 and that call is the only one past its save. -/
def WorldInv (versionKey : Bool) (aid : Id) (a : Assignment) (w : World) : Prop :=
  (∀ c, c ∈ w.calls → CallInv versionKey a c) ∧
  (∃ o, findOrderById w.store a.order = some o ∧
    (o.shopOrder.find? (fun s => s._id == a.shopOrderId)).isSome = true) ∧
  ((findAssignmentById w.store aid = some a ∧ w.version = 0 ∧
      ∀ c, c ∈ w.calls → c.pc = AcceptPc.start ∨ ∃ a1 l p, c.pc = AcceptPc.saving a1 l p)
    ∨ (∃ (j : Nat) (c : AcceptCall), w.calls[j]? = some c ∧ c.past = true ∧
        findAssignmentById w.store aid = some (acceptedBy a c.deliveryBoyId c.now) ∧
        (versionKey = true → w.version = 1 ∧ w.calls.countP AcceptCall.past = 1)))

/-! ## getOwnerOrders -/

/-- Line 197 of `getOwnerOrders`, `totalAmount < 500 ? totalAmount + 50 : totalAmount`:
the flat delivery fee added below 500. -/
def displayedTotal (totalAmount : Number) : Number :=
  if totalAmount.lt 500 then totalAmount.add 50 else totalAmount

/-- Lines 187-200: what one order looks like to the owner. Only the owner's
shop orders are kept, and the total is recomputed from their subtotals by the
`reduce` of lines 192-194, which adds them from left to right, starting at 0. -/
def ownerView (ownerId : Id) (order : Order) : Order :=
  let filteredShopOrder := order.shopOrder.filter (fun so => so.owner == some ownerId)
  let totalAmount := filteredShopOrder.foldl (fun acc so => acc.add so.subtotal) 0
  { order with totalAmount := displayedTotal totalAmount, shopOrder := filteredShopOrder }

/-- The query `Order.find("shopOrder.owner": ownerId).sort(createdAt: -1)`. The
creation time of a document comes from the schema's timestamps, which are not
among the sources, so it is a parameter: order id to creation time. -/
def findOwnerOrders (st : Store) (createdAt : Id → Nat) (ownerId : Id) : List Order :=
  (st.orders.filter (fun o => o.shopOrder.any (fun so => so.owner == some ownerId))).insertionSort
    (fun a b => createdAt b._id ≤ createdAt a._id)

/-- The handler `getOwnerOrders`; `ownerId` is `req.userId`. It saves nothing
and emits nothing. -/
def getOwnerOrders (st : Store) (createdAt : Id → Nat) (ownerId : Id) : Outcome (List Order) :=
  ⟨{ status := 200, success := true, message := "",
     data := some ((findOwnerOrders st createdAt ownerId).map (ownerView ownerId)) },
   st, []⟩

/-! ## rateOrder -/

/-- The payload of the success envelope of `rateOrder`: `rating` and
`ratedItems`, the latter as pairs (itemId, rating). -/
structure RateData where
  rating : ℚ
  ratedItems : List (Id × ℚ)
  deriving DecidableEq, Repr

/-- What a `rateOrder` call leaves behind: its outcome and the POSTs it made to
the item catalog, in order, as pairs (itemId, rating). -/
structure RateOutcome where
  outcome : Outcome RateData
  catalogCalls : List (Id × ℚ)
  deriving DecidableEq, Repr

/-- The item-catalog collaborator, as seen by one `rateOrder` call: whether the
POST made for the item at position `j` of the ShopOrder at position `i`
succeeds. Each position is posted at most once per call, so any pattern of
failures is such a function. -/
abbrev ItemCatalog := Nat → Nat → Id → ℚ → Bool

/-- Maps over a list with the position of each element, counting from `i`. -/
def mapWithIndex {α β : Type} (f : Nat → α → β) : Nat → List α → List β
  | _, [] => []
  | i, x :: xs => f i x :: mapWithIndex f (i + 1) xs

/-- Lines 813-820: the rateable items among the items of the ShopOrder at
position `i`, from item position `j` on. An item without id or with a rating
already is skipped. -/
def rateableInShopOrder (i : Nat) : Nat → List OrderItem → List (Nat × Nat × Id)
  | _, [] => []
  | j, orderItemDoc :: rest =>
    match orderItemDoc.item with
    | none => rateableInShopOrder i (j + 1) rest
    | some itemId =>
      if orderItemDoc.userRating.isSome then rateableInShopOrder i (j + 1) rest
      else (i, j, itemId) :: rateableInShopOrder i (j + 1) rest

/-- Lines 806-821: the rateable items of the ShopOrders from position `i` on.
A ShopOrder that is not delivered contributes nothing. -/
def rateableFrom : Nat → List ShopOrder → List (Nat × Nat × Id)
  | _, [] => []
  | i, shopOrderDoc :: rest =>
    (if shopOrderDoc.status ≠ ShopOrderStatus.delivered then []
      else rateableInShopOrder i 0 shopOrderDoc.shopOrderItems)
    ++ rateableFrom (i + 1) rest

/-- The list `rateableItems`: position of the ShopOrder, position of the item in
it, and the item id. -/
def rateableItems (order : Order) : List (Nat × Nat × Id) :=
  rateableFrom 0 order.shopOrder

/-- Lines 833-847: the loop over the rateable items. An entry whose POST
succeeds is marked as rated and pushed to `ratingResults`; an entry whose POST
throws is logged and skipped. The accumulator is the pair (rated positions,
`ratingResults`). -/
def ratingLoop (catalog : ItemCatalog) (parsedRating : ℚ) :
    List (Nat × Nat × Id) → List (Nat × Nat × Id) × List (Id × ℚ) →
    List (Nat × Nat × Id) × List (Id × ℚ)
  | [], acc => acc
  | (i, j, itemId) :: rest, (rated, ratingResults) =>
    if catalog i j itemId parsedRating then
      ratingLoop catalog parsedRating rest
        (rated ++ [(i, j, itemId)], ratingResults ++ [(itemId, parsedRating)])
    else ratingLoop catalog parsedRating rest (rated, ratingResults)

/-- Lines 840-841, applied to the order: every item at a rated position gets the
rating and the rating timestamp; every other item is kept. -/
def setRatings (rated : List (Nat × Nat × Id)) (parsedRating : ℚ) (now : Nat)
    (order : Order) : Order :=
  { order with
    shopOrder := mapWithIndex (fun i shopOrderDoc =>
      { shopOrderDoc with
        shopOrderItems := mapWithIndex (fun j orderItemDoc =>
          if rated.any (fun e => e.1 == i && e.2.1 == j) then
            { orderItemDoc with userRating := some parsedRating, ratedAt := some now }
          else orderItemDoc) 0 shopOrderDoc.shopOrderItems }) 0 order.shopOrder }

/-- The events `rateOrder` emits after `order.save()`. -/
def rateEmits (order : Order) : List Emit :=
  (match order.userId with
   | some u =>
     [⟨Room.user u, "orders:refresh", Payload.refresh "user" order._id (some u)⟩,
      ⟨Room.everyone, "orders:refresh", Payload.refresh "user" order._id (some u)⟩]
   | none => [])
  ++ order.shopOrder.filterMap (fun shopOrderDoc =>
      shopOrderDoc.owner.map (fun o =>
        ⟨Room.owner o, "orders:refresh", Payload.refresh "owner" order._id (some o)⟩))

/-- The handler `rateOrder`. `userId` is `req.userId`, `orderId` is the route
parameter, and `parsedRating` is `Number(req.body.rating)`, `none` when that is
not finite. -/
def rateOrder (st : Store) (ready : Bool) (now : Nat) (catalog : ItemCatalog)
    (userId : Option Id) (orderId : Id) (parsedRating : Option ℚ) : RateOutcome :=
  match parsedRating with
  | none => ⟨⟨failure 400 "Rating must be a number between 1 and 5", st, []⟩, []⟩
  | some r =>
    if r < 1 ∨ r > 5 then
      ⟨⟨failure 400 "Rating must be a number between 1 and 5", st, []⟩, []⟩
    else
      match findOrderById st orderId with
      | none => ⟨⟨failure 404 "Order not found", st, []⟩, []⟩
      | some order =>
        if order.userId ≠ userId then
          ⟨⟨failure 403 "You cannot rate this order", st, []⟩, []⟩
        else if order.shopOrder.length = 0 then
          ⟨⟨failure 400 "Order has no items to rate", st, []⟩, []⟩
        else if (rateableItems order).length = 0 then
          ⟨⟨failure 400 "Order is either not delivered yet or already rated", st, []⟩, []⟩
        else
          let looped := ratingLoop catalog r (rateableItems order) ([], [])
          let order1 := setRatings looped.1 r now order
          let st1 := saveOrder st order1
          let calls := (rateableItems order).map (fun e => (e.2.2, r))
          match getIO ready with
          | .error _ => ⟨⟨internalError, st1, []⟩, calls⟩
          | .ok _ =>
            ⟨⟨{ status := 200, success := true, message := "Thanks for rating your order",
                data := some { rating := r, ratedItems := looped.2 } },
              st1, rateEmits order1⟩, calls⟩

/-! ## placeOrder -/

/-- One entry of `req.body.cartItems`. `shop` is the shop id after the
normalisation of line 42 (`none` when it is missing), `id` is `i.id || i._id`,
and `price` and `quantity` are the numbers sent in these fields, for which
`Number(item.price)` and `Number(item.quantity)` are the fields themselves. -/
structure CartItem where
  shop : Option Id
  id : Option Id
  name : String
  quantity : Number
  price : Number
  deriving DecidableEq, Repr

/-- A shop as the shop service describes it. -/
structure Shop where
  _id : Id
  owner : Option Id
  deriving DecidableEq, Repr

/-- The answer of one GET to `/api/shops/:id`: the call throws, or it answers
with a body whose `data` may be missing. -/
inductive ShopAnswer where
  | failed
  | answered (shop : Option Shop)
  deriving DecidableEq, Repr

/-- The shop-lookup collaborator. -/
abbrev ShopLookup := Id → ShopAnswer

/-- The three payment fields `placeOrder` reads, each after its `||` fallback
(`payment.orderId || payment.razorpay_order_id` and so on); `none` when the
result is falsy. -/
structure PaymentInput where
  orderId : Option String
  paymentId : Option String
  signature : Option String
  deriving DecidableEq, Repr

/-- The body of a `placeOrder` request. -/
structure PlaceRequest where
  cartItems : Option (List CartItem)
  paymentMethod : String
  deliveryAddress : Option DeliveryAddress
  totalAmount : Number
  payment : PaymentInput
  deriving DecidableEq, Repr

/-- The payload of the success envelope of `placeOrder`: the created order, with
the payment fields that the `Order` record leaves out. -/
structure PlacedOrder where
  order : Order
  paymentMethod : String
  paymentStatus : String
  deriving DecidableEq, Repr

/-- Lines 46-50: push the item on the group of its shop, opening the group at
the end when the shop is new. -/
def pushGroup (key : Id) (item : CartItem) : List (Id × List CartItem) → List (Id × List CartItem)
  | [] => [(key, [item])]
  | (k, items) :: rest =>
    if k = key then (k, items ++ [item]) :: rest
    else (k, items) :: pushGroup key item rest

/-- Lines 41-51: group the cart by shop id. The groups are kept in the order in
which `Object.keys` lists them, the order in which the shops first appear; an
item without shop id throws. -/
def groupItemsByShop : List CartItem → List (Id × List CartItem) →
    Option (List (Id × List CartItem))
  | [], groups => some groups
  | item :: rest, groups =>
    match item.shop with
    | none => none
    | some shopId => groupItemsByShop rest (pushGroup shopId item groups)

/-- Lines 65-68: the subtotal of one group, the `reduce` that adds
`Number(item.price) * Number(item.quantity)` from left to right, starting at 0. -/
def subTotal (items : List CartItem) : Number :=
  items.foldl (fun acc item => acc.add (item.price.mul item.quantity)) 0

/-- Modelled from the spec: `models/order.model.js` is not among the sources,
so the defaults `Order.create` fills in for a ShopOrder are the spec's: status
`pending`, no assignment reference and no assigned courier; `subId` is the
sub-id it generates. The other fields are lines 70-82. -/
def shopOrderOf (subId : Id) (shop : Shop) (items : List CartItem) : ShopOrder :=
  { _id := subId, shop := shop._id, owner := shop.owner, subtotal := subTotal items,
    shopOrderItems := items.map (fun i =>
      { item := i.id, name := i.name, quantity := i.quantity, price := i.price,
        userRating := none, ratedAt := none }),
    status := ShopOrderStatus.pending, assignment := none, assignedDeliveryBoy := none }

/-- Lines 54-88: one shop lookup per group; a lookup that throws, or that
answers without a shop, makes the whole `Promise.all` throw. `subId k` is the
sub-id of the ShopOrder number `k`. -/
def buildShopOrders (shops : ShopLookup) (subId : Nat → Id) :
    Nat → List (Id × List CartItem) → Option (List ShopOrder)
  | _, [] => some []
  | k, (shopId, items) :: rest =>
    match shops shopId with
    | ShopAnswer.failed => none
    | ShopAnswer.answered none => none
    | ShopAnswer.answered (some shop) =>
      (buildShopOrders shops subId (k + 1) rest).map
        (fun shopOrders => shopOrderOf (subId k) shop items :: shopOrders)

/-- The outcome of the payment block, lines 91-127. -/
inductive PaymentCheck where
  | rejected (code : Nat) (message : String)
  | passed (paymentStatus : String)
  deriving DecidableEq, Repr

/-- Lines 91-127. `secret` is `RAZORPAY_KEY_SECRET || RAZORPAY_SECRET_KEY` of the
environment, and `hmac secret message` is the hex digest of the SHA-256 HMAC. -/
def checkPayment (secret : Option String) (hmac : String → String → String)
    (paymentMethod : String) (payment : PaymentInput) : PaymentCheck :=
  if paymentMethod = "online" then
    match payment.orderId, payment.paymentId, payment.signature with
    | some reqOrderId, some reqPaymentId, some reqSignature =>
      match secret with
      | none => PaymentCheck.rejected 500 "Payment configuration missing"
      | some s =>
        if hmac s (reqOrderId ++ "|" ++ reqPaymentId) ≠ reqSignature then
          PaymentCheck.rejected 400 "Invalid payment signature"
        else PaymentCheck.passed "paid"
    | _, _, _ => PaymentCheck.rejected 400 "Payment details are required for online payments"
  else PaymentCheck.passed "pending"

/-- The events `placeOrder` emits after `Order.create`. -/
def placeEmits (newOrder : Order) (userId : Id) : List Emit :=
  [⟨Room.user userId, "orders:refresh", Payload.refresh "user" newOrder._id (some userId)⟩,
   ⟨Room.everyone, "orders:refresh", Payload.refresh "user" newOrder._id (some userId)⟩]
  ++ newOrder.shopOrder.flatMap (fun entry =>
      match entry.owner with
      | some ownerId =>
        [⟨Room.owner ownerId, "orders:refresh", Payload.refresh "owner" newOrder._id (some ownerId)⟩,
         ⟨Room.everyone, "orders:refresh", Payload.refresh "owner" newOrder._id (some ownerId)⟩]
      | none => [])

/-- The handler `placeOrder`. `userId` is `req.userId`, `newId` is the id
`Order.create` draws for the order and `subId` the sub-ids it draws for the
ShopOrders. -/
def placeOrder (st : Store) (ready : Bool) (shops : ShopLookup) (secret : Option String)
    (hmac : String → String → String) (newId : Id) (subId : Nat → Id) (userId : Id)
    (req : PlaceRequest) : Outcome PlacedOrder :=
  match req.cartItems with
  | none => ⟨failure 400 "Cart is empty", st, []⟩
  | some cartItems =>
    if cartItems.length = 0 then ⟨failure 400 "Cart is empty", st, []⟩
    else
      match req.deliveryAddress with
      | none => ⟨failure 400 "Delivery address is required", st, []⟩
      | some deliveryAddress =>
        if deliveryAddress.text = "" ∨ deliveryAddress.latitude = 0
            ∨ deliveryAddress.longitude = 0 then
          ⟨failure 400 "Delivery address is required", st, []⟩
        else
          match groupItemsByShop cartItems [] with
          | none => ⟨internalError, st, []⟩
          | some groups =>
            match buildShopOrders shops subId 0 groups with
            | none => ⟨internalError, st, []⟩
            | some shopOrder =>
              match checkPayment secret hmac req.paymentMethod req.payment with
              | PaymentCheck.rejected code message => ⟨failure code message, st, []⟩
              | PaymentCheck.passed paymentStatus =>
                let newOrder : Order :=
                  { _id := newId, userId := some userId, deliveryAddress := deliveryAddress,
                    totalAmount := req.totalAmount, shopOrder := shopOrder }
                let st1 : Store := { st with orders := st.orders ++ [newOrder] }
                match getIO ready with
                | .error _ => ⟨internalError, st1, []⟩
                | .ok _ =>
                  ⟨{ status := 201, success := true, message := "Order placed successfully",
                     data := some
                       { order := newOrder, paymentMethod := req.paymentMethod,
                         paymentStatus := paymentStatus } },
                   st1, placeEmits newOrder userId⟩

/-- The exact amount of one cart line, price times quantity without rounding,
against which the program's arithmetic is measured; a price or quantity that is
not finite counts as 0. -/
def lineAmount (item : CartItem) : ℚ :=
  item.price.toRat * item.quantity.toRat

/-- What the grouping of a cart prefix `seen` looks like: the shop ids of the
groups are pairwise distinct and are exactly the shop ids that occur in `seen`,
each group holds the items of `seen` of its shop, in cart order, and the groups
together account for every item of `seen` once. -/
def Grouped (groups : List (Id × List CartItem)) (seen : List CartItem) : Prop :=
  (groups.map Prod.fst).Nodup ∧
  (∀ p, p ∈ groups → p.2 = seen.filter (fun it => it.shop == some p.1)) ∧
  (∀ k, k ∈ groups.map Prod.fst ↔ ∃ it, it ∈ seen ∧ it.shop = some k) ∧
  (groups.map (fun g => (g.2.map lineAmount).sum)).sum = (seen.map lineAmount).sum

/-! ## The server of index.js -/

/-- The process state that `index.js` builds: whether the module variable `io`
of `socket.js` is set, whether the order routes are mounted on the express app,
and whether the HTTP server listens. -/
structure Server where
  io : Bool
  mounted : Bool
  listening : Bool
  deriving DecidableEq, Repr

/-- The process once the modules are loaded: `let io;` is undefined, no route is
mounted, nothing listens. -/
def Server.fresh : Server :=
  { io := false, mounted := false, listening := false }

/-- The function `initializeSocket` of `socket.js`, the only code that assigns
`io`. -/
def initializeSocket (s : Server) : Server :=
  { s with io := true }

/-- Line 31 of `index.js`: `app.use('/api/orders', orderRoutes)`. -/
def mountRoutes (s : Server) : Server :=
  { s with mounted := true }

/-- Line 62 of `index.js`: `server.listen(PORT, ...)`. -/
def listen (s : Server) : Server :=
  { s with listening := true }

/-- The states the process passes through while `index.js` runs from top to
bottom: `initializeSocket(server)` at line 16, the routes at line 31, `listen`
at line 62. -/
def bootStates : List Server :=
  [Server.fresh, initializeSocket Server.fresh, mountRoutes (initializeSocket Server.fresh),
   listen (mountRoutes (initializeSocket Server.fresh))]

/-- The process once `index.js` has run. No handler assigns `io`, so this is the
process state every request meets. -/
def startServer : Server :=
  listen (mountRoutes (initializeSocket Server.fresh))

/-- A request to one of the four handlers that notify, past authentication,
with what its collaborators answer. -/
inductive Request where
  | acceptOrder (now : Nat) (deliveryBoyId : Id) (assignmentId : Option Id)
  | updateOrderStatus (newId : Id) (nearby : NearbyCouriers) (orderId shopOrderId : Option Id)
      (status : Option ShopOrderStatus)
  | orderDelivered (now : Nat) (verify : OtpVerifier) (deliveryBoyId : Id) (otp : String)
  | placeOrder (shops : ShopLookup) (secret : Option String) (hmac : String → String → String)
      (newId : Id) (subId : Nat → Id) (userId : Id) (req : PlaceRequest)

/-- The handler of a request, run with the socket handle in the given state:
the HTTP status it answers with, the store it leaves and the events it emits. -/
def dispatch (ready : Bool) (st : Store) : Request → Nat × Store × List Emit
  | Request.acceptOrder now deliveryBoyId assignmentId =>
    ((acceptOrder st ready now deliveryBoyId assignmentId).response.status,
     (acceptOrder st ready now deliveryBoyId assignmentId).store,
     (acceptOrder st ready now deliveryBoyId assignmentId).emits)
  | Request.updateOrderStatus newId nearby orderId shopOrderId status =>
    ((updateOrderStatus st ready newId nearby orderId shopOrderId status).outcome.response.status,
     (updateOrderStatus st ready newId nearby orderId shopOrderId status).outcome.store,
     (updateOrderStatus st ready newId nearby orderId shopOrderId status).outcome.emits)
  | Request.orderDelivered now verify deliveryBoyId otp =>
    ((orderDelivered st ready now verify deliveryBoyId otp).response.status,
     (orderDelivered st ready now verify deliveryBoyId otp).store,
     (orderDelivered st ready now verify deliveryBoyId otp).emits)
  | Request.placeOrder shops secret hmac newId subId userId req =>
    ((placeOrder st ready shops secret hmac newId subId userId req).response.status,
     (placeOrder st ready shops secret hmac newId subId userId req).store,
     (placeOrder st ready shops secret hmac newId subId userId req).emits)

/-- What the process does with a request: nothing reaches a handler before the
routes are mounted and the server listens; from then on the handler runs and
its `getIO()` reads the `io` of the process. -/
def serve (s : Server) (st : Store) (r : Request) : Option (Nat × Store × List Emit) :=
  if s.mounted && s.listening then some (dispatch s.io st r) else none

/-! ## Sample data -/

/-- A broadcasted assignment offered to couriers 5 and 6. -/
def sampleOffer : Assignment :=
  { _id := 1, order := 10, shop := 20, shopOrderId := 100, broadcastedTo := [5, 6],
    assignedTo := none, status := AssignmentStatus.broadcasted,
    acceptedAt := none, completedAt := none }

/-- An assignment already held by courier 7. -/
def sampleHeld : Assignment :=
  { _id := 2, order := 10, shop := 21, shopOrderId := 101, broadcastedTo := [],
    assignedTo := some 7, status := AssignmentStatus.assigned,
    acceptedAt := some 3, completedAt := none }

/-- The shop order that `sampleOffer` is about. -/
def sampleShopOrder100 : ShopOrder :=
  { _id := 100, shop := 20, owner := some 40, subtotal := 300, shopOrderItems := [],
    status := ShopOrderStatus.outForDelivery, assignment := some 1,
    assignedDeliveryBoy := none }

/-- The shop order that `sampleHeld` is about. -/
def sampleShopOrder101 : ShopOrder :=
  { _id := 101, shop := 21, owner := some 41, subtotal := 400, shopOrderItems := [],
    status := ShopOrderStatus.outForDelivery, assignment := some 2,
    assignedDeliveryBoy := some 7 }

/-- An order with two shop orders, one per sample assignment. -/
def sampleOrder : Order :=
  { _id := 10, userId := some 30,
    deliveryAddress := { text := "12 Main St", latitude := 28, longitude := 77 },
    totalAmount := 700,
    shopOrder :=
      [sampleShopOrder100, sampleShopOrder101] }

/-- A store holding the sample documents. -/
def sampleStore : Store :=
  { assignments := [sampleOffer, sampleHeld], orders := [sampleOrder] }

/-- A shop order being prepared, with no assignment yet. -/
def sampleShopOrder110 : ShopOrder :=
  { _id := 110, shop := 22, owner := some 42, subtotal := 250,
    shopOrderItems :=
      [ { item := some 900, name := "Dosa", quantity := 2, price := 125,
          userRating := none, ratedAt := none } ],
    status := ShopOrderStatus.preparing, assignment := none,
    assignedDeliveryBoy := none }

/-- An order whose only shop order is `sampleShopOrder110`. -/
def sampleOrder2 : Order :=
  { _id := 11, userId := some 31,
    deliveryAddress := { text := "3 Park Rd", latitude := 12, longitude := 34 },
    totalAmount := 250,
    shopOrder := [sampleShopOrder110] }

/-- The sample store with the second order added. -/
def sampleStore2 : Store :=
  { assignments := [sampleOffer, sampleHeld], orders := [sampleOrder, sampleOrder2] }

/-- Courier 7, who holds `sampleHeld`. -/
def courier7 : Person :=
  { _id := 7, fullName := "Asha", email := "asha@example.com", mobile := "100",
    location := some (34, 12) }

/-- Courier 8, who holds nothing. -/
def courier8 : Person :=
  { _id := 8, fullName := "Ravi", email := "ravi@example.com", mobile := "101",
    location := some (35, 12) }

/-- A collaborator that finds couriers 7 and 8 within 5000. -/
def nearbyClose : NearbyCouriers :=
  fun _ _ _ => NearbyAnswer.answered (some [courier7, courier8])

/-- A collaborator that finds nobody within 5000 and courier 8 within 20000. -/
def nearbyFar : NearbyCouriers :=
  fun _ _ r => if r = 5000 then NearbyAnswer.answered (some [])
    else NearbyAnswer.answered (some [courier8])

/-- A collaborator that finds nobody at any radius. -/
def nearbyNobody : NearbyCouriers :=
  fun _ _ _ => NearbyAnswer.answered (some [])

/-- A collaborator that finds only the busy courier 7. -/
def nearbyBusy : NearbyCouriers :=
  fun _ _ _ => NearbyAnswer.answered (some [courier7])

/-- A collaborator whose calls throw. -/
def nearbyDown : NearbyCouriers :=
  fun _ _ _ => NearbyAnswer.failed

/-- A verifier that accepts the code 4321 and rejects every other code. -/
def verifyCode : OtpVerifier :=
  fun _ otp => if otp = "4321" then VerifyAnswer.answered true none
    else VerifyAnswer.answered false (some "Invalid OTP")

/-- A verifier whose call throws. -/
def verifyDown : OtpVerifier :=
  fun _ _ => VerifyAnswer.failed

/-- An order with a shop order of 480 for owner 43 and one of 500 for owner 44. -/
def sampleOrder3 : Order :=
  { _id := 12, userId := some 32,
    deliveryAddress := { text := "9 Lake View", latitude := 19, longitude := 72 },
    totalAmount := 980,
    shopOrder :=
      [ { _id := 120, shop := 23, owner := some 43, subtotal := 480, shopOrderItems := [],
          status := ShopOrderStatus.pending, assignment := none, assignedDeliveryBoy := none },
        { _id := 121, shop := 24, owner := some 44, subtotal := 500, shopOrderItems := [],
          status := ShopOrderStatus.pending, assignment := none, assignedDeliveryBoy := none } ] }

/-- A store holding the three sample orders. -/
def sampleStore3 : Store :=
  { assignments := [sampleOffer, sampleHeld], orders := [sampleOrder, sampleOrder2, sampleOrder3] }

/-- An order whose two shop orders, of 120.5 and 99.75, both belong to owner 47. -/
def sampleOrder6 : Order :=
  { _id := 16, userId := some 32,
    deliveryAddress := { text := "9 Lake View", latitude := 19, longitude := 72 },
    totalAmount := roundQuot 22025 100,
    shopOrder :=
      [ { _id := 160, shop := 27, owner := some 47, subtotal := roundQuot 1205 10,
          shopOrderItems := [], status := ShopOrderStatus.pending, assignment := none,
          assignedDeliveryBoy := none },
        { _id := 161, shop := 28, owner := some 47, subtotal := roundQuot 9975 100,
          shopOrderItems := [], status := ShopOrderStatus.pending, assignment := none,
          assignedDeliveryBoy := none } ] }

/-- A store holding the order of owner 47. -/
def sampleStore6 : Store :=
  { assignments := [], orders := [sampleOrder3, sampleOrder6] }

/-- An unrated item of a delivered shop order. -/
def sampleItemIdli : OrderItem :=
  { item := some 901, name := "Idli", quantity := 1, price := 60,
    userRating := none, ratedAt := none }

/-- An item that was rated 4 at time 20. -/
def sampleItemVada : OrderItem :=
  { item := some 902, name := "Vada", quantity := 2, price := 40,
    userRating := some 4, ratedAt := some 20 }

/-- An unrated item of a shop order still being prepared. -/
def sampleItemTea : OrderItem :=
  { item := some 903, name := "Tea", quantity := 1, price := 20,
    userRating := none, ratedAt := none }

/-- A delivered shop order with an unrated and a rated item. -/
def sampleShopOrder130 : ShopOrder :=
  { _id := 130, shop := 25, owner := some 45, subtotal := 140,
    shopOrderItems := [sampleItemIdli, sampleItemVada],
    status := ShopOrderStatus.delivered, assignment := none, assignedDeliveryBoy := none }

/-- A shop order of the same order that is still being prepared. -/
def sampleShopOrder131 : ShopOrder :=
  { _id := 131, shop := 26, owner := some 46, subtotal := 20,
    shopOrderItems := [sampleItemTea],
    status := ShopOrderStatus.preparing, assignment := none, assignedDeliveryBoy := none }

/-- The order of user 33 that the rating samples are about. -/
def sampleOrder4 : Order :=
  { _id := 13, userId := some 33,
    deliveryAddress := { text := "4 Hill Rd", latitude := 13, longitude := 80 },
    totalAmount := 160,
    shopOrder := [sampleShopOrder130, sampleShopOrder131] }

/-- A store holding the rating sample. -/
def sampleStore4 : Store :=
  { assignments := [], orders := [sampleOrder2, sampleOrder4] }

/-- An item catalog whose every POST succeeds. -/
def catalogUp : ItemCatalog :=
  fun _ _ _ _ => true

/-- An item catalog whose every POST fails. -/
def catalogDown : ItemCatalog :=
  fun _ _ _ _ => false

/-- A second unrated item of a delivered shop order. -/
def sampleItemPoha : OrderItem :=
  { item := some 904, name := "Poha", quantity := 1, price := 50,
    userRating := none, ratedAt := none }

/-- A delivered shop order with two unrated items. -/
def sampleShopOrder140 : ShopOrder :=
  { _id := 140, shop := 25, owner := some 45, subtotal := 110,
    shopOrderItems := [sampleItemIdli, sampleItemPoha],
    status := ShopOrderStatus.delivered, assignment := none, assignedDeliveryBoy := none }

/-- An order of user 33 whose both items can be rated. -/
def sampleOrder5 : Order :=
  { _id := 14, userId := some 33,
    deliveryAddress := { text := "4 Hill Rd", latitude := 13, longitude := 80 },
    totalAmount := 110,
    shopOrder := [sampleShopOrder140] }

/-- A store holding the two rating samples. -/
def sampleStore5 : Store :=
  { assignments := [], orders := [sampleOrder4, sampleOrder5] }

/-- An item catalog whose POST fails for the first item of a shop order and
succeeds for every other item. -/
def catalogFirstDown : ItemCatalog :=
  fun _ j _ _ => j != 0

/-- A shop service that knows every shop; shop `n` belongs to owner `n + 20`. -/
def shopsKnown : ShopLookup :=
  fun n => ShopAnswer.answered (some { _id := n, owner := some (n + 20) })

/-- A stand-in for the HMAC; the sample requests pay on delivery and never
reach it. -/
def sampleHmac : String → String → String :=
  fun _ _ => ""

/-- The sub-ids the samples draw for new ShopOrders. -/
def sampleSubId : Nat → Id :=
  fun k => 200 + k

/-- The address the sample requests deliver to. -/
def sampleAddress : DeliveryAddress :=
  { text := "7 Canal St", latitude := 22, longitude := 88 }

/-- No payment fields, as sent with payment on delivery. -/
def noPayment : PaymentInput :=
  { orderId := none, paymentId := none, signature := none }

/-- One item of 100 from shop 20, sent with a total of 150. -/
def sampleRequest : PlaceRequest :=
  { cartItems := some [{ shop := some 20, id := some 901, name := "Idli", quantity := 1,
                         price := 100 }],
    paymentMethod := "cod", deliveryAddress := some sampleAddress, totalAmount := 150,
    payment := noPayment }

/-- Two items from two different shops, sent with the sum of both subtotals. -/
def sampleRequest2 : PlaceRequest :=
  { cartItems := some [{ shop := some 20, id := some 901, name := "Idli", quantity := 2,
                         price := 100 },
                       { shop := some 21, id := some 905, name := "Lassi", quantity := 3,
                         price := 50 }],
    paymentMethod := "cod", deliveryAddress := some sampleAddress, totalAmount := 350,
    payment := noPayment }

/-- Three items priced in hundredths: 316.44 × 1 and 78.47 × 3 from shop 20 and,
between them, 723.26 × 2 from shop 21, sent with a total of 1998.37. -/
def sampleRequest3 : PlaceRequest :=
  { cartItems := some [{ shop := some 20, id := some 906, name := "Thali", quantity := 1,
                         price := roundQuot 31644 100 },
                       { shop := some 21, id := some 907, name := "Biryani", quantity := 2,
                         price := roundQuot 72326 100 },
                       { shop := some 20, id := some 908, name := "Kulfi", quantity := 3,
                         price := roundQuot 7847 100 }],
    paymentMethod := "cod", deliveryAddress := some sampleAddress,
    totalAmount := roundQuot 199837 100, payment := noPayment }

/-- What `placeOrder` answers to `sampleRequest2` when it draws order id 15. -/
def samplePlaced2 : PlacedOrder :=
  { order :=
      { _id := 15, userId := some 33, deliveryAddress := sampleAddress, totalAmount := 350,
        shopOrder := [shopOrderOf 200 { _id := 20, owner := some 40 }
                        [{ shop := some 20, id := some 901, name := "Idli", quantity := 2,
                           price := 100 }],
                      shopOrderOf 201 { _id := 21, owner := some 41 }
                        [{ shop := some 21, id := some 905, name := "Lassi", quantity := 3,
                           price := 50 }]] }
    paymentMethod := "cod", paymentStatus := "pending" }

/-! ## Lemmas on the store primitives -/

theorem updateFirst_length {α : Type} (p : α → Bool) (f : α → α) (l : List α) :
    (updateFirst p f l).length = l.length := by
  induction l with
  | nil => rfl
  | cons x xs ih =>
    unfold updateFirst
    split <;> simp [ih]

theorem updateFirst_find {α : Type} (p : α → Bool) (f : α → α)
    (hf : ∀ x, p x = true → p (f x) = true) (l : List α) :
    (updateFirst p f l).find? p = (l.find? p).map f := by
  induction l with
  | nil => rfl
  | cons x xs ih =>
    unfold updateFirst
    by_cases hx : p x = true
    · simp [hx, hf x hx]
    · simp [hx, ih]

theorem updateFirst_find_other {α : Type} (p q : α → Bool) (f : α → α)
    (hq : ∀ x, p x = true → q x = false ∧ q (f x) = false) (l : List α) :
    (updateFirst p f l).find? q = l.find? q := by
  induction l with
  | nil => rfl
  | cons x xs ih =>
    unfold updateFirst
    by_cases hx : p x = true
    · simp [hx, (hq x hx).1, (hq x hx).2]
    · by_cases hqx : q x = true
      · simp [hx, hqx]
      · simp [hx, hqx, ih]

theorem updateFirst_getElem_other {α : Type} (p : α → Bool) (f : α → α) (l : List α)
    (i : Nat) (x : α) (hi : l[i]? = some x) (hx : p x = false) :
    (updateFirst p f l)[i]? = some x := by
  induction l generalizing i with
  | nil => simp at hi
  | cons y ys ih =>
    unfold updateFirst
    cases i with
    | zero =>
      simp at hi
      subst hi
      simp [hx]
    | succ j =>
      simp at hi
      by_cases hy : p y = true
      · simp [hy, hi]
      · simp [hy, ih j hi]

theorem updateFirst_mem_nodup {α β : Type} [DecidableEq β] (key : α → β) (k : β)
    (f : α → α) (l : List α)
    (hn : (l.map key).Nodup) (y : α)
    (hy : y ∈ updateFirst (fun x => key x == k) f l) (hk : key y = k) :
    ∃ x, x ∈ l ∧ key x = k ∧ y = f x := by
  induction l with
  | nil => simp [updateFirst] at hy
  | cons x xs ih =>
    unfold updateFirst at hy
    simp only [List.map_cons, List.nodup_cons, List.mem_map, not_exists, not_and] at hn
    by_cases hx : key x = k
    · simp only [hx, beq_self_eq_true, if_true, List.mem_cons] at hy
      rcases hy with rfl | hy
      · exact ⟨x, by simp, hx, rfl⟩
      · exact absurd (hk.trans hx.symm) (hn.1 y hy)
    · have hx2 : (key x == k) = false := by simpa using hx
      simp only [hx2, Bool.false_eq_true, if_false, List.mem_cons] at hy
      rcases hy with rfl | hy
      · exact absurd hk hx
      · obtain ⟨z, hz, hzk, hyz⟩ := ih hn.2 hy
        exact ⟨z, by simp [hz], hzk, hyz⟩

/-! ## Lemmas on acceptOrder -/

theorem findAssignmentById_id {st : Store} {aid : Id} {a : Assignment}
    (h : findAssignmentById st aid = some a) : a._id = aid := by
  have := List.find?_some h
  simpa using this

theorem findOrderById_id {st : Store} {oid : Id} {o : Order}
    (h : findOrderById st oid = some o) : o._id = oid := by
  have := List.find?_some h
  simpa using this

theorem findAssignmentById_saveAssignment (st : Store) (a : Assignment) :
    findAssignmentById (saveAssignment st a) a._id
      = (findAssignmentById st a._id).map (fun _ => a) := by
  unfold findAssignmentById saveAssignment
  exact updateFirst_find _ _ (by simp) _

theorem findOrderById_saveOrder (st : Store) (o : Order) :
    findOrderById (saveOrder st o) o._id = (findOrderById st o._id).map (fun _ => o) := by
  unfold findOrderById saveOrder
  exact updateFirst_find _ _ (by simp) _

theorem acceptOrder_unknown (st : Store) (ready : Bool) (now : Nat) (deliveryBoyId aid : Id)
    (h : findAssignmentById st aid = none) :
    acceptOrder st ready now deliveryBoyId (some aid)
      = ⟨failure 404 "Assignment not found", st, []⟩ := by
  simp [acceptOrder, h]

theorem acceptOrder_not_broadcasted (st : Store) (ready : Bool) (now : Nat)
    (deliveryBoyId aid : Id) (a : Assignment) (h : findAssignmentById st aid = some a)
    (hs : a.status ≠ AssignmentStatus.broadcasted) :
    acceptOrder st ready now deliveryBoyId (some aid)
      = ⟨failure 400 "Assignment is not in broadcasted state", st, []⟩ := by
  simp [acceptOrder, h, hs]

theorem acceptOrder_not_candidate (st : Store) (ready : Bool) (now : Nat)
    (deliveryBoyId aid : Id) (a : Assignment) (h : findAssignmentById st aid = some a)
    (hs : a.status = AssignmentStatus.broadcasted) (hm : deliveryBoyId ∉ a.broadcastedTo) :
    acceptOrder st ready now deliveryBoyId (some aid)
      = ⟨failure 403 "You are not authorized to accept this assignment", st, []⟩ := by
  simp [acceptOrder, h, hs, hm]

/-- Inversion of a 200 answer of `acceptOrder`: every check passed, the parent
order and its shop order were found, the socket handle was there, and the
outcome is the one of the success path. -/
theorem acceptOrder_ok_inv (st : Store) (ready : Bool) (now : Nat)
    (deliveryBoyId aid : Id)
    (hok : (acceptOrder st ready now deliveryBoyId (some aid)).response.status = 200) :
    ∃ a o so,
      findAssignmentById st aid = some a ∧
      a.status = AssignmentStatus.broadcasted ∧
      deliveryBoyId ∈ a.broadcastedTo ∧
      findOrderById st a.order = some o ∧
      o.shopOrder.find? (fun s => s._id == a.shopOrderId) = some so ∧
      ready = true ∧
      acceptOrder st ready now deliveryBoyId (some aid)
        = ⟨acceptedResponse aid a.order,
           saveOrder (saveAssignment st (acceptedBy a deliveryBoyId now))
             (assignCourier o a.shopOrderId deliveryBoyId),
           acceptEmits (acceptedBy a deliveryBoyId now)
             (assignCourier o a.shopOrderId deliveryBoyId)
             { so with assignedDeliveryBoy := some deliveryBoyId }
             deliveryBoyId a.broadcastedTo⟩ := by
  unfold acceptOrder at hok ⊢
  simp only at hok ⊢
  cases ha : findAssignmentById st aid with
  | none => simp [ha, failure] at hok
  | some a =>
    simp only [ha] at hok ⊢
    by_cases hs : a.status = AssignmentStatus.broadcasted
    swap
    · simp [hs, failure] at hok
    by_cases hm : deliveryBoyId ∈ a.broadcastedTo
    swap
    · simp [hs, hm, failure] at hok
    have hid : a._id = aid := findAssignmentById_id ha
    have hfo : ∀ x, findOrderById (saveAssignment st x) a.order = findOrderById st a.order :=
      fun _ => rfl
    have hc : ¬ ¬ (a.broadcastedTo.contains deliveryBoyId = true) := by simpa using hm
    have hs2 : ¬ (a.status ≠ AssignmentStatus.broadcasted) := by simp [hs]
    rw [if_neg hs2, if_neg hc] at hok
    rw [if_neg hs2, if_neg hc]
    simp only [hfo, acceptedBy] at hok ⊢
    cases ho : findOrderById st a.order with
    | none => simp [ho, internalError, failure] at hok
    | some o =>
      simp only [ho] at hok ⊢
      cases hso : o.shopOrder.find? (fun s => s._id == a.shopOrderId) with
      | none => simp [hso, internalError, failure] at hok
      | some so =>
        simp only [hso] at hok ⊢
        cases ready with
        | false => simp [ getIO, internalError, failure] at hok
        | true =>
          have hoid : o._id = a.order := findOrderById_id ho
          refine ⟨a, o, so, rfl, hs, hm, ho, hso, rfl, ?_⟩
          simp [ getIO, hid, assignCourier, hoid]

/-- The couriers that are sent `delivery:assignment-closed` by `acceptEmits` are
the previous candidates other than the accepting courier. -/
theorem acceptEmits_closed (assignment : Assignment) (order : Order) (shopOrder : ShopOrder)
    (deliveryBoyId : Id) (previousBroadcast : List Id) (c : Id) :
    (∃ e, e ∈ acceptEmits assignment order shopOrder deliveryBoyId previousBroadcast ∧
        e.event = "delivery:assignment-closed" ∧ e.room = Room.delivery c)
      ↔ (c ∈ previousBroadcast ∧ c ≠ deliveryBoyId) := by
  unfold acceptEmits
  constructor
  · rintro ⟨e, he, hev, hroom⟩
    simp only [List.mem_append, List.mem_cons, List.mem_singleton, List.mem_map,
      List.mem_filter, List.not_mem_nil, or_false] at he
    rcases he with (((he | he) | he) | he) | he
    · rw [he] at hev; simp at hev
    · cases hu : order.userId with
      | none => simp [hu] at he
      | some u =>
        simp only [hu, List.mem_cons, List.mem_singleton, List.not_mem_nil, or_false] at he
        rcases he with he | he | he <;> (rw [he] at hev; simp at hev)
    · cases ho : shopOrder.owner with
      | none => simp [ho] at he
      | some u =>
        simp only [ho, List.mem_cons, List.mem_singleton, List.not_mem_nil, or_false] at he
        rcases he with he | he | he <;> (rw [he] at hev; simp at hev)
    · rcases he with he | he <;> (rw [he] at hev; simp at hev)
    · obtain ⟨x, ⟨hx, hne⟩, rfl⟩ := he
      simp only [Room.delivery.injEq] at hroom
      subst hroom
      exact ⟨hx, by simpa using hne⟩
  · rintro ⟨hc, hne⟩
    refine ⟨⟨Room.delivery c, "delivery:assignment-closed",
      Payload.closed assignment._id order._id assignment.shopOrderId⟩, ?_, rfl, rfl⟩
    simp only [List.mem_append, List.mem_map, List.mem_filter]
    right
    exact ⟨c, ⟨hc, by simpa using hne⟩, rfl⟩

/-! ## Lemmas on updateOrderStatus -/

theorem mem_busyDeliveryBoys (st : Store) (nearByIds : List Id) (c : Id) :
    c ∈ busyDeliveryBoys st nearByIds ↔ (c ∈ nearByIds ∧ isBusy st c) := by
  unfold busyDeliveryBoys isBusy
  simp only [List.mem_dedup, List.mem_filterMap, List.mem_filter, Bool.and_eq_true]
  constructor
  · rintro ⟨a, ⟨ha, h1, h2⟩, hc⟩
    rw [hc] at h1
    exact ⟨by simpa using h1, a, ha, hc, by simpa using h2⟩
  · rintro ⟨hc, a, ha, hac, hst⟩
    refine ⟨a, ⟨ha, ?_, by simpa using hst⟩, hac⟩
    rw [hac]
    simpa using hc

theorem availableBoys_ids (st : Store) (nearest : List Person) :
    (availableBoys st nearest).map (fun b => b._id)
      = (nearest.map (fun p => p._id)).filter
          (fun c => !(busyDeliveryBoys st (nearest.map (fun p => p._id))).contains c) := by
  unfold availableBoys
  simp only [List.filter_map]
  rfl

theorem mem_availableBoys_ids (st : Store) (nearest : List Person) (c : Id) :
    c ∈ (availableBoys st nearest).map (fun b => b._id)
      ↔ (c ∈ nearest.map (fun p => p._id) ∧ ¬ isBusy st c) := by
  rw [availableBoys_ids, List.mem_filter]
  constructor
  · rintro ⟨hc, hb⟩
    refine ⟨hc, fun hbusy => ?_⟩
    have := (mem_busyDeliveryBoys st _ c).2 ⟨hc, hbusy⟩
    simp [this] at hb
  · rintro ⟨hc, hb⟩
    refine ⟨hc, ?_⟩
    have : c ∉ busyDeliveryBoys st (nearest.map (fun p => p._id)) :=
      fun h => hb ((mem_busyDeliveryBoys st _ c).1 h).2
    simp [this]

theorem broadcast_skip (st : Store) (newId : Id) (nearby : NearbyCouriers) (order : Order)
    (shopOrder : ShopOrder)
    (h : ¬ (shopOrder.status = ShopOrderStatus.outForDelivery ∧ shopOrder.assignment = none)) :
    broadcast st newId nearby order shopOrder = ([], none, shopOrder, [], st) := by
  unfold broadcast
  rw [if_neg h]

theorem broadcast_failed (st : Store) (newId : Id) (nearby : NearbyCouriers) (order : Order)
    (shopOrder : ShopOrder) (hs : shopOrder.status = ShopOrderStatus.outForDelivery)
    (ha : shopOrder.assignment = none) (queries : List Nat)
    (hl : lookupNearby nearby order.deliveryAddress.longitude order.deliveryAddress.latitude
      = (queries, none)) :
    broadcast st newId nearby order shopOrder = (queries, none, shopOrder, [], st) := by
  unfold broadcast
  rw [if_pos ⟨hs, ha⟩, hl]

theorem broadcast_created (st : Store) (newId : Id) (nearby : NearbyCouriers) (order : Order)
    (shopOrder : ShopOrder) (hs : shopOrder.status = ShopOrderStatus.outForDelivery)
    (ha : shopOrder.assignment = none) (queries : List Nat) (nearest : List Person)
    (hl : lookupNearby nearby order.deliveryAddress.longitude order.deliveryAddress.latitude
      = (queries, some nearest)) :
    broadcast st newId nearby order shopOrder
      = (queries,
         some (createAssignment newId order._id shopOrder.shop shopOrder._id
           ((availableBoys st nearest).map (fun b => b._id))),
         { shopOrder with assignment := some newId, assignedDeliveryBoy := none },
         (availableBoys st nearest).map boyPayload,
         { st with assignments := st.assignments ++
            [createAssignment newId order._id shopOrder.shop shopOrder._id
              ((availableBoys st nearest).map (fun b => b._id))] }) := by
  unfold broadcast
  rw [if_pos ⟨hs, ha⟩, hl]
  rfl

/-- The parts of an `updateOrderStatus` call that found its order and shop
order, in terms of the broadcast it ran. -/
theorem updateOrderStatus_found (st : Store) (ready : Bool) (newId : Id)
    (nearby : NearbyCouriers) (oid sid : Id) (status : ShopOrderStatus) (order : Order)
    (shopOrder : ShopOrder) (ho : findOrderById st oid = some order)
    (hso : order.shopOrder.find? (fun so => so._id == sid) = some shopOrder) :
    (updateOrderStatus st ready newId nearby (some oid) (some sid) (some status)).queries
      = (broadcast st newId nearby order { shopOrder with status := status }).1 ∧
    (updateOrderStatus st ready newId nearby (some oid) (some sid) (some status)).created
      = (broadcast st newId nearby order { shopOrder with status := status }).2.1 ∧
    (updateOrderStatus st ready newId nearby (some oid) (some sid) (some status)).outcome.store
      = saveOrder (broadcast st newId nearby order { shopOrder with status := status }).2.2.2.2
          { order with
            shopOrder := updateFirst (fun so => so._id == sid)
              (fun _ => (broadcast st newId nearby order
                { shopOrder with status := status }).2.2.1) order.shopOrder } ∧
    (updateOrderStatus st ready newId nearby (some oid) (some sid)
        (some status)).outcome.response.status = (if ready then 200 else 500) := by
  unfold updateOrderStatus
  simp only [ho, hso]
  rcases broadcast st newId nearby order { shopOrder with status := status } with
    ⟨q, d, u, pl, s1⟩
  cases ready <;> simp [ getIO, internalError, failure]

/-- A call of `updateOrderStatus` that found no order or no shop order, or
lacked a parameter, posts nothing, creates nothing and keeps the store. -/
theorem updateOrderStatus_created_found (st : Store) (ready : Bool) (newId : Id)
    (nearby : NearbyCouriers) (orderId shopOrderId : Option Id)
    (status : Option ShopOrderStatus) (da : Assignment)
    (h : (updateOrderStatus st ready newId nearby orderId shopOrderId status).created
      = some da) :
    ∃ oid sid s order shopOrder,
      orderId = some oid ∧ shopOrderId = some sid ∧ status = some s ∧
      findOrderById st oid = some order ∧
      order.shopOrder.find? (fun so => so._id == sid) = some shopOrder := by
  cases orderId with
  | none => simp [updateOrderStatus] at h
  | some oid =>
    cases shopOrderId with
    | none => simp [updateOrderStatus] at h
    | some sid =>
      cases status with
      | none => simp [updateOrderStatus] at h
      | some s =>
        cases ho : findOrderById st oid with
        | none => simp [updateOrderStatus, ho] at h
        | some order =>
          cases hso : order.shopOrder.find? (fun so => so._id == sid) with
          | none => simp [updateOrderStatus, ho, hso] at h
          | some shopOrder => exact ⟨oid, sid, s, order, shopOrder, rfl, rfl, rfl, ho, hso⟩

theorem lookupNearby_eta (nearby : NearbyCouriers) (longitude latitude : Int) :
    lookupNearby nearby longitude latitude
      = ((lookupNearby nearby longitude latitude).1,
         (lookupNearby nearby longitude latitude).2) := rfl

/-- Inversion of a created Assignment: the call asked for `out-for-delivery` on
a ShopOrder without assignment reference, the lookup kept a list, and the
document is the one made from the available couriers of that list. -/
theorem updateOrderStatus_created_inv (st : Store) (ready : Bool) (newId : Id)
    (nearby : NearbyCouriers) (orderId shopOrderId : Option Id)
    (status : Option ShopOrderStatus) (da : Assignment)
    (h : (updateOrderStatus st ready newId nearby orderId shopOrderId status).created
      = some da) :
    ∃ oid sid order shopOrder nearest,
      orderId = some oid ∧ shopOrderId = some sid ∧
      status = some ShopOrderStatus.outForDelivery ∧
      findOrderById st oid = some order ∧
      order.shopOrder.find? (fun so => so._id == sid) = some shopOrder ∧
      shopOrder.assignment = none ∧
      (lookupNearby nearby order.deliveryAddress.longitude
        order.deliveryAddress.latitude).2 = some nearest ∧
      da = createAssignment newId order._id shopOrder.shop shopOrder._id
        ((availableBoys st nearest).map (fun b => b._id)) := by
  obtain ⟨oid, sid, s, order, shopOrder, rfl, rfl, rfl, ho, hso⟩ :=
    updateOrderStatus_created_found st ready newId nearby orderId shopOrderId status da h
  rw [(updateOrderStatus_found st ready newId nearby oid sid s order shopOrder ho hso).2.1] at h
  by_cases hc : s = ShopOrderStatus.outForDelivery ∧ shopOrder.assignment = none
  · obtain ⟨rfl, hna⟩ := hc
    cases hl : (lookupNearby nearby order.deliveryAddress.longitude
        order.deliveryAddress.latitude).2 with
    | none =>
      rw [broadcast_failed st newId nearby order
        { shopOrder with status := ShopOrderStatus.outForDelivery } rfl hna _
        (by rw [lookupNearby_eta, hl])] at h
      simp at h
    | some nearest =>
      rw [broadcast_created st newId nearby order
        { shopOrder with status := ShopOrderStatus.outForDelivery } rfl hna _ nearest
        (by rw [lookupNearby_eta, hl])] at h
      simp only [Option.some.injEq] at h
      exact ⟨oid, sid, order, shopOrder, nearest, rfl, rfl, rfl, ho, hso, hna, hl, h.symm⟩
  · rw [broadcast_skip st newId nearby order { shopOrder with status := s } hc] at h
    simp at h

theorem broadcast_shopOrder_id (st : Store) (newId : Id) (nearby : NearbyCouriers)
    (order : Order) (shopOrder : ShopOrder) :
    (broadcast st newId nearby order shopOrder).2.2.1._id = shopOrder._id ∧
    (broadcast st newId nearby order shopOrder).2.2.1.status = shopOrder.status ∧
    (broadcast st newId nearby order shopOrder).2.2.2.2.orders = st.orders := by
  by_cases hc : shopOrder.status = ShopOrderStatus.outForDelivery ∧ shopOrder.assignment = none
  · cases hl : (lookupNearby nearby order.deliveryAddress.longitude
        order.deliveryAddress.latitude).2 with
    | none =>
      rw [broadcast_failed st newId nearby order shopOrder hc.1 hc.2 _
        (by rw [lookupNearby_eta, hl])]
      exact ⟨rfl, rfl, rfl⟩
    | some nearest =>
      rw [broadcast_created st newId nearby order shopOrder hc.1 hc.2 _ nearest
        (by rw [lookupNearby_eta, hl])]
      exact ⟨rfl, rfl, rfl⟩
  · rw [broadcast_skip st newId nearby order shopOrder hc]
    exact ⟨rfl, rfl, rfl⟩

/-- After an `updateOrderStatus` call that found its order and shop order, the
stored order is found again by its id, and its first ShopOrder with the given
sub-id is the one the broadcast returned. -/
theorem updateOrderStatus_stored (st : Store) (ready : Bool) (newId : Id)
    (nearby : NearbyCouriers) (oid sid : Id) (status : ShopOrderStatus) (order : Order)
    (shopOrder : ShopOrder) (ho : findOrderById st oid = some order)
    (hso : order.shopOrder.find? (fun so => so._id == sid) = some shopOrder) :
    ∃ o1, findOrderById (updateOrderStatus st ready newId nearby (some oid) (some sid)
        (some status)).outcome.store oid = some o1 ∧
      o1.shopOrder.find? (fun so => so._id == sid)
        = some (broadcast st newId nearby order { shopOrder with status := status }).2.2.1 := by
  obtain ⟨_, _, hstore, _⟩ :=
    updateOrderStatus_found st ready newId nearby oid sid status order shopOrder ho hso
  obtain ⟨hbid, _, hbo⟩ :=
    broadcast_shopOrder_id st newId nearby order { shopOrder with status := status }
  have hoid : order._id = oid := findOrderById_id ho
  have hsid : shopOrder._id = sid := by
    have := List.find?_some hso
    simpa using this
  refine ⟨{ order with
      shopOrder := updateFirst (fun so => so._id == sid)
        (fun _ => (broadcast st newId nearby order
          { shopOrder with status := status }).2.2.1) order.shopOrder }, ?_, ?_⟩
  · rw [hstore]
    have h1 := findOrderById_saveOrder
      (broadcast st newId nearby order { shopOrder with status := status }).2.2.2.2
      { order with
        shopOrder := updateFirst (fun so => so._id == sid)
          (fun _ => (broadcast st newId nearby order
            { shopOrder with status := status }).2.2.1) order.shopOrder }
    have h2 : findOrderById
        (broadcast st newId nearby order { shopOrder with status := status }).2.2.2.2 oid
        = some order := by
      unfold findOrderById
      rw [hbo]
      exact ho
    subst hoid
    simp only [h2, Option.map_some'] at h1
    exact h1
  · have h1 := updateFirst_find (fun so : ShopOrder => so._id == sid)
      (fun _ => (broadcast st newId nearby order { shopOrder with status := status }).2.2.1)
      (by
        intro x _
        have : (broadcast st newId nearby order
          { shopOrder with status := status }).2.2.1._id = sid := hbid.trans hsid
        simp [this]) order.shopOrder
    rw [hso] at h1
    exact h1

/-- Every `updateOrderStatus` call leaves the assignment collection as it was,
with the created document, if any, appended. -/
theorem updateOrderStatus_assignments (st : Store) (ready : Bool) (newId : Id)
    (nearby : NearbyCouriers) (orderId shopOrderId : Option Id)
    (status : Option ShopOrderStatus) :
    (updateOrderStatus st ready newId nearby orderId shopOrderId status).outcome.store.assignments
      = st.assignments ++
        (updateOrderStatus st ready newId nearby orderId shopOrderId status).created.toList := by
  cases orderId with
  | none => simp [updateOrderStatus]
  | some oid =>
    cases shopOrderId with
    | none => simp [updateOrderStatus]
    | some sid =>
      cases status with
      | none => simp [updateOrderStatus]
      | some s =>
        cases ho : findOrderById st oid with
        | none => simp [updateOrderStatus, ho]
        | some order =>
          cases hso : order.shopOrder.find? (fun so => so._id == sid) with
          | none => simp [updateOrderStatus, ho, hso]
          | some shopOrder =>
            obtain ⟨_, hcr, hstore, _⟩ :=
              updateOrderStatus_found st ready newId nearby oid sid s order shopOrder ho hso
            rw [hcr, hstore]
            show (broadcast st newId nearby order
              { shopOrder with status := s }).2.2.2.2.assignments = _
            by_cases hc : s = ShopOrderStatus.outForDelivery ∧ shopOrder.assignment = none
            · cases hl : (lookupNearby nearby order.deliveryAddress.longitude
                  order.deliveryAddress.latitude).2 with
              | none =>
                rw [broadcast_failed st newId nearby order { shopOrder with status := s }
                  hc.1 hc.2 _ (by rw [lookupNearby_eta, hl])]
                simp
              | some nearest =>
                rw [broadcast_created st newId nearby order { shopOrder with status := s }
                  hc.1 hc.2 _ nearest (by rw [lookupNearby_eta, hl])]
                simp
            · rw [broadcast_skip st newId nearby order { shopOrder with status := s } hc]
              simp

/-- A call that does not enter the broadcast posts nothing to the
nearby-courier collaborator. -/
theorem updateOrderStatus_queries_nil (st : Store) (ready : Bool) (newId : Id)
    (nearby : NearbyCouriers) (orderId shopOrderId : Option Id)
    (status : Option ShopOrderStatus)
    (h : ∀ oid sid order shopOrder, orderId = some oid → shopOrderId = some sid →
      findOrderById st oid = some order →
      order.shopOrder.find? (fun so => so._id == sid) = some shopOrder →
      ¬ (status = some ShopOrderStatus.outForDelivery ∧ shopOrder.assignment = none)) :
    (updateOrderStatus st ready newId nearby orderId shopOrderId status).queries = [] := by
  cases orderId with
  | none => simp [updateOrderStatus]
  | some oid =>
    cases shopOrderId with
    | none => simp [updateOrderStatus]
    | some sid =>
      cases status with
      | none => simp [updateOrderStatus]
      | some s =>
        cases ho : findOrderById st oid with
        | none => simp [updateOrderStatus, ho]
        | some order =>
          cases hso : order.shopOrder.find? (fun so => so._id == sid) with
          | none => simp [updateOrderStatus, ho, hso]
          | some shopOrder =>
            rw [(updateOrderStatus_found st ready newId nearby oid sid s order shopOrder
              ho hso).1]
            have hc := h oid sid order shopOrder rfl rfl ho hso
            rw [broadcast_skip st newId nearby order { shopOrder with status := s }
              (fun hh => hc ⟨congrArg some hh.1, hh.2⟩)]

theorem lookupNearby_cases (nearby : NearbyCouriers) (longitude latitude : Int) :
    (nearby longitude latitude 5000 = NearbyAnswer.failed ∧
      lookupNearby nearby longitude latitude = ([5000], none)) ∨
    (∃ data, nearby longitude latitude 5000 = NearbyAnswer.answered data ∧
      data.getD [] ≠ [] ∧
      lookupNearby nearby longitude latitude = ([5000], some (data.getD []))) ∨
    (∃ data, nearby longitude latitude 5000 = NearbyAnswer.answered data ∧
      data.getD [] = [] ∧
      nearby longitude latitude 20000 = NearbyAnswer.failed ∧
      lookupNearby nearby longitude latitude = ([5000, 20000], none)) ∨
    (∃ data fallback, nearby longitude latitude 5000 = NearbyAnswer.answered data ∧
      data.getD [] = [] ∧
      nearby longitude latitude 20000 = NearbyAnswer.answered fallback ∧
      lookupNearby nearby longitude latitude = ([5000, 20000], some (fallback.getD []))) := by
  unfold lookupNearby
  cases h1 : nearby longitude latitude 5000 with
  | failed => exact Or.inl ⟨rfl, rfl⟩
  | answered data =>
    by_cases he : data.getD [] = []
    · cases h2 : nearby longitude latitude 20000 with
      | failed =>
        refine Or.inr (Or.inr (Or.inl ⟨data, rfl, he, rfl, ?_⟩))
        simp [he]
      | answered fallback =>
        refine Or.inr (Or.inr (Or.inr ⟨data, fallback, rfl, he, rfl, ?_⟩))
        simp [he]
    · refine Or.inr (Or.inl ⟨data, rfl, he, ?_⟩)
      simp [he]

/-- With an empty `deliveryBoyPayload` no `delivery:assignment` offer is emitted. -/
theorem statusEmits_no_offer (order : Order) (updatedShopOrder : ShopOrder)
    (deliveryAssignment : Option Assignment) (e : Emit)
    (he : e ∈ statusEmits order updatedShopOrder deliveryAssignment []) :
    e.event ≠ "delivery:assignment" := by
  unfold statusEmits at he
  simp only [List.mem_append, List.mem_cons, List.mem_singleton, List.not_mem_nil,
    or_false] at he
  rcases he with (((he | he) | he) | he) | he
  · rw [he]; simp
  · cases hu : order.userId with
    | none => simp [hu] at he
    | some u =>
      simp only [hu, List.mem_cons, List.mem_singleton, List.not_mem_nil, or_false] at he
      rcases he with he | he | he <;> (rw [he]; simp)
  · cases ho : updatedShopOrder.owner with
    | none => simp [ho] at he
    | some u =>
      simp only [ho, List.mem_cons, List.mem_singleton, List.not_mem_nil, or_false] at he
      rcases he with he | he | he <;> (rw [he]; simp)
  · cases hd : updatedShopOrder.assignedDeliveryBoy with
    | none => simp [hd] at he
    | some u =>
      simp only [hd, List.mem_cons, List.mem_singleton, List.not_mem_nil, or_false] at he
      rcases he with he | he <;> (rw [he]; simp)
  · cases deliveryAssignment <;> simp at he

/-- The events of an `updateOrderStatus` call that found its order and shop
order. -/
theorem updateOrderStatus_emits (st : Store) (ready : Bool) (newId : Id)
    (nearby : NearbyCouriers) (oid sid : Id) (status : ShopOrderStatus) (order : Order)
    (shopOrder : ShopOrder) (ho : findOrderById st oid = some order)
    (hso : order.shopOrder.find? (fun so => so._id == sid) = some shopOrder) :
    (updateOrderStatus st ready newId nearby (some oid) (some sid) (some status)).outcome.emits
      = if ready then
          statusEmits
            { order with
              shopOrder := updateFirst (fun so => so._id == sid)
                (fun _ => (broadcast st newId nearby order
                  { shopOrder with status := status }).2.2.1) order.shopOrder }
            (broadcast st newId nearby order { shopOrder with status := status }).2.2.1
            (broadcast st newId nearby order { shopOrder with status := status }).2.1
            (broadcast st newId nearby order { shopOrder with status := status }).2.2.2.1
        else [] := by
  unfold updateOrderStatus
  simp only [ho, hso]
  rcases broadcast st newId nearby order { shopOrder with status := status } with
    ⟨q, d, u, pl, s1⟩
  cases ready <;> simp [ getIO]

/-! ## Lemmas on the interleaving model -/

theorem acceptSteps_succ (versionKey ready : Bool) (aid : Id) (n : Nat)
    (x : Store × Nat × AcceptCall) :
    acceptSteps versionKey ready aid (n + 1) x
      = acceptSteps versionKey ready aid n (acceptStep versionKey ready aid x.1 x.2.1 x.2.2) :=
  rfl

theorem acceptStep_finished (versionKey ready : Bool) (aid : Id) (st : Store) (v : Nat)
    (d : Id) (now : Nat) (r : Response (Id × Id)) (es : List Emit) :
    acceptStep versionKey ready aid st v ⟨d, now, AcceptPc.finished r es⟩
      = (st, v, ⟨d, now, AcceptPc.finished r es⟩) := rfl

theorem acceptSteps_finished (versionKey ready : Bool) (aid : Id) (n : Nat) (st : Store)
    (v : Nat) (d : Id) (now : Nat) (r : Response (Id × Id)) (es : List Emit) :
    acceptSteps versionKey ready aid n (st, v, ⟨d, now, AcceptPc.finished r es⟩)
      = (st, v, ⟨d, now, AcceptPc.finished r es⟩) := by
  induction n with
  | zero => rfl
  | succ n ih => rw [acceptSteps_succ, acceptStep_finished]; exact ih

theorem acceptStep_start_unknown (versionKey ready : Bool) (aid : Id) (st : Store) (v : Nat)
    (d : Id) (now : Nat) (h : findAssignmentById st aid = none) :
    acceptStep versionKey ready aid st v ⟨d, now, AcceptPc.start⟩
      = (st, v, ⟨d, now, AcceptPc.finished (failure 404 "Assignment not found") []⟩) := by
  simp only [acceptStep, h]

theorem acceptStep_start_not_broadcasted (versionKey ready : Bool) (aid : Id) (st : Store)
    (v : Nat) (d : Id) (now : Nat) (a : Assignment) (h : findAssignmentById st aid = some a)
    (hs : a.status ≠ AssignmentStatus.broadcasted) :
    acceptStep versionKey ready aid st v ⟨d, now, AcceptPc.start⟩
      = (st, v, ⟨d, now,
          AcceptPc.finished (failure 400 "Assignment is not in broadcasted state") []⟩) := by
  simp only [acceptStep, h]
  rw [if_pos hs]

theorem acceptStep_start_not_candidate (versionKey ready : Bool) (aid : Id) (st : Store)
    (v : Nat) (d : Id) (now : Nat) (a : Assignment) (h : findAssignmentById st aid = some a)
    (hs : a.status = AssignmentStatus.broadcasted) (hm : ¬ a.broadcastedTo.contains d = true) :
    acceptStep versionKey ready aid st v ⟨d, now, AcceptPc.start⟩
      = (st, v, ⟨d, now, AcceptPc.finished
          (failure 403 "You are not authorized to accept this assignment") []⟩) := by
  simp only [acceptStep, h]
  rw [if_neg (by simp [hs]), if_pos hm]

theorem acceptStep_start_pass (versionKey ready : Bool) (aid : Id) (st : Store)
    (v : Nat) (d : Id) (now : Nat) (a : Assignment) (h : findAssignmentById st aid = some a)
    (hs : a.status = AssignmentStatus.broadcasted) (hm : a.broadcastedTo.contains d = true) :
    acceptStep versionKey ready aid st v ⟨d, now, AcceptPc.start⟩
      = (st, v, ⟨d, now, AcceptPc.saving (acceptedBy a d now) v a.broadcastedTo⟩) := by
  simp only [acceptStep, h]
  rw [if_neg (by simp [hs]), if_neg (fun hn => hn hm)]

theorem acceptStep_saving_fresh (versionKey ready : Bool) (aid : Id) (st : Store)
    (v : Nat) (d : Id) (now : Nat) (a1 : Assignment) (prev : List Id) :
    acceptStep versionKey ready aid st v ⟨d, now, AcceptPc.saving a1 v prev⟩
      = (saveAssignment st a1, if versionKey then v + 1 else v,
         ⟨d, now, AcceptPc.loadingOrder a1 prev⟩) := by
  simp only [acceptStep]
  rw [if_neg (by simp)]

/-- Four uninterrupted steps of a call are one `acceptOrder` call. -/
theorem acceptSteps_four (versionKey ready : Bool) (aid : Id) (st : Store) (v : Nat)
    (d : Id) (now : Nat) :
    ∃ v1, acceptSteps versionKey ready aid 4 (st, v, ⟨d, now, AcceptPc.start⟩)
      = ((acceptOrder st ready now d (some aid)).store, v1,
         ⟨d, now, AcceptPc.finished (acceptOrder st ready now d (some aid)).response
           (acceptOrder st ready now d (some aid)).emits⟩) := by
  rw [acceptSteps_succ]
  cases ha : findAssignmentById st aid with
  | none =>
    rw [acceptStep_start_unknown versionKey ready aid st v d now ha, acceptSteps_finished,
      acceptOrder_unknown st ready now d aid ha]
    exact ⟨v, rfl⟩
  | some a =>
    by_cases hs : a.status = AssignmentStatus.broadcasted
    swap
    · rw [acceptStep_start_not_broadcasted versionKey ready aid st v d now a ha hs,
        acceptSteps_finished, acceptOrder_not_broadcasted st ready now d aid a ha hs]
      exact ⟨v, rfl⟩
    by_cases hm : a.broadcastedTo.contains d = true
    swap
    · rw [acceptStep_start_not_candidate versionKey ready aid st v d now a ha hs hm,
        acceptSteps_finished,
        acceptOrder_not_candidate st ready now d aid a ha hs (by simpa using hm)]
      exact ⟨v, rfl⟩
    rw [acceptStep_start_pass versionKey ready aid st v d now a ha hs hm, acceptSteps_succ,
      acceptStep_saving_fresh, acceptSteps_succ]
    have hacc : acceptOrder st ready now d (some aid)
        = (match findOrderById (saveAssignment st (acceptedBy a d now))
              (acceptedBy a d now).order with
          | none => ⟨internalError, saveAssignment st (acceptedBy a d now), []⟩
          | some order =>
            match order.shopOrder.find?
              (fun so => so._id == (acceptedBy a d now).shopOrderId) with
            | none => ⟨internalError, saveAssignment st (acceptedBy a d now), []⟩
            | some shopOrder =>
              match getIO ready with
              | .error _ =>
                ⟨internalError,
                  saveOrder (saveAssignment st (acceptedBy a d now))
                    (assignCourier order (acceptedBy a d now).shopOrderId d), []⟩
              | .ok _ =>
                ⟨acceptedResponse (acceptedBy a d now)._id
                    (assignCourier order (acceptedBy a d now).shopOrderId d)._id,
                  saveOrder (saveAssignment st (acceptedBy a d now))
                    (assignCourier order (acceptedBy a d now).shopOrderId d),
                  acceptEmits (acceptedBy a d now)
                    (assignCourier order (acceptedBy a d now).shopOrderId d)
                    { shopOrder with assignedDeliveryBoy := some d } d a.broadcastedTo⟩) := by
      unfold acceptOrder
      simp only [ha]
      rw [if_neg (by simp [hs]), if_neg (fun hn => hn hm)]
    rw [hacc]
    cases ho : findOrderById (saveAssignment st (acceptedBy a d now))
        (acceptedBy a d now).order with
    | none =>
      refine ⟨(if versionKey then v + 1 else v), ?_⟩
      simp only [acceptStep, ho]
      rw [acceptSteps_finished]
    | some o =>
      cases hso : o.shopOrder.find?
          (fun so => so._id == (acceptedBy a d now).shopOrderId) with
      | none =>
        refine ⟨(if versionKey then v + 1 else v), ?_⟩
        simp only [acceptStep, ho, hso]
        rw [acceptSteps_finished]
      | some so =>
        refine ⟨(if versionKey then v + 1 else v), ?_⟩
        simp only [acceptStep, ho, hso]
        cases ready with
        | false => simp [acceptSteps, acceptStep, getIO]
        | true => simp [acceptSteps, acceptStep, getIO]

theorem set_same {α : Type} (l : List α) (i : Nat) (c : α) (h : l[i]? = some c) :
    l.set i c = l := by
  induction l generalizing i with
  | nil => rfl
  | cons x xs ih =>
    cases i with
    | zero =>
      simp at h
      simp [h]
    | succ j =>
      simp at h
      simp [ih j h]

theorem stepAt_at (versionKey ready : Bool) (aid : Id) (w : World) (i : Nat) (c : AcceptCall)
    (h : w.calls[i]? = some c) :
    stepAt versionKey ready aid w i
      = { store := (acceptStep versionKey ready aid w.store w.version c).1
          version := (acceptStep versionKey ready aid w.store w.version c).2.1
          calls := w.calls.set i (acceptStep versionKey ready aid w.store w.version c).2.2 } := by
  unfold stepAt
  rw [h]

/-- A schedule that lets one call take `n` steps in a row. -/
theorem run_replicate (versionKey ready : Bool) (aid : Id) (n i : Nat) (w : World)
    (c : AcceptCall) (h : w.calls[i]? = some c) :
    run versionKey ready aid (List.replicate n i) w
      = { store := (acceptSteps versionKey ready aid n (w.store, w.version, c)).1
          version := (acceptSteps versionKey ready aid n (w.store, w.version, c)).2.1
          calls := w.calls.set i (acceptSteps versionKey ready aid n (w.store, w.version, c)).2.2 } := by
  induction n generalizing w c with
  | zero =>
    simp only [List.replicate, run, List.foldl_nil, acceptSteps]
    rw [set_same _ _ _ h]
  | succ n ih =>
    have hlt : i < w.calls.length := by
      rcases Nat.lt_or_ge i w.calls.length with hlt | hge
      · exact hlt
      · rw [List.getElem?_eq_none hge] at h
        cases h
    have h1 : run versionKey ready aid (List.replicate (n + 1) i) w
        = run versionKey ready aid (List.replicate n i) (stepAt versionKey ready aid w i) := rfl
    rw [h1, stepAt_at versionKey ready aid w i c h]
    rw [ih _ (acceptStep versionKey ready aid w.store w.version c).2.2
      (by simp [List.getElem?_set_self hlt])]
    simp [acceptSteps, List.set_set]

/-- The schedule without interleaving runs the calls one after another. -/
theorem run_serial (versionKey ready : Bool) (aid : Id) (rest pre : List AcceptCall)
    (st : Store) (v : Nat) :
    run versionKey ready aid
        ((List.range' pre.length rest.length).flatMap (fun i => [i, i, i, i]))
        { store := st, version := v, calls := pre ++ rest }
      = { store := (serialFold versionKey ready aid st v rest).1
          version := (serialFold versionKey ready aid st v rest).2.1
          calls := pre ++ (serialFold versionKey ready aid st v rest).2.2 } := by
  induction rest generalizing pre st v with
  | nil => simp [run, serialFold]
  | cons c cs ih =>
    have hsched : (List.range' pre.length (c :: cs).length).flatMap (fun i => [i, i, i, i])
        = List.replicate 4 pre.length
          ++ (List.range' (pre ++ [c]).length cs.length).flatMap (fun i => [i, i, i, i]) := by
      simp [List.range'_succ, List.replicate]
    rw [hsched]
    unfold run
    rw [List.foldl_append]
    have h4 := run_replicate versionKey ready aid 4 pre.length
      { store := st, version := v, calls := pre ++ c :: cs } c
      (by simp [List.getElem?_append_right (Nat.le_refl pre.length)])
    unfold run at h4
    rw [h4]
    have hset : ∀ x : AcceptCall, (pre ++ c :: cs).set pre.length x = (pre ++ [x]) ++ cs := by
      intro x
      simp
    simp only [hset]
    have hlen : ∀ x : AcceptCall, (pre ++ [x]).length = (pre ++ [c]).length := by
      intro x
      simp
    have := ih (pre ++ [(acceptSteps versionKey ready aid 4 (st, v, c)).2.2])
      (acceptSteps versionKey ready aid 4 (st, v, c)).1
      (acceptSteps versionKey ready aid 4 (st, v, c)).2.1
    unfold run at this
    rw [hlen] at this
    rw [this]
    simp [serialFold]

/-- The success path of `acceptOrder`, from its preconditions. -/
theorem acceptOrder_ok_of_pre (st : Store) (now : Nat) (d aid : Id) (a : Assignment)
    (o : Order) (so : ShopOrder) (ha : findAssignmentById st aid = some a)
    (hs : a.status = AssignmentStatus.broadcasted) (hm : d ∈ a.broadcastedTo)
    (ho : findOrderById st a.order = some o)
    (hso : o.shopOrder.find? (fun s => s._id == a.shopOrderId) = some so) :
    acceptOrder st true now d (some aid)
      = ⟨acceptedResponse aid a.order,
         saveOrder (saveAssignment st (acceptedBy a d now)) (assignCourier o a.shopOrderId d),
         acceptEmits (acceptedBy a d now) (assignCourier o a.shopOrderId d)
           { so with assignedDeliveryBoy := some d } d a.broadcastedTo⟩ := by
  have hid : a._id = aid := findAssignmentById_id ha
  have hoid : o._id = a.order := findOrderById_id ho
  have hc : a.broadcastedTo.contains d = true := by simpa using hm
  have ho1 : findOrderById (saveAssignment st (acceptedBy a d now)) (acceptedBy a d now).order
      = some o := ho
  have hso1 : o.shopOrder.find? (fun s => s._id == (acceptedBy a d now).shopOrderId)
      = some so := hso
  unfold acceptOrder
  simp only [ha]
  rw [if_neg (by simp [hs]), if_neg (fun hn => hn hc)]
  simp only [ho1, hso1, getIO, if_true]
  simp [acceptedBy, assignCourier, hid, hoid]

theorem findAssignmentById_saveAssignment_landed (aid : Id) (st : Store) (a1 : Assignment)
    (h1 : a1.status ≠ AssignmentStatus.broadcasted) (hl : landed aid st) :
    landed aid (saveAssignment st a1) := by
  obtain ⟨a, ha, hs⟩ := hl
  by_cases hid : a1._id = aid
  · refine ⟨a1, ?_, h1⟩
    have := findAssignmentById_saveAssignment st a1
    rw [hid, ha] at this
    exact this
  · refine ⟨a, ?_, hs⟩
    unfold findAssignmentById saveAssignment
    rw [updateFirst_find_other]
    · exact ha
    · intro x hx
      have hx2 : x._id = a1._id := by simpa using hx
      refine ⟨?_, by simpa using hid⟩
      rw [beq_eq_false_iff_ne, hx2]
      exact hid

/-- One step of a call keeps a landed save landed, provided the call's own
pending save, if it has one, carries a document that is not broadcasted; and
the save a step leaves pending carries status assigned. -/
theorem acceptStep_landed (versionKey ready : Bool) (aid : Id) (st : Store) (v : Nat)
    (c : AcceptCall)
    (hp : ∀ a1 v1 prev, c.pc = AcceptPc.saving a1 v1 prev →
      a1.status ≠ AssignmentStatus.broadcasted) :
    (landed aid st → landed aid (acceptStep versionKey ready aid st v c).1) ∧
    (∀ a1 v1 prev, (acceptStep versionKey ready aid st v c).2.2.pc = AcceptPc.saving a1 v1 prev →
      a1.status ≠ AssignmentStatus.broadcasted) := by
  obtain ⟨d, now, pc⟩ := c
  cases pc with
  | start =>
    cases ha : findAssignmentById st aid with
    | none =>
      rw [acceptStep_start_unknown versionKey ready aid st v d now ha]
      exact ⟨fun h => h, fun _ _ _ h => by cases h⟩
    | some a =>
      by_cases hs : a.status = AssignmentStatus.broadcasted
      swap
      · rw [acceptStep_start_not_broadcasted versionKey ready aid st v d now a ha hs]
        exact ⟨fun h => h, fun _ _ _ h => by cases h⟩
      by_cases hm : a.broadcastedTo.contains d = true
      swap
      · rw [acceptStep_start_not_candidate versionKey ready aid st v d now a ha hs hm]
        exact ⟨fun h => h, fun _ _ _ h => by cases h⟩
      rw [acceptStep_start_pass versionKey ready aid st v d now a ha hs hm]
      refine ⟨fun h => h, fun a1 v1 prev h => ?_⟩
      simp only [AcceptPc.saving.injEq] at h
      rw [← h.1]
      simp [acceptedBy]
  | saving a1 loaded prev =>
    have h1 := hp a1 loaded prev rfl
    simp only [acceptStep]
    split
    · exact ⟨fun h => h, fun _ _ _ h => by cases h⟩
    · exact ⟨findAssignmentById_saveAssignment_landed aid st a1 h1,
        fun _ _ _ h => by cases h⟩
  | loadingOrder a1 prev =>
    simp only [acceptStep]
    split
    · exact ⟨fun h => h, fun _ _ _ h => by cases h⟩
    · split
      · exact ⟨fun h => h, fun _ _ _ h => by cases h⟩
      · exact ⟨fun h => h, fun _ _ _ h => by cases h⟩
  | savingOrder a1 o1 so1 prev =>
    simp only [acceptStep]
    split
    · exact ⟨fun h => h, fun _ _ _ h => by cases h⟩
    · exact ⟨fun h => h, fun _ _ _ h => by cases h⟩
  | finished r es =>
    exact ⟨fun h => h, fun _ _ _ h => by cases h⟩

theorem stepAt_landed (versionKey ready : Bool) (aid : Id) (w : World) (i : Nat)
    (hp : pendingAssigned w) :
    pendingAssigned (stepAt versionKey ready aid w i) ∧
    (landed aid w.store → landed aid (stepAt versionKey ready aid w i).store) := by
  cases hc : w.calls[i]? with
  | none =>
    have : stepAt versionKey ready aid w i = w := by
      unfold stepAt
      rw [hc]
    rw [this]
    exact ⟨hp, fun h => h⟩
  | some c =>
    have hmem : c ∈ w.calls := List.getElem?_mem hc
    obtain ⟨h1, h2⟩ := acceptStep_landed versionKey ready aid w.store w.version c (hp c hmem)
    rw [stepAt_at versionKey ready aid w i c hc]
    refine ⟨?_, h1⟩
    intro x hx a1 v1 prev hpc
    rcases List.mem_or_eq_of_mem_set hx with hx | hx
    · exact hp x hx a1 v1 prev hpc
    · rw [hx] at hpc
      exact h2 a1 v1 prev hpc

theorem run_landed (versionKey ready : Bool) (aid : Id) (schedule : List Nat) (w : World)
    (hp : pendingAssigned w) :
    pendingAssigned (run versionKey ready aid schedule w) ∧
    (landed aid w.store → landed aid (run versionKey ready aid schedule w).store) := by
  induction schedule generalizing w with
  | nil => exact ⟨hp, fun h => h⟩
  | cons i is ih =>
    obtain ⟨h1, h2⟩ := stepAt_landed versionKey ready aid w i hp
    obtain ⟨h3, h4⟩ := ih (stepAt versionKey ready aid w i) h1
    exact ⟨h3, fun h => h4 (h2 h)⟩

theorem run_append (versionKey ready : Bool) (aid : Id) (s1 s2 : List Nat) (w : World) :
    run versionKey ready aid (s1 ++ s2) w
      = run versionKey ready aid s2 (run versionKey ready aid s1 w) := by
  unfold run
  rw [List.foldl_append]

theorem startCalls_pc (now : Nat) (ds : List Id) (c : AcceptCall)
    (h : c ∈ startCalls now ds) : c.pc = AcceptPc.start := by
  induction ds generalizing now with
  | nil => simp [startCalls] at h
  | cons d ds ih =>
    simp only [startCalls, List.mem_cons] at h
    rcases h with h | h
    · rw [h]
    · exact ih (now + 1) h

theorem startWorld_pendingAssigned (st : Store) (now : Nat) (ds : List Id) :
    pendingAssigned (startWorld st now ds) := by
  intro c hc a1 v prev hpc
  rw [startCalls_pc now ds c hc] at hpc
  cases hpc

/-- Calls made one after another on an Assignment that is no longer
broadcasted are all answered InvalidState and leave the store alone. -/
theorem serialFold_rejected (versionKey ready : Bool) (aid : Id) (st : Store) (v : Nat)
    (a : Assignment) (ha : findAssignmentById st aid = some a)
    (hs : a.status ≠ AssignmentStatus.broadcasted) (now : Nat) (ds : List Id) :
    serialFold versionKey ready aid st v (startCalls now ds)
      = (st, v, (startCalls now ds).map (fun c =>
          { c with pc := (AcceptPc.finished
              (failure 400 "Assignment is not in broadcasted state") []) })) := by
  induction ds generalizing now with
  | nil => rfl
  | cons d ds ih =>
    have h4 : acceptSteps versionKey ready aid 4 (st, v, ⟨d, now, AcceptPc.start⟩)
        = (st, v, ⟨d, now,
            AcceptPc.finished (failure 400 "Assignment is not in broadcasted state") []⟩) := by
      rw [acceptSteps_succ, acceptStep_start_not_broadcasted versionKey ready aid st v d now a
        ha hs, acceptSteps_finished]
    simp only [startCalls, serialFold, h4, ih (now + 1), List.map_cons]

/-- The world the serial schedule ends in, when the first caller meets the
preconditions of `acceptOrder`. -/
theorem run_serial_first_wins (versionKey : Bool) (st : Store) (now : Nat) (aid d : Id)
    (ds : List Id) (a : Assignment) (o : Order) (so : ShopOrder)
    (ha : findAssignmentById st aid = some a)
    (hs : a.status = AssignmentStatus.broadcasted) (hd : d ∈ a.broadcastedTo)
    (ho : findOrderById st a.order = some o)
    (hso : o.shopOrder.find? (fun s => s._id == a.shopOrderId) = some so) :
    (run versionKey true aid (serialSchedule (d :: ds).length)
        (startWorld st now (d :: ds))).store
      = saveOrder (saveAssignment st (acceptedBy a d now)) (assignCourier o a.shopOrderId d) ∧
    (run versionKey true aid (serialSchedule (d :: ds).length)
        (startWorld st now (d :: ds))).calls
      = ⟨d, now, AcceptPc.finished (acceptedResponse aid a.order)
          (acceptEmits (acceptedBy a d now) (assignCourier o a.shopOrderId d)
            { so with assignedDeliveryBoy := some d } d a.broadcastedTo)⟩ ::
        (startCalls (now + 1) ds).map (fun c =>
          { c with pc := (AcceptPc.finished
              (failure 400 "Assignment is not in broadcasted state") []) }) := by
  have hrun := run_serial versionKey true aid (startCalls now (d :: ds)) [] st 0
  have hsched : serialSchedule (d :: ds).length
      = (List.range' ([] : List AcceptCall).length (startCalls now (d :: ds)).length).flatMap
          (fun i => [i, i, i, i]) := by
    have hlen : ∀ (n : Nat) (l : List Id), (startCalls n l).length = l.length := by
      intro n l
      induction l generalizing n with
      | nil => rfl
      | cons x xs ih => simp [startCalls, ih]
    unfold serialSchedule
    rw [List.range_eq_range', hlen]
    rfl
  have hw : startWorld st now (d :: ds)
      = { store := st, version := 0, calls := [] ++ startCalls now (d :: ds) } := rfl
  rw [hsched, hw, hrun]
  obtain ⟨v1, h4⟩ := acceptSteps_four versionKey true aid st 0 d now
  rw [acceptOrder_ok_of_pre st now d aid a o so ha hs hd ho hso] at h4
  have hid : a._id = aid := findAssignmentById_id ha
  have hfind : findAssignmentById
      (saveOrder (saveAssignment st (acceptedBy a d now)) (assignCourier o a.shopOrderId d)) aid
      = some (acceptedBy a d now) := by
    have h1 := findAssignmentById_saveAssignment st (acceptedBy a d now)
    have h2 : (acceptedBy a d now)._id = aid := hid
    rw [h2, ha] at h1
    exact h1
  have hrest := serialFold_rejected versionKey true aid
    (saveOrder (saveAssignment st (acceptedBy a d now)) (assignCourier o a.shopOrderId d)) v1
    (acceptedBy a d now) hfind (by simp [acceptedBy]) (now + 1) ds
  simp only [startCalls, serialFold, h4, hrest, List.nil_append, and_self]

theorem rejected_not_succeeded (l : List AcceptCall) :
    (l.map (fun c => ({ c with pc := (AcceptPc.finished
        (failure 400 "Assignment is not in broadcasted state") []) } : AcceptCall))).filter
      AcceptCall.succeeded = [] := by
  induction l with
  | nil => rfl
  | cons x xs ih =>
    simp only [List.map_cons]
    rw [List.filter_cons_of_neg (by simp [AcceptCall.succeeded, failure])]
    exact ih

theorem rejected_all (l : List AcceptCall) :
    (l.map (fun c => ({ c with pc := (AcceptPc.finished
        (failure 400 "Assignment is not in broadcasted state") []) } : AcceptCall))).all
      (fun c => c.succeeded || c.rejected) = true := by
  induction l with
  | nil => rfl
  | cons x xs ih =>
    simp only [List.map_cons, List.all_cons, ih, Bool.and_true]
    simp [AcceptCall.rejected, failure]

theorem countP_set_same {α : Type} (p : α → Bool) (l : List α) (i : Nat) (c c1 : α)
    (h : l[i]? = some c) (hp : p c1 = p c) : (l.set i c1).countP p = l.countP p := by
  induction l generalizing i with
  | nil => simp at h
  | cons x xs ih =>
    cases i with
    | zero =>
      simp at h
      subst h
      simp [List.countP_cons, hp]
    | succ j =>
      simp at h
      simp [List.countP_cons, ih j h]

theorem countP_set_gain {α : Type} (p : α → Bool) (l : List α) (i : Nat) (c c1 : α)
    (h : l[i]? = some c) (hc : p c = false) (hc1 : p c1 = true) :
    (l.set i c1).countP p = l.countP p + 1 := by
  induction l generalizing i with
  | nil => simp at h
  | cons x xs ih =>
    cases i with
    | zero =>
      simp at h
      subst h
      simp [List.countP_cons, hc, hc1]
    | succ j =>
      simp at h
      simp [List.countP_cons, ih j h]
      omega

theorem forall_mem_set {α : Type} (P : α → Prop) (l : List α) (i : Nat) (c1 : α)
    (h : ∀ c, c ∈ l → P c) (h1 : P c1) : ∀ c, c ∈ l.set i c1 → P c := by
  intro c hc
  rcases List.mem_or_eq_of_mem_set hc with hc | rfl
  · exact h c hc
  · exact h1

theorem find?_updateFirst_isSome {α : Type} (p q : α → Bool) (f : α → α)
    (hq : ∀ x, q (f x) = q x) (l : List α) (h : (l.find? q).isSome = true) :
    ((updateFirst p f l).find? q).isSome = true := by
  induction l with
  | nil => simp at h
  | cons x xs ih =>
    unfold updateFirst
    by_cases hx : p x = true
    · rw [if_pos hx]
      by_cases hqx : q x = true
      · simp [List.find?_cons, hq, hqx]
      · have hqf : q (f x) = false := by rw [hq]; simpa using hqx
        have hqx2 : q x = false := by simpa using hqx
        simp only [List.find?_cons, hqx2] at h
        simp only [List.find?_cons, hqf]
        exact h
    · rw [if_neg hx]
      by_cases hqx : q x = true
      · simp [List.find?_cons, hqx]
      · have hqx2 : q x = false := by simpa using hqx
        simp only [List.find?_cons, hqx2] at h ⊢
        exact ih h

theorem findOrderById_saveAssignment (st : Store) (a : Assignment) (oid : Id) :
    findOrderById (saveAssignment st a) oid = findOrderById st oid := rfl

theorem findAssignmentById_saveOrder (st : Store) (o : Order) (aid : Id) :
    findAssignmentById (saveOrder st o) aid = findAssignmentById st aid := rfl

theorem past_of_phase0 (l : List AcceptCall)
    (h : ∀ c, c ∈ l → c.pc = AcceptPc.start ∨ ∃ a1 v p, c.pc = AcceptPc.saving a1 v p) :
    l.countP AcceptCall.past = 0 := by
  rw [List.countP_eq_zero]
  intro c hc
  rcases h c hc with h1 | ⟨a1, v, p, h1⟩ <;> simp [AcceptCall.past, h1]

theorem acceptedBy_status (a : Assignment) (d : Id) (now : Nat) :
    (acceptedBy a d now).status ≠ AssignmentStatus.broadcasted := by
  simp [acceptedBy]

/-- A finished call does not move. -/
theorem worldInv_finished (versionKey : Bool) (aid : Id) (a : Assignment) (w : World) (i : Nat)
    (d : Id) (now : Nat) (r : Response (Id × Id)) (e : List Emit)
    (hc : w.calls[i]? = some ⟨d, now, AcceptPc.finished r e⟩)
    (h : WorldInv versionKey aid a w) :
    WorldInv versionKey aid a (stepAt versionKey true aid w i) := by
  rw [stepAt_at versionKey true aid w i _ hc]
  simp only [acceptStep]
  rw [set_same w.calls i _ hc]
  exact h

/-- A call that reads: it passes the checks while no save has landed, and is
answered InvalidState afterwards. -/
theorem worldInv_start (versionKey : Bool) (aid : Id) (a : Assignment) (w : World) (i : Nat)
    (d : Id) (now : Nat) (hs : a.status = AssignmentStatus.broadcasted)
    (hc : w.calls[i]? = some ⟨d, now, AcceptPc.start⟩)
    (h : WorldInv versionKey aid a w) :
    WorldInv versionKey aid a (stepAt versionKey true aid w i) := by
  rw [stepAt_at versionKey true aid w i _ hc]
  obtain ⟨hcalls, horder, hphase⟩ := h
  have hcinv := hcalls _ (List.getElem?_mem hc)
  rcases hphase with ⟨hfind, hv, hall⟩ | ⟨j, cw, hj, hpast, hfind, hvk⟩
  · rw [acceptStep_start_pass versionKey true aid w.store w.version d now a hfind hs
      (by simpa using hcinv.1)]
    refine ⟨?_, horder, Or.inl ⟨hfind, hv, ?_⟩⟩
    · exact forall_mem_set _ _ _ _ hcalls ⟨hcinv.1, rfl, hv⟩
    · exact forall_mem_set _ _ _ _ hall (Or.inr ⟨_, _, _, rfl⟩)
  · rw [acceptStep_start_not_broadcasted versionKey true aid w.store w.version d now _ hfind
      (acceptedBy_status a _ _)]
    have hij : i ≠ j := by
      intro hij
      subst hij
      rw [hc] at hj
      cases hj
      simp [AcceptCall.past] at hpast
    refine ⟨?_, horder, Or.inr ⟨j, cw, ?_, hpast, hfind, ?_⟩⟩
    · exact forall_mem_set _ _ _ _ hcalls ⟨hcinv.1, Or.inr (Or.inl rfl)⟩
    · simp only
      rw [List.getElem?_set_ne hij]
      exact hj
    · intro hk
      refine ⟨(hvk hk).1, ?_⟩
      simp only
      rw [countP_set_same AcceptCall.past w.calls i _ _ hc (by simp [AcceptCall.past, failure])]
      exact (hvk hk).2

theorem acceptStep_saving_stale (ready : Bool) (aid : Id) (st : Store)
    (v loaded : Nat) (d : Id) (now : Nat) (a1 : Assignment) (prev : List Id)
    (h : loaded ≠ v) :
    acceptStep true ready aid st v ⟨d, now, AcceptPc.saving a1 loaded prev⟩
      = (st, v, ⟨d, now, AcceptPc.finished internalError []⟩) := by
  simp only [acceptStep]
  rw [if_pos (by simpa using h)]

theorem acceptStep_saving_unversioned (ready : Bool) (aid : Id) (st : Store)
    (v loaded : Nat) (d : Id) (now : Nat) (a1 : Assignment) (prev : List Id) :
    acceptStep false ready aid st v ⟨d, now, AcceptPc.saving a1 loaded prev⟩
      = (saveAssignment st a1, v, ⟨d, now, AcceptPc.loadingOrder a1 prev⟩) := by
  simp [acceptStep]

/-- A call that saves: the first save lands; a later one lands without the
version key and is answered 500 with it. -/
theorem worldInv_saving (versionKey : Bool) (aid : Id) (a : Assignment) (w : World) (i : Nat)
    (d : Id) (now : Nat) (a1 : Assignment) (loaded : Nat) (prev : List Id)
    (hid : a._id = aid)
    (hc : w.calls[i]? = some ⟨d, now, AcceptPc.saving a1 loaded prev⟩)
    (h : WorldInv versionKey aid a w) :
    WorldInv versionKey aid a (stepAt versionKey true aid w i) := by
  rw [stepAt_at versionKey true aid w i _ hc]
  obtain ⟨hcalls, horder, hphase⟩ := h
  have hcinv := hcalls _ (List.getElem?_mem hc)
  obtain ⟨hcand, ha1, hloaded⟩ := hcinv
  simp only at ha1 hloaded
  subst hloaded
  have hi : i < w.calls.length := by
    rcases Nat.lt_or_ge i w.calls.length with hlt | hge
    · exact hlt
    · rw [List.getElem?_eq_none hge] at hc
      cases hc
  have hsaved : ∀ x, findAssignmentById w.store aid = some x →
      findAssignmentById (saveAssignment w.store a1) aid = some a1 := by
    intro x hx
    have h1 := findAssignmentById_saveAssignment w.store a1
    have h2 : a1._id = aid := by rw [ha1]; exact hid
    rw [h2, hx] at h1
    exact h1
  rcases hphase with ⟨hfind, hv, hall⟩ | ⟨j, cw, hj, hpast, hfind, hvk⟩
  · -- the first save
    have hstep : acceptStep versionKey true aid w.store w.version
        ⟨d, now, AcceptPc.saving a1 0 prev⟩
        = (saveAssignment w.store a1, if versionKey then 1 else 0,
           ⟨d, now, AcceptPc.loadingOrder a1 prev⟩) := by
      rw [hv]
      exact acceptStep_saving_fresh versionKey true aid w.store 0 d now a1 prev
    rw [hstep]
    refine ⟨?_, horder, Or.inr ⟨i, ⟨d, now, AcceptPc.loadingOrder a1 prev⟩, ?_, rfl, ?_, ?_⟩⟩
    · exact forall_mem_set _ _ _ _ hcalls ⟨hcand, ha1⟩
    · simp only
      exact List.getElem?_set_self hi
    · simp only
      rw [hsaved a hfind, ha1]
    · intro hk
      subst hk
      refine ⟨rfl, ?_⟩
      simp only
      rw [countP_set_gain AcceptCall.past w.calls i _ _ hc (by simp [AcceptCall.past])
        (by simp [AcceptCall.past]), past_of_phase0 w.calls hall]
  · have hij : i ≠ j := by
      intro hij
      subst hij
      rw [hc] at hj
      cases hj
      simp [AcceptCall.past] at hpast
    cases versionKey with
    | true =>
      have hv := (hvk rfl).1
      rw [acceptStep_saving_stale true aid w.store w.version 0 d now a1 prev (by omega)]
      refine ⟨?_, horder, Or.inr ⟨j, cw, ?_, hpast, hfind, ?_⟩⟩
      · exact forall_mem_set _ _ _ _ hcalls ⟨hcand, Or.inr (Or.inr ⟨rfl, rfl⟩)⟩
      · simp only
        rw [List.getElem?_set_ne hij]
        exact hj
      · intro _
        refine ⟨hv, ?_⟩
        simp only
        rw [countP_set_same AcceptCall.past w.calls i _ _ hc
          (by simp [AcceptCall.past, internalError, failure])]
        exact (hvk rfl).2
    | false =>
      rw [acceptStep_saving_unversioned true aid w.store w.version 0 d now a1 prev]
      refine ⟨?_, horder, Or.inr ⟨i, ⟨d, now, AcceptPc.loadingOrder a1 prev⟩, ?_, rfl, ?_, ?_⟩⟩
      · exact forall_mem_set _ _ _ _ hcalls ⟨hcand, ha1⟩
      · simp only
        exact List.getElem?_set_self hi
      · simp only
        rw [hsaved _ hfind, ha1]
      · intro hk
        cases hk

/-- The witness of the second phase survives a step of a call that stays past
its save. -/
theorem past_witness_set (aid : Id) (a : Assignment) (st : Store) (calls : List AcceptCall)
    (i : Nat) (d : Id) (now : Nat) (pc pc1 : AcceptPc)
    (hc : calls[i]? = some ⟨d, now, pc⟩)
    (hpast1 : AcceptCall.past ⟨d, now, pc1⟩ = true)
    (hw : ∃ (j : Nat) (c : AcceptCall), calls[j]? = some c ∧ c.past = true ∧
      findAssignmentById st aid = some (acceptedBy a c.deliveryBoyId c.now)) :
    ∃ (j : Nat) (c : AcceptCall), (calls.set i ⟨d, now, pc1⟩)[j]? = some c ∧ c.past = true ∧
      findAssignmentById st aid = some (acceptedBy a c.deliveryBoyId c.now) := by
  obtain ⟨j, cw, hj, hpast, hfind⟩ := hw
  have hi : i < calls.length := by
    rcases Nat.lt_or_ge i calls.length with hlt | hge
    · exact hlt
    · rw [List.getElem?_eq_none hge] at hc
      cases hc
  by_cases hij : i = j
  · subst hij
    rw [hc] at hj
    cases hj
    exact ⟨i, ⟨d, now, pc1⟩, List.getElem?_set_self hi, hpast1, hfind⟩
  · exact ⟨j, cw, by rw [List.getElem?_set_ne hij]; exact hj, hpast, hfind⟩

/-- A call that loads the order finds it and the shop order. -/
theorem worldInv_loadingOrder (versionKey : Bool) (aid : Id) (a : Assignment) (w : World)
    (i : Nat) (d : Id) (now : Nat) (a1 : Assignment) (prev : List Id)
    (hc : w.calls[i]? = some ⟨d, now, AcceptPc.loadingOrder a1 prev⟩)
    (h : WorldInv versionKey aid a w) :
    WorldInv versionKey aid a (stepAt versionKey true aid w i) := by
  rw [stepAt_at versionKey true aid w i _ hc]
  obtain ⟨hcalls, horder, hphase⟩ := h
  have hcmem := List.getElem?_mem hc
  obtain ⟨hcand, ha1⟩ := hcalls _ hcmem
  simp only at ha1
  obtain ⟨o, ho, hso⟩ := horder
  obtain ⟨so, hso2⟩ := Option.isSome_iff_exists.1 hso
  have horder1 : a1.order = a.order := by rw [ha1]; rfl
  have hshop1 : a1.shopOrderId = a.shopOrderId := by rw [ha1]; rfl
  have hstep : acceptStep versionKey true aid w.store w.version
      ⟨d, now, AcceptPc.loadingOrder a1 prev⟩
      = (w.store, w.version, ⟨d, now, AcceptPc.savingOrder a1
          (assignCourier o a1.shopOrderId d)
          { so with assignedDeliveryBoy := some d } prev⟩) := by
    simp only [acceptStep, horder1, ho, hshop1, hso2]
  rw [hstep]
  rcases hphase with ⟨_, _, hall⟩ | ⟨j, cw, hj, hpast, hfind, hvk⟩
  · rcases hall _ hcmem with h1 | ⟨_, _, _, h1⟩ <;> simp at h1
  · obtain ⟨j2, c2, hj2, hpast2, hfind2⟩ := past_witness_set aid a w.store w.calls i d now _
      (AcceptPc.savingOrder a1 (assignCourier o a1.shopOrderId d)
        { so with assignedDeliveryBoy := some d } prev) hc rfl ⟨j, cw, hj, hpast, hfind⟩
    refine ⟨?_, ⟨o, ho, hso⟩, Or.inr ⟨j2, c2, hj2, hpast2, hfind2, ?_⟩⟩
    · refine forall_mem_set _ _ _ _ hcalls ⟨hcand, ha1, ?_, ?_⟩
      · exact findOrderById_id (o := o) ho
      · rw [hshop1]
        exact find?_updateFirst_isSome (fun s => s._id == a.shopOrderId)
          (fun s => s._id == a.shopOrderId)
          (fun s => { s with assignedDeliveryBoy := some d }) (fun _ => rfl) o.shopOrder hso
    · intro hk
      refine ⟨(hvk hk).1, ?_⟩
      simp only
      rw [countP_set_same AcceptCall.past w.calls i _ _ hc (by simp [AcceptCall.past])]
      exact (hvk hk).2

/-- A call that saves the order answers with the success envelope. -/
theorem worldInv_savingOrder (versionKey : Bool) (aid : Id) (a : Assignment) (w : World)
    (i : Nat) (d : Id) (now : Nat) (a1 : Assignment) (o1 : Order) (so1 : ShopOrder)
    (prev : List Id)
    (hc : w.calls[i]? = some ⟨d, now, AcceptPc.savingOrder a1 o1 so1 prev⟩)
    (h : WorldInv versionKey aid a w) :
    WorldInv versionKey aid a (stepAt versionKey true aid w i) := by
  rw [stepAt_at versionKey true aid w i _ hc]
  obtain ⟨hcalls, horder, hphase⟩ := h
  have hcmem := List.getElem?_mem hc
  obtain ⟨hcand, ha1, ho1, hso1⟩ := hcalls _ hcmem
  simp only at ha1 ho1 hso1
  obtain ⟨o, ho, hso⟩ := horder
  have hstep : acceptStep versionKey true aid w.store w.version
      ⟨d, now, AcceptPc.savingOrder a1 o1 so1 prev⟩
      = (saveOrder w.store o1, w.version,
          ⟨d, now, AcceptPc.finished (acceptedResponse a1._id o1._id)
            (acceptEmits a1 o1 so1 d prev)⟩) := by
    simp [acceptStep, getIO]
  rw [hstep]
  have horder2 : findOrderById (saveOrder w.store o1) a.order = some o1 := by
    have := findOrderById_saveOrder w.store o1
    rw [ho1, ho] at this
    exact this
  rcases hphase with ⟨_, _, hall⟩ | ⟨j, cw, hj, hpast, hfind, hvk⟩
  · rcases hall _ hcmem with h1 | ⟨_, _, _, h1⟩ <;> simp at h1
  · obtain ⟨j2, c2, hj2, hpast2, hfind2⟩ := past_witness_set aid a w.store w.calls i d now _
      (AcceptPc.finished (acceptedResponse a1._id o1._id) (acceptEmits a1 o1 so1 d prev))
      hc (by simp [AcceptCall.past, acceptedResponse]) ⟨j, cw, hj, hpast, hfind⟩
    refine ⟨?_, ⟨o1, horder2, hso1⟩, Or.inr ⟨j2, c2, hj2, hpast2, ?_, ?_⟩⟩
    · refine forall_mem_set _ _ _ _ hcalls ⟨hcand, Or.inl ?_⟩
      rw [ho1, ha1]
      rfl
    · rw [findAssignmentById_saveOrder]
      exact hfind2
    · intro hk
      refine ⟨(hvk hk).1, ?_⟩
      simp only
      rw [countP_set_same AcceptCall.past w.calls i _ _ hc
        (by simp [AcceptCall.past, acceptedResponse])]
      exact (hvk hk).2

/-- Every step of every call keeps the invariant. -/
theorem stepAt_inv (versionKey : Bool) (aid : Id) (a : Assignment) (w : World) (i : Nat)
    (hs : a.status = AssignmentStatus.broadcasted) (hid : a._id = aid)
    (h : WorldInv versionKey aid a w) :
    WorldInv versionKey aid a (stepAt versionKey true aid w i) := by
  cases hc : w.calls[i]? with
  | none =>
    unfold stepAt
    rw [hc]
    exact h
  | some c =>
    obtain ⟨d, now, pc⟩ := c
    cases pc with
    | start => exact worldInv_start versionKey aid a w i d now hs hc h
    | saving a1 loaded prev =>
      exact worldInv_saving versionKey aid a w i d now a1 loaded prev hid hc h
    | loadingOrder a1 prev => exact worldInv_loadingOrder versionKey aid a w i d now a1 prev hc h
    | savingOrder a1 o1 so1 prev =>
      exact worldInv_savingOrder versionKey aid a w i d now a1 o1 so1 prev hc h
    | finished r e => exact worldInv_finished versionKey aid a w i d now r e hc h

/-- Every schedule keeps the invariant. -/
theorem run_inv (versionKey : Bool) (aid : Id) (a : Assignment) (schedule : List Nat)
    (w : World) (hs : a.status = AssignmentStatus.broadcasted) (hid : a._id = aid)
    (h : WorldInv versionKey aid a w) :
    WorldInv versionKey aid a (run versionKey true aid schedule w) := by
  induction schedule generalizing w with
  | nil => exact h
  | cons i rest ih =>
    exact ih (stepAt versionKey true aid w i) (stepAt_inv versionKey aid a w i hs hid h)

theorem startCalls_courier (now : Nat) (ds : List Id) (c : AcceptCall)
    (h : c ∈ startCalls now ds) : c.deliveryBoyId ∈ ds := by
  induction ds generalizing now with
  | nil => simp [startCalls] at h
  | cons d ds ih =>
    simp only [startCalls, List.mem_cons] at h
    rcases h with rfl | h
    · simp
    · exact List.mem_cons_of_mem _ (ih (now + 1) h)

/-- The invariant holds before any call has taken a step. -/
theorem startWorld_inv (versionKey : Bool) (st : Store) (now : Nat) (aid : Id) (ds : List Id)
    (a : Assignment) (o : Order) (so : ShopOrder)
    (ha : findAssignmentById st aid = some a)
    (hds : ∀ d, d ∈ ds → d ∈ a.broadcastedTo)
    (ho : findOrderById st a.order = some o)
    (hso : o.shopOrder.find? (fun s => s._id == a.shopOrderId) = some so) :
    WorldInv versionKey aid a (startWorld st now ds) := by
  refine ⟨?_, ⟨o, ho, by rw [hso]; rfl⟩, Or.inl ⟨ha, rfl, ?_⟩⟩
  · intro c hc
    refine ⟨hds _ (startCalls_courier now ds c hc), ?_⟩
    rw [startCalls_pc now ds c hc]
    trivial
  · intro c hc
    exact Or.inl (startCalls_pc now ds c hc)

theorem stepAt_length (versionKey ready : Bool) (aid : Id) (w : World) (i : Nat) :
    (stepAt versionKey ready aid w i).calls.length = w.calls.length := by
  unfold stepAt
  cases hc : w.calls[i]? with
  | none => rfl
  | some c => simp

theorem run_length (versionKey ready : Bool) (aid : Id) (schedule : List Nat) (w : World) :
    (run versionKey ready aid schedule w).calls.length = w.calls.length := by
  induction schedule generalizing w with
  | nil => rfl
  | cons i rest ih =>
    show (run versionKey ready aid rest (stepAt versionKey ready aid w i)).calls.length = _
    rw [ih, stepAt_length]

theorem startCalls_length (now : Nat) (ds : List Id) : (startCalls now ds).length = ds.length := by
  induction ds generalizing now with
  | nil => rfl
  | cons d ds ih => simp [startCalls, ih]

/-- What the invariant says once every call has answered. -/
theorem worldInv_complete (versionKey : Bool) (aid : Id) (a : Assignment) (w : World)
    (hid : a._id = aid) (hne : w.calls ≠ [])
    (h : WorldInv versionKey aid a w)
    (hfin : ∀ c, c ∈ w.calls → c.response ≠ none) :
    (∃ c, c ∈ w.calls ∧ c.response = some (acceptedResponse aid a.order) ∧
      (findAssignmentById w.store aid).map (fun x => (x.status, x.assignedTo))
        = some (AssignmentStatus.assigned, some c.deliveryBoyId)) ∧
    (∀ c, c ∈ w.calls →
      c.response = some (acceptedResponse aid a.order)
        ∨ c.response = some (failure 400 "Assignment is not in broadcasted state")
        ∨ (versionKey = true ∧ c.response = some internalError)) ∧
    (versionKey = true → (w.calls.filter AcceptCall.succeeded).length = 1) := by
  obtain ⟨hcalls, _, hphase⟩ := h
  have hform : ∀ c, c ∈ w.calls →
      c.response = some (acceptedResponse aid a.order)
        ∨ c.response = some (failure 400 "Assignment is not in broadcasted state")
        ∨ (versionKey = true ∧ c.response = some internalError) := by
    intro c hc
    have hci := (hcalls c hc).2
    have hfc := hfin c hc
    obtain ⟨d, now, pc⟩ := c
    cases pc with
    | finished r e =>
      simp only at hci
      rw [hid] at hci
      rcases hci with h1 | h1 | ⟨h1, h2⟩
      · exact Or.inl (by rw [h1]; rfl)
      · exact Or.inr (Or.inl (by rw [h1]; rfl))
      · exact Or.inr (Or.inr ⟨h1, by rw [h2]; rfl⟩)
    | start => simp [AcceptCall.response] at hfc
    | saving _ _ _ => simp [AcceptCall.response] at hfc
    | loadingOrder _ _ => simp [AcceptCall.response] at hfc
    | savingOrder _ _ _ _ => simp [AcceptCall.response] at hfc
  have hsame : ∀ c, c ∈ w.calls → (c.succeeded = true ↔ c.past = true) := by
    intro c hc
    have hfc := hfin c hc
    obtain ⟨d, now, pc⟩ := c
    cases pc <;> simp [AcceptCall.response, AcceptCall.succeeded, AcceptCall.past] at hfc ⊢
  rcases hphase with ⟨_, _, hall⟩ | ⟨j, cw, hj, hpast, hfind, hvk⟩
  · exfalso
    obtain ⟨c, hc⟩ := List.exists_mem_of_ne_nil _ hne
    have hfc := hfin c hc
    rcases hall c hc with h1 | ⟨_, _, _, h1⟩ <;> simp [AcceptCall.response, h1] at hfc
  · have hcw := List.getElem?_mem hj
    refine ⟨⟨cw, hcw, ?_, ?_⟩, hform, ?_⟩
    · rcases hform cw hcw with h1 | h1 | ⟨_, h1⟩
      · exact h1
      · exfalso
        obtain ⟨d, now, pc⟩ := cw
        cases pc <;> simp [AcceptCall.response, AcceptCall.past, failure] at h1 hpast
        rw [h1] at hpast
        simp at hpast
      · exfalso
        obtain ⟨d, now, pc⟩ := cw
        cases pc <;> simp [AcceptCall.response, AcceptCall.past, internalError, failure] at h1 hpast
        rw [h1] at hpast
        simp at hpast
    · rw [hfind]
      rfl
    · intro hk
      rw [← List.countP_eq_length_filter, List.countP_congr hsame]
      exact (hvk hk).2

/-! ## Lemmas on orderDelivered -/

theorem updateFirst_mem_or {α : Type} (p : α → Bool) (f : α → α) (l : List α) (y : α)
    (hy : y ∈ updateFirst p f l) : y ∈ l ∨ ∃ x, x ∈ l ∧ p x = true ∧ y = f x := by
  induction l with
  | nil => simp [updateFirst] at hy
  | cons x xs ih =>
    unfold updateFirst at hy
    by_cases hx : p x = true
    · simp only [hx, if_true, List.mem_cons] at hy
      rcases hy with rfl | hy
      · exact Or.inr ⟨x, by simp, hx, rfl⟩
      · exact Or.inl (by simp [hy])
    · simp only [hx, Bool.false_eq_true, if_false, List.mem_cons] at hy
      rcases hy with rfl | hy
      · exact Or.inl (by simp)
      · rcases ih hy with h | ⟨z, hz, hpz, hyz⟩
        · exact Or.inl (by simp [h])
        · exact Or.inr ⟨z, by simp [hz], hpz, hyz⟩

theorem findCurrentAssignment_spec {st : Store} {d : Id} {a : Assignment}
    (h : findCurrentAssignment st d = some a) :
    a ∈ st.assignments ∧ a.assignedTo = some d ∧ a.status = AssignmentStatus.assigned := by
  have h1 := List.find?_some h
  have h2 := List.mem_of_find?_eq_some h
  simp only [Bool.and_eq_true, beq_iff_eq] at h1
  exact ⟨h2, h1.1, h1.2⟩

theorem findAssignmentById_of_mem {st : Store} {a : Assignment} (h : a ∈ st.assignments) :
    ∃ x, findAssignmentById st a._id = some x := by
  have : (findAssignmentById st a._id).isSome = true := by
    unfold findAssignmentById
    rw [List.find?_isSome]
    exact ⟨a, h, by simp⟩
  exact Option.isSome_iff_exists.1 this

/-- The path of `orderDelivered` on which the code is verified and both
documents are found. -/
theorem orderDelivered_verified (st : Store) (ready : Bool) (now : Nat) (verify : OtpVerifier)
    (d : Id) (otp : String) (a : Assignment) (o : Order) (so : ShopOrder) (m : Option String)
    (ha : findCurrentAssignment st d = some a)
    (ho : findOrderById st a.order = some o)
    (hso : o.shopOrder.find? (fun s => s._id == a.shopOrderId) = some so)
    (hv : verify o.userId otp = VerifyAnswer.answered true m) :
    (orderDelivered st ready now verify d otp).store
      = saveOrder (saveAssignment st (markCompleted a now)) (markDelivered o a.shopOrderId) ∧
    (orderDelivered st ready now verify d otp).response.status = (if ready then 200 else 500) ∧
    (orderDelivered st ready now verify d otp).emits
      = (if ready then
          deliveredEmits (markDelivered o a.shopOrderId)
            { so with status := ShopOrderStatus.delivered, assignedDeliveryBoy := none } d
        else []) := by
  have hoid : o._id = a.order := findOrderById_id ho
  have ho1 : findOrderById (saveAssignment st (markCompleted a now)) o._id = some o := by
    rw [hoid]
    exact ho
  have hso1 : o.shopOrder.find? (fun s => s._id == (markCompleted a now).shopOrderId)
      = some so := hso
  unfold orderDelivered
  simp only [ha, ho, hv, Bool.not_true, Bool.false_eq_true, if_false, ho1, hso1]
  cases ready <;> simp [ getIO, internalError, failure, markCompleted]

/-- Inversion of a 200 answer of `orderDelivered`. -/
theorem orderDelivered_ok_inv (st : Store) (ready : Bool) (now : Nat) (verify : OtpVerifier)
    (d : Id) (otp : String)
    (hok : (orderDelivered st ready now verify d otp).response.status = 200) :
    ∃ a o so m,
      findCurrentAssignment st d = some a ∧
      findOrderById st a.order = some o ∧
      o.shopOrder.find? (fun s => s._id == a.shopOrderId) = some so ∧
      verify o.userId otp = VerifyAnswer.answered true m := by
  unfold orderDelivered at hok
  cases ha : findCurrentAssignment st d with
  | none => simp [ha, failure] at hok
  | some a =>
    simp only [ha] at hok
    cases ho : findOrderById st a.order with
    | none => simp [ho, internalError, failure] at hok
    | some o =>
      simp only [ho] at hok
      cases hv : verify o.userId otp with
      | failed => simp [hv, failure] at hok
      | answered success m =>
        simp only [hv] at hok
        cases success with
        | false => simp [failure] at hok
        | true =>
          have hoid : o._id = a.order := findOrderById_id ho
          have ho1 : findOrderById (saveAssignment st (markCompleted a now)) o._id
              = some o := by
            rw [hoid]
            exact ho
          simp only [Bool.not_true, Bool.false_eq_true, if_false, ho1] at hok
          cases hso : o.shopOrder.find? (fun s => s._id == a.shopOrderId) with
          | none =>
            have hso1 : o.shopOrder.find?
                (fun s => s._id == (markCompleted a now).shopOrderId) = none := hso
            simp [hso1, internalError, failure] at hok
          | some so => exact ⟨a, o, so, m, rfl, ho, hso, hv⟩

theorem orderDelivered_none (st : Store) (ready : Bool) (now : Nat) (verify : OtpVerifier)
    (d : Id) (otp : String) (h : findCurrentAssignment st d = none) :
    orderDelivered st ready now verify d otp
      = ⟨failure 404 "No current assignment found", st, []⟩ := by
  unfold orderDelivered
  rw [h]

/-! ## Lemmas on numbers -/

theorem log2Fuel_eq (fuel n : Nat) (h : n ≤ fuel) : log2Fuel fuel n = Nat.log 2 n := by
  induction fuel generalizing n with
  | zero =>
    have : n = 0 := by omega
    subst this
    simp [log2Fuel]
  | succ fuel ih =>
    unfold log2Fuel
    by_cases h2 : n < 2
    · rw [if_pos h2, Nat.log_of_lt h2]
    · rw [if_neg h2, Nat.log_of_one_lt_of_le (by norm_num) (by omega), ih (n / 2) (by omega)]

/-- The halving loop computes the binary logarithm. -/
theorem log2_eq (n : Nat) : log2 n = Nat.log 2 n :=
  log2Fuel_eq n n (le_refl n)

theorem roundHalfEven_one (a : Int) : roundHalfEven a 1 = a := by
  simp [roundHalfEven]

/-- A whole number of magnitude below `2 ^ 53` is a double: rounding keeps it. -/
theorem roundQuot_int (n : Int) (h : n.natAbs < 2 ^ 53) : roundQuot n 1 = Number.fin n := by
  by_cases h0 : n = 0
  · subst h0
    simp [roundQuot]
  · have ha : n.natAbs ≠ 0 := by simpa using h0
    have hlog : Nat.log 2 n.natAbs < 53 := Nat.log_lt_of_lt_pow ha h
    have hfl : floorLog2 n.natAbs 1 = (Nat.log 2 n.natAbs : Int) := by
      have h1 : log2 1 = 0 := by decide
      have hle : 2 ^ Nat.log 2 n.natAbs ≤ n.natAbs := Nat.pow_log_le_self 2 ha
      simp only [floorLog2, h1, log2_eq]
      simp [hle]
    have hs : max (floorLog2 n.natAbs 1) (-1022) - 52
        = -((52 - Nat.log 2 n.natAbs : Nat) : Int) := by
      rw [hfl]
      omega
    unfold roundQuot
    rw [if_neg (by simp [h0])]
    simp only [hs]
    generalize hk : 52 - Nat.log 2 n.natAbs = k
    have hk52 : k ≤ 52 := by omega
    simp only [neg_neg, Int.toNat_ofNat, Int.toNat_neg_nat, pow_zero, mul_one, roundHalfEven_one]
    have hm : Nat.log 2 (n * 2 ^ k).natAbs < 53 := by
      apply Nat.log_lt_of_lt_pow
      · simp [h0]
      · rw [Int.natAbs_mul, Int.natAbs_pow]
        have : n.natAbs < 2 ^ (Nat.log 2 n.natAbs + 1) := Nat.lt_pow_succ_log_self (by norm_num) _
        calc n.natAbs * Int.natAbs 2 ^ k < 2 ^ (Nat.log 2 n.natAbs + 1) * 2 ^ k := by
              apply Nat.mul_lt_mul_of_lt_of_le this (le_refl _) (by positivity)
          _ = 2 ^ (Nat.log 2 n.natAbs + 1 + k) := (pow_add 2 _ k).symm
          _ ≤ 2 ^ 53 := Nat.pow_le_pow_right (by norm_num) (by omega)
    rw [if_neg (by rw [log2_eq]; omega)]
    congr 1
    have := Rat.mkRat_mul_right (n := n) (d := 1) (a := 2 ^ k) (by positivity)
    simp only [one_mul] at this
    rw [show (n * 2 ^ k : Int) = n * ((2 ^ k : Nat) : Int) by push_cast; rfl, this]
    simp [Rat.mkRat_one]

/-- A numeral below `2 ^ 53` denotes itself. -/
theorem ofNat_eq (n : Nat) (h : n < 2 ^ 53) : (OfNat.ofNat n : Number) = Number.fin n := by
  show roundQuot (n : Int) 1 = Number.fin n
  rw [roundQuot_int (n : Int) (by simpa using h)]
  simp

/-- Adding two whole numbers is exact while the sum stays below `2 ^ 53`. -/
theorem add_nat (a b : Nat) (h : a + b < 2 ^ 53) :
    (Number.fin a).add (Number.fin b) = Number.fin ((a + b : Nat) : ℚ) := by
  simp only [Number.add, Rat.num_natCast, Rat.den_natCast, Nat.cast_one, mul_one]
  rw [show (a : Int) + (b : Int) = ((a + b : Nat) : Int) by push_cast; rfl,
    roundQuot_int _ (by simpa using h)]
  simp

/-- Multiplying two whole numbers is exact while the product stays below `2 ^ 53`. -/
theorem mul_nat (a b : Nat) (h : a * b < 2 ^ 53) :
    (Number.fin a).mul (Number.fin b) = Number.fin ((a * b : Nat) : ℚ) := by
  simp only [Number.mul, Rat.num_natCast, Rat.den_natCast, Nat.cast_one, mul_one]
  rw [show (a : Int) * (b : Int) = ((a * b : Nat) : Int) by push_cast; rfl,
    roundQuot_int _ (by simpa using h)]
  simp

/-- Comparing two whole numbers. -/
theorem lt_nat (a b : Nat) : (Number.fin a).lt (Number.fin b) = decide (a < b) := by
  simp [Number.lt]

/-- Adding up whole numbers from left to right is exact while the sum stays
below `2 ^ 53`. -/
theorem foldl_add_nat (ns : List Nat) (acc : Nat) (h : acc + ns.sum < 2 ^ 53) :
    (ns.map (fun (n : Nat) => Number.fin (n : ℚ))).foldl Number.add (Number.fin acc)
      = Number.fin ((acc + ns.sum : Nat) : ℚ) := by
  induction ns generalizing acc with
  | nil => simp
  | cons n ns ih =>
    simp only [List.sum_cons] at h
    simp only [List.map_cons, List.foldl_cons, List.sum_cons]
    rw [add_nat acc n (by omega), ih (acc + n) (by omega)]
    congr 2
    omega

set_option maxRecDepth 8000 in
/-- What the model computes where rounding shows: `2 ^ 53 + 1` is `2 ^ 53`, the
square of 94906267 loses its last digit, and the doubles nearest to
249.99999999999997 and 250 add up to 500. -/
theorem number_rounding_examples :
    Number.add 9007199254740992 1 = 9007199254740992 ∧
    Number.mul 94906267 94906267 = 9007199515875288 ∧
    (roundQuot 24999999999999997 100000000000000).add 250 = 500 ∧
    (roundQuot 1 10).add (roundQuot 2 10) = roundQuot 30000000000000004 100000000000000000 ∧
    (roundQuot 1 10).add (roundQuot 2 10) ≠ roundQuot 3 10 ∧
    Number.add Number.posInf Number.negInf = Number.nan ∧
    Number.lt Number.nan 500 = false :=
  ⟨by decide, by decide, by decide, by decide, by decide, by decide, by decide⟩

/-! ## Lemmas on getOwnerOrders -/

/-- The total of a view is line 197 applied to the `reduce` of lines 192-194 over
the subtotals the view lists. -/
theorem ownerView_total (ownerId : Id) (o : Order) :
    (ownerView ownerId o).totalAmount
      = displayedTotal
          (((ownerView ownerId o).shopOrder.map (fun so => so.subtotal)).foldl Number.add 0) := by
  simp [ownerView, List.foldl_map]

/-- Line 197 on a whole number below `2 ^ 53`. -/
theorem displayedTotal_nat (n : Nat) (h : n < 2 ^ 53) :
    displayedTotal (Number.fin n) = Number.fin ((if n < 500 then n + 50 else n : Nat) : ℚ) := by
  have h500 : (500 : Number) = Number.fin ((500 : Nat) : ℚ) := by decide
  have h50 : (50 : Number) = Number.fin ((50 : Nat) : ℚ) := by decide
  unfold displayedTotal
  rw [h500, h50, lt_nat]
  by_cases hn : n < 500
  · rw [if_pos (by simpa using hn), if_pos hn, add_nat n 50 (by omega)]
  · rw [if_neg (by simpa using hn), if_neg hn]

theorem mem_findOwnerOrders (st : Store) (createdAt : Id → Nat) (ownerId : Id) (o : Order) :
    o ∈ findOwnerOrders st createdAt ownerId
      ↔ (o ∈ st.orders ∧ ∃ so, so ∈ o.shopOrder ∧ so.owner = some ownerId) := by
  unfold findOwnerOrders
  rw [(List.perm_insertionSort _ _).mem_iff, List.mem_filter]
  simp

/-! ## Lemmas on rateOrder -/

theorem mapWithIndex_getElem {α β : Type} (f : Nat → α → β) (k : Nat) (l : List α) (n : Nat) :
    (mapWithIndex f k l)[n]? = (l[n]?).map (f (k + n)) := by
  induction l generalizing k n with
  | nil => simp [mapWithIndex]
  | cons x xs ih =>
    cases n with
    | zero => simp [mapWithIndex]
    | succ m =>
      simp only [mapWithIndex, List.getElem?_cons_succ, ih]
      have : k + 1 + m = k + (m + 1) := by omega
      rw [this]

theorem mem_rateableInShopOrder (i j : Nat) (items : List OrderItem) (a b : Nat) (id : Id) :
    (a, b, id) ∈ rateableInShopOrder i j items
      ↔ (a = i ∧ ∃ n it, b = j + n ∧ items[n]? = some it ∧ it.item = some id ∧
          it.userRating = none) := by
  induction items generalizing j with
  | nil => simp [rateableInShopOrder]
  | cons x xs ih =>
    have hrest : (a, b, id) ∈ rateableInShopOrder i (j + 1) xs
        ↔ (a = i ∧ ∃ n it, b = j + (n + 1) ∧ xs[n]? = some it ∧ it.item = some id ∧
            it.userRating = none) := by
      rw [ih (j + 1)]
      constructor
      · rintro ⟨ha, n, it, hb, h1, h2, h3⟩
        exact ⟨ha, n, it, by omega, h1, h2, h3⟩
      · rintro ⟨ha, n, it, hb, h1, h2, h3⟩
        exact ⟨ha, n, it, by omega, h1, h2, h3⟩
    have hsplit : (a = i ∧ ∃ n it, b = j + n ∧ (x :: xs)[n]? = some it ∧ it.item = some id ∧
          it.userRating = none)
        ↔ ((a = i ∧ b = j ∧ x.item = some id ∧ x.userRating = none) ∨
           (a = i ∧ ∃ n it, b = j + (n + 1) ∧ xs[n]? = some it ∧ it.item = some id ∧
            it.userRating = none)) := by
      constructor
      · rintro ⟨ha, n, it, hb, h1, h2, h3⟩
        cases n with
        | zero =>
          simp only [List.getElem?_cons_zero, Option.some.injEq] at h1
          subst h1
          exact Or.inl ⟨ha, by omega, h2, h3⟩
        | succ m =>
          simp only [List.getElem?_cons_succ] at h1
          exact Or.inr ⟨ha, m, it, hb, h1, h2, h3⟩
      · rintro (⟨ha, hb, h2, h3⟩ | ⟨ha, n, it, hb, h1, h2, h3⟩)
        · exact ⟨ha, 0, x, by omega, by simp, h2, h3⟩
        · exact ⟨ha, n + 1, it, hb, by simpa using h1, h2, h3⟩
    rw [hsplit]
    unfold rateableInShopOrder
    cases hx : x.item with
    | none =>
      simp only [hrest]
      constructor
      · exact fun h => Or.inr h
      · rintro (⟨_, _, h2, _⟩ | h)
        · cases h2
        · exact h
    | some itemId =>
      cases hr : x.userRating with
      | some q =>
        simp only [Option.isSome_some, if_true, hrest]
        constructor
        · exact fun h => Or.inr h
        · rintro (⟨_, _, _, h3⟩ | h)
          · cases h3
          · exact h
      | none =>
        simp only [Option.isSome_none, Bool.false_eq_true, if_false, List.mem_cons, hrest,
          Prod.mk.injEq, Option.some.injEq]
        constructor
        · rintro (⟨ha, hb, hid⟩ | h)
          · exact Or.inl ⟨ha, hb, hid.symm ▸ rfl, trivial⟩
          · exact Or.inr h
        · rintro (⟨ha, hb, hid, _⟩ | h)
          · exact Or.inl ⟨ha, hb, hid.symm⟩
          · exact Or.inr h

theorem mem_rateableFrom (k : Nat) (sos : List ShopOrder) (a b : Nat) (id : Id) :
    (a, b, id) ∈ rateableFrom k sos
      ↔ ∃ n so it, a = k + n ∧ sos[n]? = some so ∧ so.status = ShopOrderStatus.delivered ∧
          so.shopOrderItems[b]? = some it ∧ it.item = some id ∧ it.userRating = none := by
  induction sos generalizing k with
  | nil => simp [rateableFrom]
  | cons x xs ih =>
    unfold rateableFrom
    rw [List.mem_append, ih (k + 1)]
    constructor
    · rintro (h | ⟨n, so, it, ha, h1, h2, h3, h4, h5⟩)
      · by_cases hs : x.status = ShopOrderStatus.delivered
        · simp only [hs, ne_eq, not_true_eq_false, if_false] at h
          obtain ⟨ha, n, it, hb, h1, h2, h3⟩ := (mem_rateableInShopOrder k 0 _ a b id).1 h
          refine ⟨0, x, it, by omega, by simp, hs, ?_, h2, h3⟩
          have : b = n := by omega
          rw [this]
          exact h1
        · simp [hs] at h
      · exact ⟨n + 1, so, it, by omega, by simpa using h1, h2, h3, h4, h5⟩
    · rintro ⟨n, so, it, ha, h1, h2, h3, h4, h5⟩
      cases n with
      | zero =>
        simp only [List.getElem?_cons_zero, Option.some.injEq] at h1
        subst h1
        left
        simp only [h2, ne_eq, not_true_eq_false, if_false]
        exact (mem_rateableInShopOrder k 0 _ a b id).2 ⟨by omega, b, it, by omega, h3, h4, h5⟩
      | succ m =>
        right
        simp only [List.getElem?_cons_succ] at h1
        exact ⟨m, so, it, by omega, h1, h2, h3, h4, h5⟩

/-- An entry of `rateableItems` is the position and id of an unrated item of a
delivered ShopOrder, and every such item has its entry. -/
theorem mem_rateableItems (order : Order) (i j : Nat) (id : Id) :
    (i, j, id) ∈ rateableItems order
      ↔ ∃ so it, order.shopOrder[i]? = some so ∧ so.status = ShopOrderStatus.delivered ∧
          so.shopOrderItems[j]? = some it ∧ it.item = some id ∧ it.userRating = none := by
  unfold rateableItems
  rw [mem_rateableFrom]
  constructor
  · rintro ⟨n, so, it, ha, h1, h2, h3, h4, h5⟩
    have : i = n := by omega
    subst this
    exact ⟨so, it, h1, h2, h3, h4, h5⟩
  · rintro ⟨so, it, h1, h2, h3, h4, h5⟩
    exact ⟨i, so, it, by omega, h1, h2, h3, h4, h5⟩

/-- The loop keeps exactly the entries whose POST succeeds, in order. -/
theorem ratingLoop_eq (catalog : ItemCatalog) (r : ℚ) (l : List (Nat × Nat × Id))
    (rated : List (Nat × Nat × Id)) (results : List (Id × ℚ)) :
    ratingLoop catalog r l (rated, results)
      = (rated ++ l.filter (fun e => catalog e.1 e.2.1 e.2.2 r),
         results ++ (l.filter (fun e => catalog e.1 e.2.1 e.2.2 r)).map (fun e => (e.2.2, r))) := by
  induction l generalizing rated results with
  | nil => simp [ratingLoop]
  | cons e es ih =>
    obtain ⟨i, j, id⟩ := e
    unfold ratingLoop
    by_cases hc : catalog i j id r = true
    · simp only [hc, if_true, ih, List.filter_cons_of_pos, List.map_cons, List.append_assoc,
        List.singleton_append]
    · simp only [hc, Bool.false_eq_true, if_false, ih]
      rw [List.filter_cons_of_neg (by simpa using hc)]

/-- The item at a position after `setRatings`. -/
theorem setRatings_item (rated : List (Nat × Nat × Id)) (r : ℚ) (now : Nat) (order : Order)
    (i j : Nat) (so : ShopOrder) (it : OrderItem) (hso : order.shopOrder[i]? = some so)
    (hit : so.shopOrderItems[j]? = some it) :
    ∃ so1, (setRatings rated r now order).shopOrder[i]? = some so1 ∧
      so1._id = so._id ∧ so1.status = so.status ∧
      so1.shopOrderItems[j]?
        = some (if rated.any (fun e => e.1 == i && e.2.1 == j) then
            { it with userRating := some r, ratedAt := some now } else it) := by
  unfold setRatings
  simp only [mapWithIndex_getElem, hso, Option.map_some', zero_add]
  refine ⟨_, rfl, rfl, rfl, ?_⟩
  simp only [mapWithIndex_getElem, hit, Option.map_some', zero_add]

/-- The success envelope of `rateOrder`. -/
theorem rateOrder_rated (st : Store) (ready : Bool) (now : Nat) (catalog : ItemCatalog)
    (userId : Option Id) (orderId : Id) (r : ℚ) (order : Order)
    (h1 : 1 ≤ r) (h5 : r ≤ 5) (ho : findOrderById st orderId = some order)
    (hu : order.userId = userId) (hne : rateableItems order ≠ []) :
    (rateOrder st ready now catalog userId orderId (some r)).outcome.store
      = saveOrder st (setRatings
          ((rateableItems order).filter (fun e => catalog e.1 e.2.1 e.2.2 r)) r now order) ∧
    (rateOrder st ready now catalog userId orderId (some r)).catalogCalls
      = (rateableItems order).map (fun e => (e.2.2, r)) ∧
    (rateOrder st ready now catalog userId orderId (some r)).outcome.response
      = (if ready then
          { status := 200, success := true, message := "Thanks for rating your order",
            data := some
              { rating := r
                ratedItems := ((rateableItems order).filter
                  (fun e => catalog e.1 e.2.1 e.2.2 r)).map (fun e => (e.2.2, r)) } }
        else internalError) := by
  have hrange : ¬ (r < 1 ∨ r > 5) := by
    rintro (h | h)
    · exact absurd h (not_lt.2 h1)
    · exact absurd h (not_lt.2 h5)
  have hlen : ¬ (rateableItems order).length = 0 := by
    intro h
    exact hne (List.length_eq_zero.1 h)
  have hso : ¬ order.shopOrder.length = 0 := by
    intro h
    apply hne
    have : order.shopOrder = [] := List.length_eq_zero.1 h
    unfold rateableItems
    rw [this]
    rfl
  have hu2 : ¬ order.userId ≠ userId := by simp [hu]
  unfold rateOrder
  simp only [ho]
  rw [if_neg hrange, if_neg hu2, if_neg hso, if_neg hlen]
  simp only [ratingLoop_eq, List.nil_append]
  cases ready <;> simp [ getIO]

/-- Every path of `rateOrder` on a found order either changes nothing and
reports a failure without payload, or is the rated path. -/
theorem rateOrder_store_cases (st : Store) (ready : Bool) (now : Nat) (catalog : ItemCatalog)
    (userId : Option Id) (orderId : Id) (parsedRating : Option ℚ) (order : Order)
    (ho : findOrderById st orderId = some order) :
    ((rateOrder st ready now catalog userId orderId parsedRating).outcome.store = st ∧
      (rateOrder st ready now catalog userId orderId parsedRating).outcome.response.success
        = false ∧
      (rateOrder st ready now catalog userId orderId parsedRating).outcome.response.data
        = none ∧
      (rateOrder st ready now catalog userId orderId parsedRating).outcome.emits = [] ∧
      (rateOrder st ready now catalog userId orderId parsedRating).catalogCalls = []) ∨
    (∃ r, parsedRating = some r ∧ 1 ≤ r ∧ r ≤ 5 ∧ order.userId = userId ∧
      rateableItems order ≠ []) := by
  cases parsedRating with
  | none => exact Or.inl (by simp [rateOrder, failure])
  | some r =>
    by_cases hrange : r < 1 ∨ r > 5
    · exact Or.inl (by simp [rateOrder, hrange, failure])
    by_cases hu : order.userId = userId
    swap
    · exact Or.inl (by simp [rateOrder, hrange, ho, hu, failure])
    by_cases hne : rateableItems order = []
    · left
      unfold rateOrder
      simp only [ho]
      rw [if_neg hrange, if_neg (by simp [hu])]
      by_cases hso : order.shopOrder.length = 0
      · rw [if_pos hso]
        simp [failure]
      · rw [if_neg hso, if_pos (by simp [hne])]
        simp [failure]
    · right
      refine ⟨r, rfl, ?_, ?_, hu, hne⟩
      · exact not_lt.1 (fun h => hrange (Or.inl h))
      · exact not_lt.1 (fun h => hrange (Or.inr h))

theorem rateableItems_id_unique (order : Order) (i j : Nat) (id id2 : Id)
    (h1 : (i, j, id) ∈ rateableItems order) (h2 : (i, j, id2) ∈ rateableItems order) :
    id = id2 := by
  obtain ⟨so, it, hso, _, hit, hid, _⟩ := (mem_rateableItems order i j id).1 h1
  obtain ⟨so2, it2, hso2, _, hit2, hid2, _⟩ := (mem_rateableItems order i j id2).1 h2
  rw [hso] at hso2
  cases hso2
  rw [hit] at hit2
  cases hit2
  rw [hid] at hid2
  cases hid2
  rfl

/-- Whether a rateable position is among the rated ones is the answer of its
POST. -/
theorem rated_any_iff (catalog : ItemCatalog) (r : ℚ) (order : Order) (i j : Nat) (id : Id)
    (h : (i, j, id) ∈ rateableItems order) :
    ((rateableItems order).filter (fun e => catalog e.1 e.2.1 e.2.2 r)).any
        (fun e => e.1 == i && e.2.1 == j) = catalog i j id r := by
  cases hc : catalog i j id r with
  | true =>
    rw [List.any_eq_true]
    exact ⟨(i, j, id), List.mem_filter.2 ⟨h, hc⟩, by simp⟩
  | false =>
    rw [List.any_eq_false]
    rintro ⟨a, b, id2⟩ hmem hab
    simp only [Bool.and_eq_true, beq_iff_eq] at hab
    obtain ⟨ha, hb⟩ := hab
    subst ha
    subst hb
    obtain ⟨hm, hok⟩ := List.mem_filter.1 hmem
    have := rateableItems_id_unique order a b id id2 h hm
    subst this
    simp only at hok
    rw [hc] at hok
    cases hok

/-- A position that is not rateable is not among the rated ones. -/
theorem rated_any_of_not_rateable (catalog : ItemCatalog) (r : ℚ) (order : Order) (i j : Nat)
    (h : ∀ id, (i, j, id) ∉ rateableItems order) :
    ((rateableItems order).filter (fun e => catalog e.1 e.2.1 e.2.2 r)).any
        (fun e => e.1 == i && e.2.1 == j) = false := by
  rw [List.any_eq_false]
  rintro ⟨a, b, id2⟩ hmem hab
  simp only [Bool.and_eq_true, beq_iff_eq] at hab
  obtain ⟨ha, hb⟩ := hab
  subst ha
  subst hb
  exact h id2 (List.mem_filter.1 hmem).1

/-- The item stored at a position after the rated path of `rateOrder`. -/
theorem rateOrder_stored_item (st : Store) (ready : Bool) (now : Nat) (catalog : ItemCatalog)
    (userId : Option Id) (orderId : Id) (r : ℚ) (order : Order)
    (h1 : 1 ≤ r) (h5 : r ≤ 5) (ho : findOrderById st orderId = some order)
    (hu : order.userId = userId) (hne : rateableItems order ≠ [])
    (i j : Nat) (so : ShopOrder) (it : OrderItem) (hso : order.shopOrder[i]? = some so)
    (hit : so.shopOrderItems[j]? = some it) :
    ∃ o1 so1,
      findOrderById (rateOrder st ready now catalog userId orderId (some r)).outcome.store
        orderId = some o1 ∧
      o1.shopOrder[i]? = some so1 ∧ so1._id = so._id ∧ so1.status = so.status ∧
      so1.shopOrderItems[j]?
        = some (if ((rateableItems order).filter (fun e => catalog e.1 e.2.1 e.2.2 r)).any
              (fun e => e.1 == i && e.2.1 == j) then
            { it with userRating := some r, ratedAt := some now } else it) := by
  obtain ⟨hstore, _, _⟩ :=
    rateOrder_rated st ready now catalog userId orderId r order h1 h5 ho hu hne
  have hoid : order._id = orderId := findOrderById_id ho
  obtain ⟨so1, hs1, hs2, hs3, hs4⟩ := setRatings_item
    ((rateableItems order).filter (fun e => catalog e.1 e.2.1 e.2.2 r)) r now order i j so it
    hso hit
  refine ⟨_, so1, ?_, hs1, hs2, hs3, hs4⟩
  rw [hstore]
  have h := findOrderById_saveOrder st (setRatings
    ((rateableItems order).filter (fun e => catalog e.1 e.2.1 e.2.2 r)) r now order)
  have hid2 : (setRatings ((rateableItems order).filter
      (fun e => catalog e.1 e.2.1 e.2.2 r)) r now order)._id = orderId := hoid
  rw [hid2, ho] at h
  exact h

/-! ## Lemmas on placeOrder -/

theorem keys_pushGroup (key : Id) (item : CartItem) (groups : List (Id × List CartItem)) :
    (pushGroup key item groups).map Prod.fst
      = if key ∈ groups.map Prod.fst then groups.map Prod.fst
        else groups.map Prod.fst ++ [key] := by
  induction groups with
  | nil => simp [pushGroup]
  | cons g rest ih =>
    obtain ⟨k, items⟩ := g
    unfold pushGroup
    by_cases hk : k = key
    · simp [hk]
    · have hk2 : ¬ key = k := fun h => hk h.symm
      simp only [hk, if_false, List.map_cons, ih, List.mem_cons, hk2, false_or]
      split <;> simp

theorem mem_pushGroup (key : Id) (item : CartItem) (groups : List (Id × List CartItem))
    (hn : (groups.map Prod.fst).Nodup) (p : Id × List CartItem)
    (hp : p ∈ pushGroup key item groups) :
    (p ∈ groups ∧ p.1 ≠ key) ∨ (∃ old, (key, old) ∈ groups ∧ p = (key, old ++ [item])) ∨
      (key ∉ groups.map Prod.fst ∧ p = (key, [item])) := by
  induction groups with
  | nil =>
    simp only [pushGroup, List.mem_singleton] at hp
    exact Or.inr (Or.inr ⟨by simp, hp⟩)
  | cons g rest ih =>
    obtain ⟨k, items⟩ := g
    simp only [List.map_cons, List.nodup_cons] at hn
    unfold pushGroup at hp
    by_cases hk : k = key
    · subst hk
      simp only [if_true, List.mem_cons] at hp
      rcases hp with hp | hp
      · exact Or.inr (Or.inl ⟨items, by simp, hp⟩)
      · left
        refine ⟨by simp [hp], ?_⟩
        intro h
        apply hn.1
        rw [← h]
        exact List.mem_map_of_mem Prod.fst hp
    · simp only [hk, if_false, List.mem_cons] at hp
      rcases hp with hp | hp
      · left
        subst hp
        exact ⟨by simp, hk⟩
      · rcases ih hn.2 hp with ⟨h1, h2⟩ | ⟨old, h1, h2⟩ | ⟨h1, h2⟩
        · exact Or.inl ⟨by simp [h1], h2⟩
        · exact Or.inr (Or.inl ⟨old, by simp [h1], h2⟩)
        · refine Or.inr (Or.inr ⟨?_, h2⟩)
          simp only [List.map_cons, List.mem_cons, not_or]
          exact ⟨fun h => hk h.symm, h1⟩

theorem sum_pushGroup (f : CartItem → ℚ) (key : Id) (item : CartItem)
    (groups : List (Id × List CartItem)) :
    ((pushGroup key item groups).map (fun g => (g.2.map f).sum)).sum
      = (groups.map (fun g => (g.2.map f).sum)).sum + f item := by
  induction groups with
  | nil => simp [pushGroup]
  | cons g rest ih =>
    obtain ⟨k, items⟩ := g
    unfold pushGroup
    by_cases hk : k = key
    · simp only [hk, if_true, List.map_cons, List.sum_cons, List.map_append, List.sum_append,
        List.map_nil, List.sum_nil, add_zero]
      ring
    · simp only [hk, if_false, List.map_cons, List.sum_cons, ih]
      ring

/-- Pushing one more cart item keeps the grouping. -/
theorem grouped_push (groups : List (Id × List CartItem)) (seen : List CartItem)
    (item : CartItem) (key : Id) (hkey : item.shop = some key) (h : Grouped groups seen) :
    Grouped (pushGroup key item groups) (seen ++ [item]) := by
  obtain ⟨hn, hfilter, hkeys, hsum⟩ := h
  have hfilter2 : ∀ k, (seen ++ [item]).filter (fun it => it.shop == some k)
      = seen.filter (fun it => it.shop == some k) ++ (if key = k then [item] else []) := by
    intro k
    rw [List.filter_append]
    congr 1
    by_cases hk : key = k
    · simp [hk, hkey]
    · simp [hk, hkey]
  refine ⟨?_, ?_, ?_, ?_⟩
  · rw [keys_pushGroup]
    split
    · exact hn
    · rename_i hnot
      rw [List.nodup_append]
      refine ⟨hn, by simp, ?_⟩
      intro a ha hb
      simp only [List.mem_singleton] at hb
      subst hb
      exact hnot ha
  · intro p hp
    rw [hfilter2]
    rcases mem_pushGroup key item groups hn p hp with ⟨h1, h2⟩ | ⟨old, h1, h2⟩ | ⟨h1, h2⟩
    · rw [hfilter p h1]
      have : ¬ key = p.1 := fun h => h2 h.symm
      simp [this]
    · subst h2
      have := hfilter _ h1
      simp only at this
      simp [this]
    · subst h2
      have hempty : seen.filter (fun it => it.shop == some key) = [] := by
        rw [List.filter_eq_nil_iff]
        intro it hit hshop
        apply h1
        rw [hkeys]
        exact ⟨it, hit, by simpa using hshop⟩
      simp [hempty]
  · intro k
    rw [keys_pushGroup]
    constructor
    · intro hk
      split at hk
      · obtain ⟨it, hit, hs⟩ := (hkeys k).1 hk
        exact ⟨it, by simp [hit], hs⟩
      · rw [List.mem_append] at hk
        rcases hk with hk | hk
        · obtain ⟨it, hit, hs⟩ := (hkeys k).1 hk
          exact ⟨it, by simp [hit], hs⟩
        · simp only [List.mem_singleton] at hk
          subst hk
          exact ⟨item, by simp, hkey⟩
    · rintro ⟨it, hit, hs⟩
      rw [List.mem_append] at hit
      rcases hit with hit | hit
      · have := (hkeys k).2 ⟨it, hit, hs⟩
        split
        · exact this
        · exact List.mem_append_left _ this
      · simp only [List.mem_singleton] at hit
        subst hit
        rw [hkey] at hs
        cases hs
        split
        · assumption
        · simp
  · rw [sum_pushGroup, hsum]
    simp

/-- The grouping of a whole cart. -/
theorem groupItemsByShop_grouped (rest : List CartItem) (groups : List (Id × List CartItem))
    (seen : List CartItem) (result : List (Id × List CartItem))
    (h : groupItemsByShop rest groups = some result) (hg : Grouped groups seen) :
    Grouped result (seen ++ rest) := by
  induction rest generalizing groups seen with
  | nil =>
    simp only [groupItemsByShop, Option.some.injEq] at h
    subst h
    simpa using hg
  | cons item rest ih =>
    unfold groupItemsByShop at h
    cases hshop : item.shop with
    | none => simp [hshop] at h
    | some key =>
      simp only [hshop] at h
      have := ih (pushGroup key item groups) (seen ++ [item]) h
        (grouped_push groups seen item key hshop hg)
      simpa using this

theorem grouped_nil : Grouped [] [] := by
  refine ⟨by simp, by simp, by simp, by simp⟩

/-- Each ShopOrder built has the subtotal of its group. -/
theorem buildShopOrders_subtotals (shops : ShopLookup) (subId : Nat → Id) (k : Nat)
    (groups : List (Id × List CartItem)) (shopOrders : List ShopOrder)
    (h : buildShopOrders shops subId k groups = some shopOrders) :
    List.Forall₂ (fun g so =>
        so.subtotal = subTotal g.2 ∧
        so.shopOrderItems.length = g.2.length ∧
        ∃ shop, shops g.1 = ShopAnswer.answered (some shop) ∧ so.shop = shop._id ∧
          so.owner = shop.owner)
      groups shopOrders := by
  induction groups generalizing k shopOrders with
  | nil =>
    simp only [buildShopOrders, Option.some.injEq] at h
    subst h
    exact List.Forall₂.nil
  | cons g rest ih =>
    obtain ⟨shopId, items⟩ := g
    unfold buildShopOrders at h
    cases hs : shops shopId with
    | failed => simp [hs] at h
    | answered shop =>
      cases shop with
      | none => simp [hs] at h
      | some shop =>
        simp only [hs, Option.map_eq_some'] at h
        obtain ⟨tail, htail, rfl⟩ := h
        refine List.Forall₂.cons ⟨?_, ?_, shop, hs, rfl, rfl⟩ (ih (k + 1) tail htail)
        · simp only [shopOrderOf]
        · simp [shopOrderOf]

/-- The exact amount of a line of whole numbers. -/
theorem lineAmount_whole (it : CartItem) (a b : Nat) (hp : it.price = Number.fin a)
    (hq : it.quantity = Number.fin b) : lineAmount it = ((a * b : Nat) : ℚ) := by
  simp [lineAmount, hp, hq, Number.toRat]

theorem sum_lineAmount_nonneg (items : List CartItem)
    (hwhole : ∀ it, it ∈ items → ∃ a b : Nat, it.price = Number.fin a ∧ it.quantity = Number.fin b) :
    ∀ x, x ∈ items.map lineAmount → (0 : ℚ) ≤ x := by
  intro x hx
  rw [List.mem_map] at hx
  obtain ⟨it, hit, rfl⟩ := hx
  obtain ⟨a, b, hp, hq⟩ := hwhole it hit
  rw [lineAmount_whole it a b hp hq]
  positivity

/-- The `reduce` of lines 65-68 is exact on whole prices and quantities while the
running sum stays below `2 ^ 53`. -/
theorem foldl_lines_whole (items : List CartItem) (acc : Nat)
    (hwhole : ∀ it, it ∈ items → ∃ a b : Nat, it.price = Number.fin a ∧ it.quantity = Number.fin b)
    (hsmall : (acc : ℚ) + (items.map lineAmount).sum < 2 ^ 53) :
    items.foldl (fun acc item => acc.add (item.price.mul item.quantity)) (Number.fin acc)
      = Number.fin ((acc : ℚ) + (items.map lineAmount).sum) := by
  induction items generalizing acc with
  | nil => simp
  | cons it rest ih =>
    obtain ⟨a, b, hp, hq⟩ := hwhole it (List.mem_cons_self _ _)
    have hrest : (0 : ℚ) ≤ (rest.map lineAmount).sum :=
      List.sum_nonneg (sum_lineAmount_nonneg rest
        (fun x hx => hwhole x (List.mem_cons_of_mem _ hx)))
    have hline := lineAmount_whole it a b hp hq
    simp only [List.map_cons, List.sum_cons, hline] at hsmall ⊢
    have hab : acc + a * b < 2 ^ 53 := by
      have : ((acc + a * b : Nat) : ℚ) < ((2 ^ 53 : Nat) : ℚ) := by
        push_cast at hsmall ⊢
        linarith
      exact_mod_cast this
    simp only [List.foldl_cons]
    rw [hp, hq, mul_nat a b (by omega), add_nat acc (a * b) hab,
      ih (acc + a * b) (fun x hx => hwhole x (List.mem_cons_of_mem _ hx))
        (by push_cast at hsmall ⊢; linarith)]
    congr 1
    push_cast
    ring

/-- The subtotal of a group of whole prices and quantities is their exact sum. -/
theorem subTotal_whole (items : List CartItem)
    (hwhole : ∀ it, it ∈ items → ∃ a b : Nat, it.price = Number.fin a ∧ it.quantity = Number.fin b)
    (hsmall : (items.map lineAmount).sum < 2 ^ 53) :
    subTotal items = Number.fin ((items.map lineAmount).sum) := by
  have h0 : (0 : Number) = Number.fin ((0 : Nat) : ℚ) := by decide
  unfold subTotal
  rw [h0, foldl_lines_whole items 0 hwhole (by simpa using hsmall)]
  simp

/-- The exact subtotals of the ShopOrders built from groups of whole prices and
quantities. -/
theorem forall₂_subtotal_whole (cart : List CartItem)
    (groups : List (Id × List CartItem)) (shopOrders : List ShopOrder)
    (hwhole : ∀ it, it ∈ cart → ∃ a b : Nat, it.price = Number.fin a ∧ it.quantity = Number.fin b)
    (hsmall : (cart.map lineAmount).sum < 2 ^ 53)
    (h : List.Forall₂ (fun g so =>
        g.2 = cart.filter (fun it => it.shop == some g.1) ∧ so.subtotal = subTotal g.2)
      groups shopOrders) :
    List.Forall₂ (fun g so => so.subtotal = Number.fin ((g.2.map lineAmount).sum))
        groups shopOrders ∧
      (shopOrders.map (fun so => so.subtotal.toRat)).sum
        = (groups.map (fun g => (g.2.map lineAmount).sum)).sum := by
  induction h with
  | nil => exact ⟨List.Forall₂.nil, rfl⟩
  | @cons g so gs sos hhead _ ih =>
    have hsub : (g.2.map lineAmount).sum ≤ (cart.map lineAmount).sum := by
      rw [hhead.1]
      exact List.Sublist.sum_le_sum ((List.filter_sublist _).map lineAmount)
        (sum_lineAmount_nonneg cart hwhole)
    have hg : ∀ it, it ∈ g.2 → ∃ a b : Nat, it.price = Number.fin a ∧ it.quantity = Number.fin b := by
      intro it hit
      rw [hhead.1] at hit
      exact hwhole it (List.mem_filter.1 hit).1
    have hso : so.subtotal = Number.fin ((g.2.map lineAmount).sum) := by
      rw [hhead.2, subTotal_whole g.2 hg (lt_of_le_of_lt hsub hsmall)]
    refine ⟨List.Forall₂.cons hso ih.1, ?_⟩
    have hrat : so.subtotal.toRat = (g.2.map lineAmount).sum := by
      rw [hso]
      rfl
    simp only [List.map_cons, List.sum_cons, ih.2, hrat]

set_option maxRecDepth 8000 in
/-- Amounts with fractions, through the handler: the cart of `sampleRequest3`
gives the subtotals 551.85 and 1446.52, which add up to 1998.37, while the
lines of the cart, added from left to right, give 1998.3700000000001. -/
theorem placeOrder_fractional_example :
    (placeOrder sampleStore true shopsKnown none sampleHmac 15 sampleSubId 33
        sampleRequest3).response.data.map
      (fun p => p.order.shopOrder.map (fun so => (so.shop, so.subtotal)))
      = some [(20, roundQuot 55185 100), (21, roundQuot 144652 100)] ∧
    (roundQuot 55185 100).add (roundQuot 144652 100) = roundQuot 199837 100 ∧
    (sampleRequest3.cartItems.map subTotal)
      = some (roundQuot 19983700000000001 10000000000000) ∧
    roundQuot 199837 100 ≠ roundQuot 19983700000000001 10000000000000 :=
  ⟨by decide, by decide, by decide, by decide⟩

/-- The path of `placeOrder` on which an order is created. -/
theorem placeOrder_created (st : Store) (ready : Bool) (shops : ShopLookup)
    (secret : Option String) (hmac : String → String → String) (newId : Id)
    (subId : Nat → Id) (userId : Id) (req : PlaceRequest) (cart : List CartItem)
    (address : DeliveryAddress) (groups : List (Id × List CartItem))
    (shopOrder : List ShopOrder) (paymentStatus : String)
    (hc : req.cartItems = some cart) (hlen : ¬ cart.length = 0)
    (ha : req.deliveryAddress = some address)
    (hbad : ¬ (address.text = "" ∨ address.latitude = 0 ∨ address.longitude = 0))
    (hg : groupItemsByShop cart [] = some groups)
    (hb : buildShopOrders shops subId 0 groups = some shopOrder)
    (hpay : checkPayment secret hmac req.paymentMethod req.payment
      = PaymentCheck.passed paymentStatus) :
    (placeOrder st ready shops secret hmac newId subId userId req).store
      = { st with orders := st.orders ++
          [{ _id := newId, userId := some userId, deliveryAddress := address,
             totalAmount := req.totalAmount, shopOrder := shopOrder }] } ∧
    (placeOrder st ready shops secret hmac newId subId userId req).response
      = (if ready then
          { status := 201, success := true, message := "Order placed successfully",
            data := some
              { order := { _id := newId, userId := some userId, deliveryAddress := address,
                           totalAmount := req.totalAmount, shopOrder := shopOrder }
                paymentMethod := req.paymentMethod
                paymentStatus := paymentStatus } }
        else internalError) := by
  unfold placeOrder
  simp only [hc, ha, hg, hb, hpay]
  rw [if_neg hlen, if_neg hbad]
  cases ready <;> simp [ getIO]

/-- Inversion of a created order: every check passed, and the stored order is
the request's address and total with the ShopOrders built from the groups. -/
theorem placeOrder_created_inv (st : Store) (ready : Bool) (shops : ShopLookup)
    (secret : Option String) (hmac : String → String → String) (newId : Id)
    (subId : Nat → Id) (userId : Id) (req : PlaceRequest) (p : PlacedOrder)
    (h : (placeOrder st ready shops secret hmac newId subId userId req).response.data
      = some p) :
    ∃ cart address groups shopOrder,
      req.cartItems = some cart ∧ cart ≠ [] ∧ req.deliveryAddress = some address ∧
      groupItemsByShop cart [] = some groups ∧
      buildShopOrders shops subId 0 groups = some shopOrder ∧
      p.order = { _id := newId, userId := some userId, deliveryAddress := address,
                  totalAmount := req.totalAmount, shopOrder := shopOrder } ∧
      (placeOrder st ready shops secret hmac newId subId userId req).store.orders
        = st.orders ++ [p.order] ∧
      (placeOrder st ready shops secret hmac newId subId userId req).response.status = 201 := by
  cases hc : req.cartItems with
  | none => simp [placeOrder, hc, failure] at h
  | some cart =>
    by_cases hlen : cart.length = 0
    · simp [placeOrder, hc, hlen, failure] at h
    cases ha : req.deliveryAddress with
    | none => simp [placeOrder, hc, hlen, ha, failure] at h
    | some address =>
      by_cases hbad : address.text = "" ∨ address.latitude = 0 ∨ address.longitude = 0
      · unfold placeOrder at h
        simp only [hc, ha] at h
        rw [if_neg hlen, if_pos hbad] at h
        simp [failure] at h
      cases hg : groupItemsByShop cart [] with
      | none =>
        unfold placeOrder at h
        simp only [hc, ha, hg] at h
        rw [if_neg hlen, if_neg hbad] at h
        simp [internalError, failure] at h
      | some groups =>
        cases hb : buildShopOrders shops subId 0 groups with
        | none =>
          unfold placeOrder at h
          simp only [hc, ha, hg, hb] at h
          rw [if_neg hlen, if_neg hbad] at h
          simp [internalError, failure] at h
        | some shopOrder =>
          cases hpay : checkPayment secret hmac req.paymentMethod req.payment with
          | rejected code message =>
            unfold placeOrder at h
            simp only [hc, ha, hg, hb, hpay] at h
            rw [if_neg hlen, if_neg hbad] at h
            simp [failure] at h
          | passed paymentStatus =>
            obtain ⟨hstore, hresp⟩ := placeOrder_created st ready shops secret hmac newId subId
              userId req cart address groups shopOrder paymentStatus hc hlen ha hbad hg hb hpay
            rw [hresp] at h
            cases ready with
            | false => simp [internalError, failure] at h
            | true =>
              simp only [if_true, Option.some.injEq] at h
              subst h
              refine ⟨cart, address, groups, shopOrder, rfl,
                fun hnil => hlen (by simp [hnil]), rfl, hg, hb, rfl, ?_, ?_⟩
              · rw [hstore]
              · rw [hresp]
                rfl

theorem forall₂_and_left {α β : Type} (R : α → β → Prop) (P : α → Prop) (l1 : List α)
    (l2 : List β) (h : List.Forall₂ R l1 l2) (hp : ∀ a, a ∈ l1 → P a) :
    List.Forall₂ (fun a b => P a ∧ R a b) l1 l2 := by
  induction h with
  | nil => exact List.Forall₂.nil
  | cons hhead _ ih =>
    exact List.Forall₂.cons ⟨hp _ (by simp), hhead⟩ (ih (fun a ha => hp a (by simp [ha])))

/-- The path of `acceptOrder` past its checks, with the socket handle in either
state. -/
theorem acceptOrder_of_pre (st : Store) (ready : Bool) (now : Nat) (d aid : Id) (a : Assignment)
    (o : Order) (so : ShopOrder) (ha : findAssignmentById st aid = some a)
    (hs : a.status = AssignmentStatus.broadcasted) (hm : d ∈ a.broadcastedTo)
    (ho : findOrderById st a.order = some o)
    (hso : o.shopOrder.find? (fun s => s._id == a.shopOrderId) = some so) :
    (acceptOrder st ready now d (some aid)).store
      = saveOrder (saveAssignment st (acceptedBy a d now)) (assignCourier o a.shopOrderId d) ∧
    (acceptOrder st ready now d (some aid)).response
      = (if ready then acceptedResponse aid a.order else internalError) := by
  have hid : a._id = aid := findAssignmentById_id ha
  have hoid : o._id = a.order := findOrderById_id ho
  have hc : a.broadcastedTo.contains d = true := by simpa using hm
  have ho1 : findOrderById (saveAssignment st (acceptedBy a d now)) (acceptedBy a d now).order
      = some o := ho
  have hso1 : o.shopOrder.find? (fun s => s._id == (acceptedBy a d now).shopOrderId)
      = some so := hso
  unfold acceptOrder
  simp only [ha]
  rw [if_neg (by simp [hs]), if_neg (fun hn => hn hc)]
  simp only [ho1, hso1]
  cases ready <;> simp [ getIO, acceptedBy, assignCourier, hid, hoid]

/-! ## Claims -/

/-- C1: acceptOrder checks its preconditions in order, each with its own
failure, and changes no state when one fails: an unknown assignment id gives
404 NotFound; a known Assignment whose status is not broadcasted gives 400
InvalidState; a broadcasted Assignment whose candidate set lacks the courier
gives 403 Forbidden. In all three cases the store is the one given and no
event is emitted. -/
theorem acceptOrder_preconditions (st : Store) (ready : Bool) (now : Nat)
    (deliveryBoyId aid : Id) :
    ((∀ a, a ∈ st.assignments → a._id ≠ aid) →
      acceptOrder st ready now deliveryBoyId (some aid)
        = ⟨failure 404 "Assignment not found", st, []⟩) ∧
    (∀ a, findAssignmentById st aid = some a →
      a.status ≠ AssignmentStatus.broadcasted →
      acceptOrder st ready now deliveryBoyId (some aid)
        = ⟨failure 400 "Assignment is not in broadcasted state", st, []⟩) ∧
    (∀ a, findAssignmentById st aid = some a →
      a.status = AssignmentStatus.broadcasted →
      deliveryBoyId ∉ a.broadcastedTo →
      acceptOrder st ready now deliveryBoyId (some aid)
        = ⟨failure 403 "You are not authorized to accept this assignment", st, []⟩) := by
  refine ⟨fun h => ?_, acceptOrder_not_broadcasted st ready now deliveryBoyId aid,
    acceptOrder_not_candidate st ready now deliveryBoyId aid⟩
  apply acceptOrder_unknown
  unfold findAssignmentById
  rw [List.find?_eq_none]
  intro a ha
  simpa using h a ha

/-- C1, at the sample store: assignment 99 is unknown, assignment 2 is already
assigned, and courier 9 was never offered assignment 1. -/
theorem acceptOrder_preconditions_witness :
    acceptOrder sampleStore true 50 9 (some 99)
      = ⟨failure 404 "Assignment not found", sampleStore, []⟩ ∧
    acceptOrder sampleStore true 50 9 (some 2)
      = ⟨failure 400 "Assignment is not in broadcasted state", sampleStore, []⟩ ∧
    acceptOrder sampleStore true 50 9 (some 1)
      = ⟨failure 403 "You are not authorized to accept this assignment", sampleStore, []⟩ :=
  ⟨(acceptOrder_preconditions sampleStore true 50 9 99).1 (by decide),
   (acceptOrder_preconditions sampleStore true 50 9 2).2.1 sampleHeld (by decide) (by decide),
   (acceptOrder_preconditions sampleStore true 50 9 1).2.2 sampleOffer (by decide) (by decide)
     (by decide)⟩

/-- C2: a successful acceptOrder (answer 200) was made on a broadcasted
Assignment by one of its candidates, and it leaves that Assignment with status
assigned, assigned-courier the caller, an empty candidate set and the
acceptance timestamp set; the parent Order keeps the number of its ShopOrders,
the first ShopOrder with the Assignment's shopOrderId now carries the caller as
assigned courier and is otherwise as before, every ShopOrder with another
sub-id is unchanged at its position, and when the sub-ids of the Order are
pairwise distinct every ShopOrder with that sub-id carries the caller. -/
theorem acceptOrder_success_effect (st : Store) (ready : Bool) (now : Nat)
    (deliveryBoyId aid : Id)
    (hok : (acceptOrder st ready now deliveryBoyId (some aid)).response.status = 200) :
    ∃ a o so,
      findAssignmentById st aid = some a ∧
      a.status = AssignmentStatus.broadcasted ∧
      deliveryBoyId ∈ a.broadcastedTo ∧
      findOrderById st a.order = some o ∧
      o.shopOrder.find? (fun s => s._id == a.shopOrderId) = some so ∧
      findAssignmentById (acceptOrder st ready now deliveryBoyId (some aid)).store aid
        = some { a with
            status := AssignmentStatus.assigned
            assignedTo := some deliveryBoyId
            broadcastedTo := []
            acceptedAt := some now } ∧
      ∃ o1,
        findOrderById (acceptOrder st ready now deliveryBoyId (some aid)).store a.order
          = some o1 ∧
        o1.shopOrder.length = o.shopOrder.length ∧
        o1.shopOrder.find? (fun s => s._id == a.shopOrderId)
          = some { so with assignedDeliveryBoy := some deliveryBoyId } ∧
        (∀ (i : Nat) (s : ShopOrder), o.shopOrder[i]? = some s → s._id ≠ a.shopOrderId →
          o1.shopOrder[i]? = some s) ∧
        ((o.shopOrder.map (fun s => s._id)).Nodup →
          ∀ s : ShopOrder, s ∈ o1.shopOrder → s._id = a.shopOrderId →
            s.assignedDeliveryBoy = some deliveryBoyId) := by
  obtain ⟨a, o, so, ha, hs, hm, ho, hso, _, heq⟩ :=
    acceptOrder_ok_inv st ready now deliveryBoyId aid hok
  have hid : a._id = aid := findAssignmentById_id ha
  have hoid : o._id = a.order := findOrderById_id ho
  refine ⟨a, o, so, ha, hs, hm, ho, hso, ?_, assignCourier o a.shopOrderId deliveryBoyId,
    ?_, ?_, ?_, ?_, ?_⟩
  · rw [heq]
    have h1 := findAssignmentById_saveAssignment st (acceptedBy a deliveryBoyId now)
    have h2 : (acceptedBy a deliveryBoyId now)._id = aid := hid
    rw [h2, ha] at h1
    exact h1
  · rw [heq]
    have h1 := findOrderById_saveOrder (saveAssignment st (acceptedBy a deliveryBoyId now))
      (assignCourier o a.shopOrderId deliveryBoyId)
    have h2 : (assignCourier o a.shopOrderId deliveryBoyId)._id = a.order := hoid
    have h3 : findOrderById (saveAssignment st (acceptedBy a deliveryBoyId now)) a.order
        = some o := ho
    rw [h2, h3] at h1
    exact h1
  · exact updateFirst_length _ _ _
  · have h1 := updateFirst_find (fun s : ShopOrder => s._id == a.shopOrderId)
      (fun s => { s with assignedDeliveryBoy := some deliveryBoyId }) (by simp) o.shopOrder
    rw [hso] at h1
    exact h1
  · intro i s hi hne
    exact updateFirst_getElem_other _ _ _ i s hi (by simpa using hne)
  · intro hn s hmem hsid
    obtain ⟨x, _, _, hx⟩ := updateFirst_mem_nodup (fun s : ShopOrder => s._id) a.shopOrderId
      (fun s => { s with assignedDeliveryBoy := some deliveryBoyId }) o.shopOrder hn s hmem hsid
    rw [hx]

/-- C2, at the sample store: courier 5 accepts assignment 1. -/
theorem acceptOrder_success_effect_witness :
    (acceptOrder sampleStore true 50 5 (some 1)).response.status = 200 ∧
    ∃ a o so,
      findAssignmentById sampleStore 1 = some a ∧
      a.status = AssignmentStatus.broadcasted ∧
      5 ∈ a.broadcastedTo ∧
      findOrderById sampleStore a.order = some o ∧
      o.shopOrder.find? (fun s => s._id == a.shopOrderId) = some so ∧
      findAssignmentById (acceptOrder sampleStore true 50 5 (some 1)).store 1
        = some { a with
            status := AssignmentStatus.assigned
            assignedTo := some 5
            broadcastedTo := []
            acceptedAt := some 50 } ∧
      ∃ o1,
        findOrderById (acceptOrder sampleStore true 50 5 (some 1)).store a.order = some o1 ∧
        o1.shopOrder.length = o.shopOrder.length ∧
        o1.shopOrder.find? (fun s => s._id == a.shopOrderId)
          = some { so with assignedDeliveryBoy := some 5 } ∧
        (∀ (i : Nat) (s : ShopOrder), o.shopOrder[i]? = some s → s._id ≠ a.shopOrderId →
          o1.shopOrder[i]? = some s) ∧
        ((o.shopOrder.map (fun s => s._id)).Nodup →
          ∀ s : ShopOrder, s ∈ o1.shopOrder → s._id = a.shopOrderId →
            s.assignedDeliveryBoy = some 5) :=
  ⟨by decide, acceptOrder_success_effect sampleStore true 50 5 1 (by decide)⟩

/-- C4: once an acceptOrder call on an Assignment has succeeded, the Assignment
is assigned to the winner with no candidate left, and an acceptOrder call made
afterwards on the same Assignment by any courier, at any time and whatever the
socket handle, answers 400 InvalidState, emits nothing and returns the store
as it found it, so status, assigned courier and candidate set stay as they
were. -/
theorem acceptOrder_once (st : Store) (ready : Bool) (now : Nat) (deliveryBoyId aid : Id)
    (hok : (acceptOrder st ready now deliveryBoyId (some aid)).response.status = 200)
    (ready2 : Bool) (now2 : Nat) (other : Id) :
    (∃ a1, findAssignmentById (acceptOrder st ready now deliveryBoyId (some aid)).store aid
        = some a1 ∧
      a1.status = AssignmentStatus.assigned ∧ a1.assignedTo = some deliveryBoyId ∧
      a1.broadcastedTo = []) ∧
    acceptOrder (acceptOrder st ready now deliveryBoyId (some aid)).store ready2 now2 other
        (some aid)
      = ⟨failure 400 "Assignment is not in broadcasted state",
         (acceptOrder st ready now deliveryBoyId (some aid)).store, []⟩ := by
  obtain ⟨a, o, so, ha, hs, hm, ho, hso, _, heq⟩ :=
    acceptOrder_ok_inv st ready now deliveryBoyId aid hok
  have hid : a._id = aid := findAssignmentById_id ha
  have hfind : findAssignmentById (acceptOrder st ready now deliveryBoyId (some aid)).store aid
      = some (acceptedBy a deliveryBoyId now) := by
    rw [heq]
    have h1 := findAssignmentById_saveAssignment st (acceptedBy a deliveryBoyId now)
    have h2 : (acceptedBy a deliveryBoyId now)._id = aid := hid
    rw [h2, ha] at h1
    exact h1
  refine ⟨⟨_, hfind, rfl, rfl, rfl⟩, ?_⟩
  exact acceptOrder_not_broadcasted _ ready2 now2 other aid _ hfind (by simp [acceptedBy])

/-- C4, at the sample store: after courier 5 has won assignment 1, courier 6
(a former candidate) is turned away. -/
theorem acceptOrder_once_witness :
    (acceptOrder sampleStore true 50 5 (some 1)).response.status = 200 ∧
    (∃ a1, findAssignmentById (acceptOrder sampleStore true 50 5 (some 1)).store 1 = some a1 ∧
      a1.status = AssignmentStatus.assigned ∧ a1.assignedTo = some 5 ∧
      a1.broadcastedTo = []) ∧
    acceptOrder (acceptOrder sampleStore true 50 5 (some 1)).store true 51 6 (some 1)
      = ⟨failure 400 "Assignment is not in broadcasted state",
         (acceptOrder sampleStore true 50 5 (some 1)).store, []⟩ :=
  ⟨by decide, acceptOrder_once sampleStore true 50 5 1 (by decide) true 51 6⟩

/-- C9: on a successful acceptOrder (answer 200) the couriers that are sent
`delivery:assignment-closed` are exactly the candidates the Assignment had
before the accept, other than the accepting courier; the accepting courier is
never sent it. -/
theorem acceptOrder_closed_to_losers (st : Store) (ready : Bool) (now : Nat)
    (deliveryBoyId aid : Id)
    (hok : (acceptOrder st ready now deliveryBoyId (some aid)).response.status = 200) :
    ∃ a, findAssignmentById st aid = some a ∧
      (∀ c : Id,
        (∃ e, e ∈ (acceptOrder st ready now deliveryBoyId (some aid)).emits ∧
            e.event = "delivery:assignment-closed" ∧ e.room = Room.delivery c)
          ↔ (c ∈ a.broadcastedTo ∧ c ≠ deliveryBoyId)) ∧
      ¬ ∃ e, e ∈ (acceptOrder st ready now deliveryBoyId (some aid)).emits ∧
          e.event = "delivery:assignment-closed" ∧ e.room = Room.delivery deliveryBoyId := by
  obtain ⟨a, o, so, ha, _, _, _, _, _, heq⟩ :=
    acceptOrder_ok_inv st ready now deliveryBoyId aid hok
  refine ⟨a, ha, ?_, ?_⟩
  · intro c
    rw [heq]
    exact acceptEmits_closed _ _ _ deliveryBoyId a.broadcastedTo c
  · rw [heq]
    intro h
    exact ((acceptEmits_closed _ _ _ deliveryBoyId a.broadcastedTo deliveryBoyId).1 h).2 rfl

/-- C9, at the sample store: courier 5 wins assignment 1, courier 6 loses. -/
theorem acceptOrder_closed_to_losers_witness :
    (acceptOrder sampleStore true 50 5 (some 1)).response.status = 200 ∧
    ∃ a, findAssignmentById sampleStore 1 = some a ∧
      (∀ c : Id,
        (∃ e, e ∈ (acceptOrder sampleStore true 50 5 (some 1)).emits ∧
            e.event = "delivery:assignment-closed" ∧ e.room = Room.delivery c)
          ↔ (c ∈ a.broadcastedTo ∧ c ≠ 5)) ∧
      ¬ ∃ e, e ∈ (acceptOrder sampleStore true 50 5 (some 1)).emits ∧
          e.event = "delivery:assignment-closed" ∧ e.room = Room.delivery 5 :=
  ⟨by decide, acceptOrder_closed_to_losers sampleStore true 50 5 1 (by decide)⟩

/-- C5: the candidate set of an Assignment created by updateOrderStatus is the
list of nearby courier ids kept by the lookup, in that order, without the busy
ones: a courier id is in broadcastedTo if and only if the lookup returned it
and no Assignment in status assigned, picked-up or en-route is assigned to it;
so a busy courier is never a candidate, wherever it stands in the list. -/
theorem updateOrderStatus_candidates (st : Store) (ready : Bool) (newId : Id)
    (nearby : NearbyCouriers) (orderId shopOrderId : Option Id)
    (status : Option ShopOrderStatus) (da : Assignment)
    (h : (updateOrderStatus st ready newId nearby orderId shopOrderId status).created
      = some da) :
    ∃ oid order nearest,
      orderId = some oid ∧ findOrderById st oid = some order ∧
      (lookupNearby nearby order.deliveryAddress.longitude
        order.deliveryAddress.latitude).2 = some nearest ∧
      da.broadcastedTo = (nearest.map (fun p => p._id)).filter
        (fun c => !(busyDeliveryBoys st (nearest.map (fun p => p._id))).contains c) ∧
      (∀ c : Id, c ∈ da.broadcastedTo ↔
        (c ∈ nearest.map (fun p => p._id) ∧
          ¬ ∃ a, a ∈ st.assignments ∧ a.assignedTo = some c ∧
            (a.status = AssignmentStatus.assigned ∨ a.status = AssignmentStatus.pickedUp ∨
              a.status = AssignmentStatus.enRoute))) ∧
      (∀ c : Id, isBusy st c → c ∉ da.broadcastedTo) := by
  obtain ⟨oid, sid, order, shopOrder, nearest, rfl, rfl, rfl, ho, hso, hna, hl, rfl⟩ :=
    updateOrderStatus_created_inv st ready newId nearby orderId shopOrderId status da h
  refine ⟨oid, order, nearest, rfl, ho, hl, availableBoys_ids st nearest, ?_, ?_⟩
  · intro c
    have := mem_availableBoys_ids st nearest c
    simpa [isBusy, activeStatuses, createAssignment] using this
  · intro c hb hc
    exact ((mem_availableBoys_ids st nearest c).1 hc).2 hb

/-- C5, at the sample store: couriers 7 and 8 are nearby, courier 7 holds an
assigned Assignment, so the candidate set is courier 8 alone. -/
theorem updateOrderStatus_candidates_witness :
    (updateOrderStatus sampleStore2 true 3 nearbyClose (some 11) (some 110)
        (some ShopOrderStatus.outForDelivery)).created
      = some (createAssignment 3 11 22 110 [8]) ∧
    ∃ oid order nearest,
      some 11 = some oid ∧ findOrderById sampleStore2 oid = some order ∧
      (lookupNearby nearbyClose order.deliveryAddress.longitude
        order.deliveryAddress.latitude).2 = some nearest ∧
      (createAssignment 3 11 22 110 [8]).broadcastedTo = (nearest.map (fun p => p._id)).filter
        (fun c => !(busyDeliveryBoys sampleStore2 (nearest.map (fun p => p._id))).contains c) ∧
      (∀ c : Id, c ∈ (createAssignment 3 11 22 110 [8]).broadcastedTo ↔
        (c ∈ nearest.map (fun p => p._id) ∧
          ¬ ∃ a, a ∈ sampleStore2.assignments ∧ a.assignedTo = some c ∧
            (a.status = AssignmentStatus.assigned ∨ a.status = AssignmentStatus.pickedUp ∨
              a.status = AssignmentStatus.enRoute))) ∧
      (∀ c : Id, isBusy sampleStore2 c → c ∉ (createAssignment 3 11 22 110 [8]).broadcastedTo) :=
  ⟨by decide,
   updateOrderStatus_candidates sampleStore2 true 3 nearbyClose (some 11) (some 110)
     (some ShopOrderStatus.outForDelivery) (createAssignment 3 11 22 110 [8]) (by decide)⟩

/-- C7: updateOrderStatus never creates a second Assignment for a ShopOrder
that already references one. When the target ShopOrder has an assignment
reference, a transition to out-for-delivery posts no nearby-courier query,
creates no Assignment, leaves the assignment collection as it was, and the
stored ShopOrder keeps its assignment reference and assigned courier (with the
new status). And a call with any status other than out-for-delivery, whatever
its other parameters, posts no query and creates no Assignment. -/
theorem updateOrderStatus_no_second_assignment (st : Store) (ready : Bool) (newId : Id)
    (nearby : NearbyCouriers) :
    (∀ (oid sid : Id) (order : Order) (shopOrder : ShopOrder),
      findOrderById st oid = some order →
      order.shopOrder.find? (fun so => so._id == sid) = some shopOrder →
      shopOrder.assignment ≠ none →
      (updateOrderStatus st ready newId nearby (some oid) (some sid)
        (some ShopOrderStatus.outForDelivery)).queries = [] ∧
      (updateOrderStatus st ready newId nearby (some oid) (some sid)
        (some ShopOrderStatus.outForDelivery)).created = none ∧
      (updateOrderStatus st ready newId nearby (some oid) (some sid)
        (some ShopOrderStatus.outForDelivery)).outcome.store.assignments = st.assignments ∧
      ∃ o1 so1,
        findOrderById (updateOrderStatus st ready newId nearby (some oid) (some sid)
          (some ShopOrderStatus.outForDelivery)).outcome.store oid = some o1 ∧
        o1.shopOrder.find? (fun so => so._id == sid) = some so1 ∧
        so1.assignment = shopOrder.assignment ∧
        so1.assignedDeliveryBoy = shopOrder.assignedDeliveryBoy ∧
        so1.status = ShopOrderStatus.outForDelivery) ∧
    (∀ (orderId shopOrderId : Option Id) (status : Option ShopOrderStatus),
      status ≠ some ShopOrderStatus.outForDelivery →
      (updateOrderStatus st ready newId nearby orderId shopOrderId status).queries = [] ∧
      (updateOrderStatus st ready newId nearby orderId shopOrderId status).created = none ∧
      (updateOrderStatus st ready newId nearby orderId shopOrderId status).outcome.store.assignments
        = st.assignments) := by
  constructor
  · intro oid sid order shopOrder ho hso hne
    have hskip := broadcast_skip st newId nearby order
      { shopOrder with status := ShopOrderStatus.outForDelivery } (fun hh => hne hh.2)
    obtain ⟨hq, hcr, _, _⟩ := updateOrderStatus_found st ready newId nearby oid sid
      ShopOrderStatus.outForDelivery order shopOrder ho hso
    have hcr2 : (updateOrderStatus st ready newId nearby (some oid) (some sid)
        (some ShopOrderStatus.outForDelivery)).created = none := by rw [hcr, hskip]
    refine ⟨by rw [hq, hskip], hcr2, ?_, ?_⟩
    · rw [updateOrderStatus_assignments, hcr2]
      simp
    · obtain ⟨o1, h1, h2⟩ := updateOrderStatus_stored st ready newId nearby oid sid
        ShopOrderStatus.outForDelivery order shopOrder ho hso
      rw [hskip] at h2
      exact ⟨o1, _, h1, h2, rfl, rfl, rfl⟩
  · intro orderId shopOrderId status hne
    have hcr : (updateOrderStatus st ready newId nearby orderId shopOrderId status).created
        = none := by
      cases hc : (updateOrderStatus st ready newId nearby orderId shopOrderId status).created with
      | none => rfl
      | some da =>
        obtain ⟨_, _, _, _, _, _, _, hs, _⟩ :=
          updateOrderStatus_created_inv st ready newId nearby orderId shopOrderId status da hc
        exact absurd hs hne
    refine ⟨?_, hcr, ?_⟩
    · exact updateOrderStatus_queries_nil st ready newId nearby orderId shopOrderId status
        (fun _ _ _ _ _ _ _ _ hh => hne hh.1)
    · rw [updateOrderStatus_assignments, hcr]
      simp

/-- C7, at the sample store: shop order 100 of order 10 already references
assignment 1, and shop order 110 of order 11 is set to `delivered`. -/
theorem updateOrderStatus_no_second_assignment_witness :
    ((updateOrderStatus sampleStore2 true 3 nearbyClose (some 10) (some 100)
        (some ShopOrderStatus.outForDelivery)).queries = [] ∧
      (updateOrderStatus sampleStore2 true 3 nearbyClose (some 10) (some 100)
        (some ShopOrderStatus.outForDelivery)).created = none ∧
      (updateOrderStatus sampleStore2 true 3 nearbyClose (some 10) (some 100)
        (some ShopOrderStatus.outForDelivery)).outcome.store.assignments
        = sampleStore2.assignments ∧
      ∃ o1 so1,
        findOrderById (updateOrderStatus sampleStore2 true 3 nearbyClose (some 10) (some 100)
          (some ShopOrderStatus.outForDelivery)).outcome.store 10 = some o1 ∧
        o1.shopOrder.find? (fun so => so._id == 100) = some so1 ∧
        so1.assignment = some 1 ∧
        so1.assignedDeliveryBoy = none ∧
        so1.status = ShopOrderStatus.outForDelivery) ∧
    ((updateOrderStatus sampleStore2 true 3 nearbyClose (some 11) (some 110)
        (some ShopOrderStatus.delivered)).queries = [] ∧
      (updateOrderStatus sampleStore2 true 3 nearbyClose (some 11) (some 110)
        (some ShopOrderStatus.delivered)).created = none ∧
      (updateOrderStatus sampleStore2 true 3 nearbyClose (some 11) (some 110)
        (some ShopOrderStatus.delivered)).outcome.store.assignments
        = sampleStore2.assignments) :=
  ⟨(updateOrderStatus_no_second_assignment sampleStore2 true 3 nearbyClose).1 10 100
      sampleOrder sampleShopOrder100 (by decide) (by decide) (by decide),
   (updateOrderStatus_no_second_assignment sampleStore2 true 3 nearbyClose).2 (some 11)
      (some 110) (some ShopOrderStatus.delivered) (by decide)⟩

/-- C8: when updateOrderStatus runs the broadcast (out-for-delivery on a
ShopOrder without assignment reference), it posts to the nearby-courier
collaborator first with radius 5000, and a second time, with radius 20000, if
and only if the first call answered with an empty list (a missing `data` field
is read as the empty list); when the first call answers with at least one
courier its list is the one the candidates are taken from and nothing else is
posted; when the second call is made and answers, its list is the one used. -/
theorem updateOrderStatus_radius (st : Store) (ready : Bool) (newId : Id)
    (nearby : NearbyCouriers) (oid sid : Id) (order : Order) (shopOrder : ShopOrder)
    (ho : findOrderById st oid = some order)
    (hso : order.shopOrder.find? (fun so => so._id == sid) = some shopOrder)
    (hna : shopOrder.assignment = none) :
    ((updateOrderStatus st ready newId nearby (some oid) (some sid)
        (some ShopOrderStatus.outForDelivery)).queries = [5000] ∨
      (updateOrderStatus st ready newId nearby (some oid) (some sid)
        (some ShopOrderStatus.outForDelivery)).queries = [5000, 20000]) ∧
    ((updateOrderStatus st ready newId nearby (some oid) (some sid)
        (some ShopOrderStatus.outForDelivery)).queries = [5000, 20000] ↔
      ∃ data, nearby order.deliveryAddress.longitude order.deliveryAddress.latitude 5000
          = NearbyAnswer.answered data ∧ data.getD [] = []) ∧
    (∀ data, nearby order.deliveryAddress.longitude order.deliveryAddress.latitude 5000
        = NearbyAnswer.answered data → data.getD [] ≠ [] →
      (updateOrderStatus st ready newId nearby (some oid) (some sid)
        (some ShopOrderStatus.outForDelivery)).queries = [5000] ∧
      (updateOrderStatus st ready newId nearby (some oid) (some sid)
        (some ShopOrderStatus.outForDelivery)).created
        = some (createAssignment newId order._id shopOrder.shop shopOrder._id
            ((availableBoys st (data.getD [])).map (fun b => b._id)))) ∧
    (∀ data fallback,
      nearby order.deliveryAddress.longitude order.deliveryAddress.latitude 5000
        = NearbyAnswer.answered data → data.getD [] = [] →
      nearby order.deliveryAddress.longitude order.deliveryAddress.latitude 20000
        = NearbyAnswer.answered fallback →
      (updateOrderStatus st ready newId nearby (some oid) (some sid)
        (some ShopOrderStatus.outForDelivery)).created
        = some (createAssignment newId order._id shopOrder.shop shopOrder._id
            ((availableBoys st (fallback.getD [])).map (fun b => b._id)))) := by
  obtain ⟨hq, hcr, _, _⟩ := updateOrderStatus_found st ready newId nearby oid sid
    ShopOrderStatus.outForDelivery order shopOrder ho hso
  rw [hq, hcr]
  have hf := fun q h => broadcast_failed st newId nearby order
    { shopOrder with status := ShopOrderStatus.outForDelivery } rfl hna q h
  have hc := fun q n h => broadcast_created st newId nearby order
    { shopOrder with status := ShopOrderStatus.outForDelivery } rfl hna q n h
  rcases lookupNearby_cases nearby order.deliveryAddress.longitude
      order.deliveryAddress.latitude with
    ⟨h1, hl⟩ | ⟨data, h1, he, hl⟩ | ⟨data, h1, he, h2, hl⟩ | ⟨data, fb, h1, he, h2, hl⟩
  · rw [hf _ hl]
    refine ⟨Or.inl rfl, ?_, ?_, ?_⟩
    · simp [h1]
    · intro d hd; rw [h1] at hd; cases hd
    · intro d fb2 hd; rw [h1] at hd; cases hd
  · rw [hc _ _ hl]
    refine ⟨Or.inl rfl, ?_, ?_, ?_⟩
    · constructor
      · intro h; simp at h
      · rintro ⟨d, hd, hde⟩
        rw [h1] at hd
        cases hd
        exact absurd hde he
    · intro d hd _
      rw [h1] at hd
      cases hd
      exact ⟨rfl, rfl⟩
    · intro d fb2 hd hde
      rw [h1] at hd
      cases hd
      exact absurd hde he
  · rw [hf _ hl]
    refine ⟨Or.inr rfl, ?_, ?_, ?_⟩
    · exact ⟨fun _ => ⟨data, h1, he⟩, fun _ => rfl⟩
    · intro d hd hne
      rw [h1] at hd
      cases hd
      exact absurd he hne
    · intro d fb2 _ _ hfb
      rw [h2] at hfb
      cases hfb
  · rw [hc _ _ hl]
    refine ⟨Or.inr rfl, ?_, ?_, ?_⟩
    · exact ⟨fun _ => ⟨data, h1, he⟩, fun _ => rfl⟩
    · intro d hd hne
      rw [h1] at hd
      cases hd
      exact absurd he hne
    · intro d fb2 _ _ hfb
      rw [h2] at hfb
      cases hfb
      rfl

/-- C8, at the sample store: nobody within 5000, courier 8 within 20000. -/
theorem updateOrderStatus_radius_witness :
    (updateOrderStatus sampleStore2 true 3 nearbyFar (some 11) (some 110)
        (some ShopOrderStatus.outForDelivery)).queries = [5000, 20000] ∧
    (updateOrderStatus sampleStore2 true 3 nearbyFar (some 11) (some 110)
        (some ShopOrderStatus.outForDelivery)).created
      = some (createAssignment 3 11 22 110 [8]) ∧
    (updateOrderStatus sampleStore2 true 3 nearbyClose (some 11) (some 110)
        (some ShopOrderStatus.outForDelivery)).queries = [5000] :=
  ⟨((updateOrderStatus_radius sampleStore2 true 3 nearbyFar 11 110 sampleOrder2
      sampleShopOrder110 (by decide) (by decide) (by decide)).2.1).2
      ⟨some [], by decide, by decide⟩,
   (updateOrderStatus_radius sampleStore2 true 3 nearbyFar 11 110 sampleOrder2
      sampleShopOrder110 (by decide) (by decide) (by decide)).2.2.2
      (some []) (some [courier8]) (by decide) (by decide) (by decide),
   ((updateOrderStatus_radius sampleStore2 true 3 nearbyClose 11 110 sampleOrder2
      sampleShopOrder110 (by decide) (by decide) (by decide)).2.2.1
      (some [courier7, courier8]) (by decide) (by decide)).1⟩

/-- C6, refuted as stated: at the sample store, with nobody nearby at either
radius, and with only the busy courier 7 nearby, the eligible list is empty and
yet updateOrderStatus creates an Assignment whose candidate set is empty and
stores its id as the ShopOrder's assignment reference. -/
theorem updateOrderStatus_empty_candidates_counterexample :
    (availableBoys sampleStore2 [] = [] ∧
      (updateOrderStatus sampleStore2 true 3 nearbyNobody (some 11) (some 110)
          (some ShopOrderStatus.outForDelivery)).queries = [5000, 20000] ∧
      (updateOrderStatus sampleStore2 true 3 nearbyNobody (some 11) (some 110)
          (some ShopOrderStatus.outForDelivery)).created
        = some (createAssignment 3 11 22 110 []) ∧
      ((findOrderById (updateOrderStatus sampleStore2 true 3 nearbyNobody (some 11) (some 110)
          (some ShopOrderStatus.outForDelivery)).outcome.store 11).bind
        (fun o => o.shopOrder.find? (fun so => so._id == 110))).map (fun so => so.assignment)
        = some (some 3)) ∧
    (availableBoys sampleStore2 [courier7] = [] ∧
      (updateOrderStatus sampleStore2 true 3 nearbyBusy (some 11) (some 110)
          (some ShopOrderStatus.outForDelivery)).created
        = some (createAssignment 3 11 22 110 []) ∧
      ((findOrderById (updateOrderStatus sampleStore2 true 3 nearbyBusy (some 11) (some 110)
          (some ShopOrderStatus.outForDelivery)).outcome.store 11).bind
        (fun o => o.shopOrder.find? (fun so => so._id == 110))).map (fun so => so.assignment)
        = some (some 3)) := by
  decide

/-- C6, amended: when updateOrderStatus runs the broadcast and the lookup keeps
a list whose eligible part (nearby minus busy) is empty, both radius queries
returning no courier included, an Assignment with an empty candidate set is
created all the same, the stored ShopOrder references it (no courier assigned),
the status change is persisted and no `delivery:assignment` offer is emitted.
No Assignment is produced, the reference staying unset, when a nearby-courier
call throws; the status change is persisted then too. -/
theorem updateOrderStatus_empty_candidates (st : Store) (ready : Bool) (newId : Id)
    (nearby : NearbyCouriers) (oid sid : Id) (order : Order) (shopOrder : ShopOrder)
    (ho : findOrderById st oid = some order)
    (hso : order.shopOrder.find? (fun so => so._id == sid) = some shopOrder)
    (hna : shopOrder.assignment = none) :
    (∀ nearest,
      (lookupNearby nearby order.deliveryAddress.longitude
        order.deliveryAddress.latitude).2 = some nearest →
      availableBoys st nearest = [] →
      (updateOrderStatus st ready newId nearby (some oid) (some sid)
        (some ShopOrderStatus.outForDelivery)).created
        = some (createAssignment newId order._id shopOrder.shop shopOrder._id []) ∧
      (∃ o1 so1,
        findOrderById (updateOrderStatus st ready newId nearby (some oid) (some sid)
          (some ShopOrderStatus.outForDelivery)).outcome.store oid = some o1 ∧
        o1.shopOrder.find? (fun so => so._id == sid) = some so1 ∧
        so1.assignment = some newId ∧ so1.assignedDeliveryBoy = none ∧
        so1.status = ShopOrderStatus.outForDelivery) ∧
      (∀ e, e ∈ (updateOrderStatus st ready newId nearby (some oid) (some sid)
          (some ShopOrderStatus.outForDelivery)).outcome.emits →
        e.event ≠ "delivery:assignment")) ∧
    ((lookupNearby nearby order.deliveryAddress.longitude
        order.deliveryAddress.latitude).2 = none →
      (updateOrderStatus st ready newId nearby (some oid) (some sid)
        (some ShopOrderStatus.outForDelivery)).created = none ∧
      ∃ o1 so1,
        findOrderById (updateOrderStatus st ready newId nearby (some oid) (some sid)
          (some ShopOrderStatus.outForDelivery)).outcome.store oid = some o1 ∧
        o1.shopOrder.find? (fun so => so._id == sid) = some so1 ∧
        so1.assignment = none ∧
        so1.status = ShopOrderStatus.outForDelivery) := by
  obtain ⟨_, hcr, _, _⟩ := updateOrderStatus_found st ready newId nearby oid sid
    ShopOrderStatus.outForDelivery order shopOrder ho hso
  obtain ⟨o1, h1, h2⟩ := updateOrderStatus_stored st ready newId nearby oid sid
    ShopOrderStatus.outForDelivery order shopOrder ho hso
  have hem := updateOrderStatus_emits st ready newId nearby oid sid
    ShopOrderStatus.outForDelivery order shopOrder ho hso
  constructor
  · intro nearest hl hav
    have hb := broadcast_created st newId nearby order
      { shopOrder with status := ShopOrderStatus.outForDelivery } rfl hna _ nearest
      (by rw [lookupNearby_eta, hl])
    rw [hav] at hb
    rw [hb] at hcr h2 hem
    refine ⟨hcr, ⟨o1, _, h1, h2, rfl, rfl, rfl⟩, ?_⟩
    intro e he
    rw [hem] at he
    cases ready with
    | false => simp at he
    | true =>
      simp only [if_true, List.map_nil] at he
      exact statusEmits_no_offer _ _ _ e he
  · intro hl
    have hb := broadcast_failed st newId nearby order
      { shopOrder with status := ShopOrderStatus.outForDelivery } rfl hna _
      (by rw [lookupNearby_eta, hl])
    rw [hb] at hcr h2
    exact ⟨hcr, o1, _, h1, h2, hna, rfl⟩

/-- C6 amended, at the sample store: nobody nearby gives an empty Assignment;
a collaborator that is down gives none. -/
theorem updateOrderStatus_empty_candidates_witness :
    ((updateOrderStatus sampleStore2 true 3 nearbyNobody (some 11) (some 110)
        (some ShopOrderStatus.outForDelivery)).created
        = some (createAssignment 3 sampleOrder2._id sampleShopOrder110.shop
            sampleShopOrder110._id []) ∧
      (∃ o1 so1,
        findOrderById (updateOrderStatus sampleStore2 true 3 nearbyNobody (some 11) (some 110)
          (some ShopOrderStatus.outForDelivery)).outcome.store 11 = some o1 ∧
        o1.shopOrder.find? (fun so => so._id == 110) = some so1 ∧
        so1.assignment = some 3 ∧ so1.assignedDeliveryBoy = none ∧
        so1.status = ShopOrderStatus.outForDelivery) ∧
      (∀ e, e ∈ (updateOrderStatus sampleStore2 true 3 nearbyNobody (some 11) (some 110)
          (some ShopOrderStatus.outForDelivery)).outcome.emits →
        e.event ≠ "delivery:assignment")) ∧
    ((updateOrderStatus sampleStore2 true 3 nearbyDown (some 11) (some 110)
        (some ShopOrderStatus.outForDelivery)).created = none ∧
      ∃ o1 so1,
        findOrderById (updateOrderStatus sampleStore2 true 3 nearbyDown (some 11) (some 110)
          (some ShopOrderStatus.outForDelivery)).outcome.store 11 = some o1 ∧
        o1.shopOrder.find? (fun so => so._id == 110) = some so1 ∧
        so1.assignment = none ∧
        so1.status = ShopOrderStatus.outForDelivery) :=
  ⟨(updateOrderStatus_empty_candidates sampleStore2 true 3 nearbyNobody 11 110 sampleOrder2
      sampleShopOrder110 (by decide) (by decide) (by decide)).1 [] (by decide) (by decide),
   (updateOrderStatus_empty_candidates sampleStore2 true 3 nearbyDown 11 110 sampleOrder2
      sampleShopOrder110 (by decide) (by decide) (by decide)).2 (by decide)⟩

/-- C10: in orderDelivered, when the courier has a current Assignment whose
order exists and the code verification fails (the collaborator answers
success false, or the call throws), the call answers 400 without success,
emits nothing, and returns the store as it found it: the Assignment is still
the courier's current one, with status assigned and the courier assigned, and
the order with its ShopOrders is untouched, so the same courier can retry. -/
theorem orderDelivered_verification_failure (st : Store) (ready : Bool) (now : Nat)
    (verify : OtpVerifier) (deliveryBoyId : Id) (otp : String) (a : Assignment) (o : Order)
    (ha : findCurrentAssignment st deliveryBoyId = some a)
    (ho : findOrderById st a.order = some o)
    (hv : verify o.userId otp = VerifyAnswer.failed ∨
      ∃ m, verify o.userId otp = VerifyAnswer.answered false m) :
    (orderDelivered st ready now verify deliveryBoyId otp).response.status = 400 ∧
    (orderDelivered st ready now verify deliveryBoyId otp).response.success = false ∧
    (orderDelivered st ready now verify deliveryBoyId otp).store = st ∧
    (orderDelivered st ready now verify deliveryBoyId otp).emits = [] ∧
    findCurrentAssignment (orderDelivered st ready now verify deliveryBoyId otp).store
      deliveryBoyId = some a ∧
    a.status = AssignmentStatus.assigned ∧ a.assignedTo = some deliveryBoyId ∧
    findOrderById (orderDelivered st ready now verify deliveryBoyId otp).store a.order
      = some o := by
  have hprop := List.find?_some ha
  simp only [Bool.and_eq_true, beq_iff_eq] at hprop
  have key : (orderDelivered st ready now verify deliveryBoyId otp).response.status = 400 ∧
      (orderDelivered st ready now verify deliveryBoyId otp).response.success = false ∧
      (orderDelivered st ready now verify deliveryBoyId otp).store = st ∧
      (orderDelivered st ready now verify deliveryBoyId otp).emits = [] := by
    unfold orderDelivered
    simp only [ha, ho]
    rcases hv with hv | ⟨m, hv⟩
    · simp [hv, failure]
    · simp [hv, failure]
  obtain ⟨h1, h2, h3, h4⟩ := key
  refine ⟨h1, h2, h3, h4, ?_, hprop.2, hprop.1, ?_⟩
  · rw [h3]; exact ha
  · rw [h3]; exact ho

/-- C10, at the sample store: courier 7 holds assignment 2 and submits a wrong
code, then the collaborator is down. -/
theorem orderDelivered_verification_failure_witness :
    ((orderDelivered sampleStore true 60 verifyCode 7 "0000").response.status = 400 ∧
      (orderDelivered sampleStore true 60 verifyCode 7 "0000").response.success = false ∧
      (orderDelivered sampleStore true 60 verifyCode 7 "0000").store = sampleStore ∧
      (orderDelivered sampleStore true 60 verifyCode 7 "0000").emits = [] ∧
      findCurrentAssignment (orderDelivered sampleStore true 60 verifyCode 7 "0000").store 7
        = some sampleHeld ∧
      sampleHeld.status = AssignmentStatus.assigned ∧ sampleHeld.assignedTo = some 7 ∧
      findOrderById (orderDelivered sampleStore true 60 verifyCode 7 "0000").store
        sampleHeld.order = some sampleOrder) ∧
    (orderDelivered sampleStore true 60 verifyDown 7 "4321").store = sampleStore :=
  ⟨orderDelivered_verification_failure sampleStore true 60 verifyCode 7 "0000" sampleHeld
      sampleOrder (by decide) (by decide) (Or.inr ⟨some "Invalid OTP", by decide⟩),
   (orderDelivered_verification_failure sampleStore true 60 verifyDown 7 "4321" sampleHeld
      sampleOrder (by decide) (by decide) (Or.inl (by decide))).2.2.1⟩

/-- C3, refuted as stated: couriers 5 and 6, both candidates of assignment 1,
call acceptOrder and both read the Assignment before either saves it. Without
a version key both calls answer 200 and the Assignment ends with the second
writer, courier 6, while courier 5 was told it had won; with the version key
the second save fails and courier 6 is answered 500, which is neither
InvalidState nor Forbidden. In both cases every call has answered and the
property fails. -/
theorem acceptOrder_interleaved_counterexample :
    ((run false true 1 [0, 1, 0, 1, 0, 0, 1, 1] (startWorld sampleStore 50 [5, 6])).calls.map
        (fun c => c.response.map (fun r => r.status)) = [some 200, some 200] ∧
      (findAssignmentById
        (run false true 1 [0, 1, 0, 1, 0, 0, 1, 1] (startWorld sampleStore 50 [5, 6])).store
        1).map (fun a => a.assignedTo) = some (some 6) ∧
      exactlyOneWins 1
        (run false true 1 [0, 1, 0, 1, 0, 0, 1, 1] (startWorld sampleStore 50 [5, 6]))
        = false) ∧
    ((run true true 1 [0, 1, 0, 1, 0, 0, 1, 1] (startWorld sampleStore 50 [5, 6])).calls.map
        (fun c => c.response.map (fun r => r.status)) = [some 200, some 500] ∧
      exactlyOneWins 1
        (run true true 1 [0, 1, 0, 1, 0, 0, 1, 1] (startWorld sampleStore 50 [5, 6]))
        = false) := by
  decide

/-- C3, amended: acceptOrder has no atomic conditional update. For N ≥ 1 callers,
all candidates of one broadcasted Assignment whose parent order and shop order
exist, the socket handle being initialised: under every interleaving of the
calls' steps after which every call has answered, some call is answered with
the success envelope and the stored Assignment is assigned to that caller;
every call is answered with the success envelope, with 400 InvalidState, or,
only when the schema keeps the version key, with the 500 of a rejected save;
and with the version key exactly one call succeeds. Under the schedule in
which each call takes its four steps before the next one starts, with or
without the version key, exactly one call succeeds, namely the first, every
other call is answered 400 InvalidState, and the stored Assignment is assigned
to the winner. And under every interleaving, once a save has landed (the
stored Assignment is no longer broadcasted), this stays so, and every call that
reads after that point is answered InvalidState and changes nothing. -/
theorem acceptOrder_interleaved_outcome (versionKey : Bool) (st : Store) (now : Nat)
    (aid d : Id) (ds : List Id) (a : Assignment) (o : Order) (so : ShopOrder)
    (ha : findAssignmentById st aid = some a)
    (hs : a.status = AssignmentStatus.broadcasted)
    (hds : ∀ x, x ∈ d :: ds → x ∈ a.broadcastedTo)
    (ho : findOrderById st a.order = some o)
    (hso : o.shopOrder.find? (fun s => s._id == a.shopOrderId) = some so) :
    (∀ (schedule : List Nat) (w : World),
      w = run versionKey true aid schedule (startWorld st now (d :: ds)) →
      (∀ c, c ∈ w.calls → c.response ≠ none) →
      (∃ c, c ∈ w.calls ∧ c.response = some (acceptedResponse aid a.order) ∧
        (findAssignmentById w.store aid).map (fun x => (x.status, x.assignedTo))
          = some (AssignmentStatus.assigned, some c.deliveryBoyId)) ∧
      (∀ c, c ∈ w.calls →
        c.response = some (acceptedResponse aid a.order)
          ∨ c.response = some (failure 400 "Assignment is not in broadcasted state")
          ∨ (versionKey = true ∧ c.response = some internalError)) ∧
      (versionKey = true → (w.calls.filter AcceptCall.succeeded).length = 1)) ∧
    (exactlyOneWins aid (run versionKey true aid (serialSchedule (d :: ds).length)
        (startWorld st now (d :: ds))) = true ∧
      (run versionKey true aid (serialSchedule (d :: ds).length)
          (startWorld st now (d :: ds))).calls.map (fun c => c.response)
        = some (acceptedResponse aid a.order) ::
            ds.map (fun _ => some (failure 400 "Assignment is not in broadcasted state")) ∧
      (findAssignmentById (run versionKey true aid (serialSchedule (d :: ds).length)
          (startWorld st now (d :: ds))).store aid).map (fun x => x.assignedTo)
        = some (some d)) ∧
    (∀ (ready : Bool) (s1 s2 : List Nat) (i : Nat) (c : AcceptCall),
      landed aid (run versionKey ready aid s1 (startWorld st now (d :: ds))).store →
      (run versionKey ready aid (s1 ++ s2) (startWorld st now (d :: ds))).calls[i]? = some c →
      c.pc = AcceptPc.start →
      landed aid (run versionKey ready aid (s1 ++ s2) (startWorld st now (d :: ds))).store ∧
      stepAt versionKey ready aid
          (run versionKey ready aid (s1 ++ s2) (startWorld st now (d :: ds))) i
        = { run versionKey ready aid (s1 ++ s2) (startWorld st now (d :: ds)) with
            calls := (run versionKey ready aid (s1 ++ s2)
              (startWorld st now (d :: ds))).calls.set i
                { c with pc := (AcceptPc.finished
                    (failure 400 "Assignment is not in broadcasted state") []) } }) := by
  have hid : a._id = aid := findAssignmentById_id ha
  have hd : d ∈ a.broadcastedTo := hds d (List.mem_cons_self _ _)
  refine ⟨?_, ?_, ?_⟩
  · intro schedule w hw hfin
    subst hw
    have hinv := run_inv versionKey aid a schedule _ hs hid
      (startWorld_inv versionKey st now aid (d :: ds) a o so ha hds ho hso)
    refine worldInv_complete versionKey aid a _ hid ?_ hinv hfin
    intro hnil
    have hlen := run_length versionKey true aid schedule (startWorld st now (d :: ds))
    rw [hnil] at hlen
    simp [startWorld, startCalls] at hlen
  · obtain ⟨hstore, hcalls⟩ :=
      run_serial_first_wins versionKey st now aid d ds a o so ha hs hd ho hso
    have hfind : findAssignmentById
        (saveOrder (saveAssignment st (acceptedBy a d now)) (assignCourier o a.shopOrderId d))
        aid = some (acceptedBy a d now) := by
      have h1 := findAssignmentById_saveAssignment st (acceptedBy a d now)
      have h2 : (acceptedBy a d now)._id = aid := hid
      rw [h2, ha] at h1
      exact h1
    refine ⟨?_, ?_, ?_⟩
    · unfold exactlyOneWins
      rw [hstore, hcalls, hfind]
      rw [List.filter_cons_of_pos (by simp [AcceptCall.succeeded, acceptedResponse]),
        rejected_not_succeeded]
      simp only [List.length_singleton, beq_self_eq_true, List.all_cons, rejected_all,
        Bool.and_true, Bool.true_and, List.any_cons]
      simp [AcceptCall.succeeded, acceptedResponse, acceptedBy]
    · rw [hcalls]
      simp only [List.map_cons, List.map_map]
      have hmap : ∀ (n : Nat) (l : List Id),
          List.map ((fun c : AcceptCall => c.response) ∘ fun c =>
              ({ c with pc := (AcceptPc.finished
                (failure 400 "Assignment is not in broadcasted state") []) } : AcceptCall))
            (startCalls n l)
          = l.map (fun _ => some (failure 400 "Assignment is not in broadcasted state")) := by
        intro n l
        induction l generalizing n with
        | nil => rfl
        | cons x xs ih =>
          simp only [startCalls, List.map_cons, ih]
          rfl
      rw [hmap]
      rfl
    · rw [hstore, hfind]
      rfl
  · intro ready s1 s2 i c hl hc hpc
    have hp0 := startWorld_pendingAssigned st now (d :: ds)
    have hp1 := (run_landed versionKey ready aid s1 _ hp0).1
    have hl2 : landed aid
        (run versionKey ready aid (s1 ++ s2) (startWorld st now (d :: ds))).store := by
      rw [run_append]
      exact (run_landed versionKey ready aid s2 _ hp1).2 hl
    refine ⟨hl2, ?_⟩
    obtain ⟨a2, ha2, hs2⟩ := hl2
    rw [stepAt_at versionKey ready aid _ i c hc]
    obtain ⟨d2, now2, pc2⟩ := c
    simp only at hpc
    subst hpc
    rw [acceptStep_start_not_broadcasted versionKey ready aid _ _ d2 now2 a2 ha2 hs2]

/-- C3 amended, at the sample store: couriers 5 and 6 both read before either
saves. With the version key exactly one of them succeeds; without it, when
they call one after the other, courier 5 wins and courier 6 is turned away. -/
theorem acceptOrder_interleaved_outcome_witness :
    (∀ c, c ∈ (run true true 1 [0, 1, 0, 1, 0, 0, 1, 1]
        (startWorld sampleStore 50 [5, 6])).calls → c.response ≠ none) ∧
    ((run true true 1 [0, 1, 0, 1, 0, 0, 1, 1]
        (startWorld sampleStore 50 [5, 6])).calls.filter AcceptCall.succeeded).length = 1 ∧
    (run false true 1 (serialSchedule 2) (startWorld sampleStore 50 [5, 6])).calls.map
        (fun c => c.response)
      = [some (acceptedResponse 1 10),
         some (failure 400 "Assignment is not in broadcasted state")] :=
  ⟨by decide,
   ((acceptOrder_interleaved_outcome true sampleStore 50 1 5 [6] sampleOffer sampleOrder
      sampleShopOrder100 (by decide) (by decide) (by decide) (by decide) (by decide)).1
      [0, 1, 0, 1, 0, 0, 1, 1] _ rfl (by decide)).2.2 rfl,
   (acceptOrder_interleaved_outcome false sampleStore 50 1 5 [6] sampleOffer sampleOrder
      sampleShopOrder100 (by decide) (by decide) (by decide) (by decide) (by decide)).2.1.2.1⟩

/-- C11: in orderDelivered, when the courier holds an Assignment in status
assigned (the one `findOne` returns), its order and the ShopOrder it names
exist, and the collaborator verifies the submitted code, then, whatever the
socket handle, the Assignment ends with status completed, the completion
timestamp set and no assigned courier; the order keeps the number of its
ShopOrders, the first ShopOrder with the Assignment's shopOrderId ends with
status delivered (and no courier) and is otherwise as before, every ShopOrder
with another sub-id is unchanged at its position and so keeps its status, and
when the sub-ids are pairwise distinct every ShopOrder with that sub-id is
delivered. With the socket handle initialised the call answers 200. -/
theorem orderDelivered_success_effect (st : Store) (ready : Bool) (now : Nat)
    (verify : OtpVerifier) (d : Id) (otp : String) (a : Assignment) (o : Order)
    (so : ShopOrder) (m : Option String)
    (ha : findCurrentAssignment st d = some a)
    (ho : findOrderById st a.order = some o)
    (hso : o.shopOrder.find? (fun s => s._id == a.shopOrderId) = some so)
    (hv : verify o.userId otp = VerifyAnswer.answered true m) :
    findAssignmentById (orderDelivered st ready now verify d otp).store a._id
      = some { a with
          status := AssignmentStatus.completed
          completedAt := some now
          assignedTo := none } ∧
    (∃ o1,
      findOrderById (orderDelivered st ready now verify d otp).store a.order = some o1 ∧
      o1.shopOrder.length = o.shopOrder.length ∧
      o1.shopOrder.find? (fun s => s._id == a.shopOrderId)
        = some { so with status := ShopOrderStatus.delivered, assignedDeliveryBoy := none } ∧
      (∀ (i : Nat) (s : ShopOrder), o.shopOrder[i]? = some s → s._id ≠ a.shopOrderId →
        o1.shopOrder[i]? = some s) ∧
      ((o.shopOrder.map (fun s => s._id)).Nodup →
        ∀ s : ShopOrder, s ∈ o1.shopOrder → s._id = a.shopOrderId →
          s.status = ShopOrderStatus.delivered)) ∧
    (ready = true → (orderDelivered st ready now verify d otp).response.status = 200) := by
  obtain ⟨hstore, hstatus, _⟩ :=
    orderDelivered_verified st ready now verify d otp a o so m ha ho hso hv
  have hoid : o._id = a.order := findOrderById_id ho
  obtain ⟨hmem, _, _⟩ := findCurrentAssignment_spec ha
  obtain ⟨x, hx⟩ := findAssignmentById_of_mem hmem
  refine ⟨?_, ⟨markDelivered o a.shopOrderId, ?_, ?_, ?_, ?_, ?_⟩, ?_⟩
  · rw [hstore]
    have h1 := findAssignmentById_saveAssignment st (markCompleted a now)
    have h2 : (markCompleted a now)._id = a._id := rfl
    rw [h2, hx] at h1
    exact h1
  · rw [hstore]
    have h1 := findOrderById_saveOrder (saveAssignment st (markCompleted a now))
      (markDelivered o a.shopOrderId)
    have h2 : (markDelivered o a.shopOrderId)._id = a.order := hoid
    have h3 : findOrderById (saveAssignment st (markCompleted a now)) a.order = some o := ho
    rw [h2, h3] at h1
    exact h1
  · exact updateFirst_length _ _ _
  · have h1 := updateFirst_find (fun s : ShopOrder => s._id == a.shopOrderId)
      (fun s => { s with status := ShopOrderStatus.delivered, assignedDeliveryBoy := none })
      (by simp) o.shopOrder
    rw [hso] at h1
    exact h1
  · intro i s hi hne
    exact updateFirst_getElem_other _ _ _ i s hi (by simpa using hne)
  · intro hn s hs hsid
    obtain ⟨y, _, _, hy⟩ := updateFirst_mem_nodup (fun s : ShopOrder => s._id) a.shopOrderId
      (fun s => { s with status := ShopOrderStatus.delivered, assignedDeliveryBoy := none })
      o.shopOrder hn s hs hsid
    rw [hy]
  · intro hr
    rw [hstatus, hr]
    rfl

/-- C11, at the sample store: courier 7 holds assignment 2 of shop order 101 and
submits the right code. -/
theorem orderDelivered_success_effect_witness :
    findAssignmentById (orderDelivered sampleStore true 60 verifyCode 7 "4321").store 2
      = some { sampleHeld with
          status := AssignmentStatus.completed
          completedAt := some 60
          assignedTo := none } ∧
    (orderDelivered sampleStore true 60 verifyCode 7 "4321").response.status = 200 :=
  ⟨(orderDelivered_success_effect sampleStore true 60 verifyCode 7 "4321" sampleHeld
      sampleOrder sampleShopOrder101 none (by decide) (by decide) (by decide) (by decide)).1,
   (orderDelivered_success_effect sampleStore true 60 verifyCode 7 "4321" sampleHeld
      sampleOrder sampleShopOrder101 none (by decide) (by decide) (by decide)
      (by decide)).2.2 rfl⟩

/-- C12: delivery confirmation happens once. When assignment ids are unique
and the Assignment completed by a successful orderDelivered was the courier's
only one in status assigned, a second orderDelivered call by that courier, with
the same or any other code and whatever the collaborator would answer, finds no
current assignment: it answers 404, emits nothing and returns the store as it
found it, so the Assignment stays completed with the completion timestamp of
the first call and the order with its ShopOrder statuses is untouched. -/
theorem orderDelivered_once (st : Store) (ready : Bool) (now : Nat) (verify : OtpVerifier)
    (d : Id) (otp : String) (a : Assignment)
    (ha : findCurrentAssignment st d = some a)
    (hnodup : (st.assignments.map (fun x => x._id)).Nodup)
    (honly : ∀ x, x ∈ st.assignments → x.assignedTo = some d →
      x.status = AssignmentStatus.assigned → x._id = a._id)
    (hok : (orderDelivered st ready now verify d otp).response.status = 200)
    (ready2 : Bool) (now2 : Nat) (verify2 : OtpVerifier) (otp2 : String) :
    orderDelivered (orderDelivered st ready now verify d otp).store ready2 now2 verify2 d otp2
      = ⟨failure 404 "No current assignment found",
         (orderDelivered st ready now verify d otp).store, []⟩ ∧
    findAssignmentById (orderDelivered st ready now verify d otp).store a._id
      = some { a with
          status := AssignmentStatus.completed
          completedAt := some now
          assignedTo := none } := by
  obtain ⟨a2, o, so, m, ha2, ho, hso, hv⟩ := orderDelivered_ok_inv st ready now verify d otp hok
  rw [ha] at ha2
  cases ha2
  obtain ⟨hstore, _, _⟩ :=
    orderDelivered_verified st ready now verify d otp a o so m ha ho hso hv
  obtain ⟨hmem, _, _⟩ := findCurrentAssignment_spec ha
  obtain ⟨x, hx⟩ := findAssignmentById_of_mem hmem
  have hnone : findCurrentAssignment (orderDelivered st ready now verify d otp).store d
      = none := by
    rw [hstore]
    unfold findCurrentAssignment
    rw [List.find?_eq_none]
    intro y hy hp
    simp only [Bool.and_eq_true, beq_iff_eq] at hp
    have hy2 : y ∈ updateFirst (fun z => z._id == (markCompleted a now)._id)
        (fun _ => markCompleted a now) st.assignments := hy
    by_cases hid : y._id = a._id
    · obtain ⟨z, _, _, hz⟩ := updateFirst_mem_nodup (fun z : Assignment => z._id) a._id
        (fun _ => markCompleted a now) st.assignments hnodup y hy2 hid
      rw [hz] at hp
      simp [markCompleted] at hp
    · rcases updateFirst_mem_or _ _ _ y hy2 with h | ⟨z, _, _, hz⟩
      · exact hid (honly y h hp.1 hp.2)
      · rw [hz] at hid
        exact hid rfl
  refine ⟨?_, ?_⟩
  · exact orderDelivered_none _ ready2 now2 verify2 d otp2 hnone
  · rw [hstore]
    have h1 := findAssignmentById_saveAssignment st (markCompleted a now)
    have h2 : (markCompleted a now)._id = a._id := rfl
    rw [h2, hx] at h1
    exact h1

/-- C12, at the sample store: courier 7 confirms assignment 2 and submits the
same code again. -/
theorem orderDelivered_once_witness :
    (orderDelivered sampleStore true 60 verifyCode 7 "4321").response.status = 200 ∧
    orderDelivered (orderDelivered sampleStore true 60 verifyCode 7 "4321").store true 61
        verifyCode 7 "4321"
      = ⟨failure 404 "No current assignment found",
         (orderDelivered sampleStore true 60 verifyCode 7 "4321").store, []⟩ :=
  ⟨by decide,
   (orderDelivered_once sampleStore true 60 verifyCode 7 "4321" sampleHeld (by decide)
      (by decide) (by decide) (by decide) true 61 verifyCode "4321").1⟩

/-- C13: getOwnerOrders answers 200, emits nothing and leaves the store, and so
every stored total amount, as it was. Every listed order is the view of a
stored order that has a ShopOrder of that owner, and every such stored order is
listed; in a view the ShopOrders are exactly that owner's entries of the stored
order, in order, and the displayed total is the sum s of their subtotals, plus
50 if s < 500 and plus nothing otherwise. The sum, the comparison and the
addition of the fee are those of the program's numbers: s adds the subtotals
from left to right, starting at 0. When the subtotals are whole numbers that
add up to less than 2 ^ 53, s is their exact sum, and the displayed total is
that sum plus 50 below 500 and the sum itself from 500 on: 480 gives 530 and
500 gives 500, also through the handler at the sample order 12, whose stored
total stays 980; subtotals 120.5 and 99.75 give 270.25. -/
theorem getOwnerOrders_view (st : Store) (createdAt : Id → Nat) (ownerId : Id) :
    (getOwnerOrders st createdAt ownerId).store = st ∧
    (getOwnerOrders st createdAt ownerId).emits = [] ∧
    (getOwnerOrders st createdAt ownerId).response.status = 200 ∧
    (∃ views, (getOwnerOrders st createdAt ownerId).response.data = some views ∧
      (∀ v, v ∈ views → ∃ o, o ∈ st.orders ∧ v._id = o._id ∧
        v.shopOrder = o.shopOrder.filter (fun so => so.owner == some ownerId) ∧
        (∀ so, so ∈ v.shopOrder ↔ (so ∈ o.shopOrder ∧ so.owner = some ownerId)) ∧
        v.totalAmount
          = (if ((v.shopOrder.map (fun so => so.subtotal)).foldl Number.add 0).lt 500 = true
              then ((v.shopOrder.map (fun so => so.subtotal)).foldl Number.add 0).add 50
              else (v.shopOrder.map (fun so => so.subtotal)).foldl Number.add 0) ∧
        (∀ ns : List Nat,
          v.shopOrder.map (fun so => so.subtotal) = ns.map (fun (n : Nat) => Number.fin (n : ℚ)) →
          ns.sum < 2 ^ 53 →
          v.totalAmount
            = Number.fin ((if ns.sum < 500 then ns.sum + 50 else ns.sum : Nat) : ℚ))) ∧
      (∀ o, o ∈ st.orders → (∃ so, so ∈ o.shopOrder ∧ so.owner = some ownerId) →
        ownerView ownerId o ∈ views)) ∧
    displayedTotal 480 = 530 ∧ displayedTotal 500 = 500 ∧
    (getOwnerOrders sampleStore3 (fun _ => 0) 43).response.data.map
        (fun views => views.map (fun v => (v._id, v.totalAmount))) = some [(12, 530)] ∧
    (getOwnerOrders sampleStore3 (fun _ => 0) 44).response.data.map
        (fun views => views.map (fun v => (v._id, v.totalAmount))) = some [(12, 500)] ∧
    findOrderById (getOwnerOrders sampleStore3 (fun _ => 0) 43).store 12 = some sampleOrder3 ∧
    (getOwnerOrders sampleStore6 (fun _ => 0) 47).response.data.map
        (fun views => views.map (fun v => (v._id, v.totalAmount)))
      = some [(16, roundQuot 27025 100)] := by
  refine ⟨rfl, rfl, rfl, ⟨_, rfl, ?_, ?_⟩, by decide, by decide, by decide, by decide,
    by decide, by decide⟩
  · intro v hv
    rw [List.mem_map] at hv
    obtain ⟨o, ho, rfl⟩ := hv
    refine ⟨o, ((mem_findOwnerOrders st createdAt ownerId o).1 ho).1, rfl, rfl, ?_, ?_, ?_⟩
    · intro so
      simp [ownerView, List.mem_filter]
    · rw [ownerView_total]
      rfl
    · intro ns hns hsum
      have h0 : (0 : Number) = Number.fin ((0 : Nat) : ℚ) := by decide
      rw [ownerView_total, hns, h0, foldl_add_nat ns 0 (by omega), Nat.zero_add,
        displayedTotal_nat ns.sum hsum]
  · intro o ho hso
    exact List.mem_map.2 ⟨o, (mem_findOwnerOrders st createdAt ownerId o).2 ⟨ho, hso⟩, rfl⟩

/-- C15: rateOrder changes the rating only of eligible items. For every request
on a found order: an item whose ShopOrder is not delivered, or that already
carries a rating, is stored after the call exactly as it was (rating and rating
timestamp included) and is no entry of the rateable list; the returned rated
items are the ids of a sublist of the rateable list, so such an item is never
among them and a rating once set is never overwritten. When no item of the
order is eligible, the call fails, rates nothing, posts nothing to the catalog,
emits nothing and returns the store as it found it; the failure is 400 when
the rating is in range and the caller owns the order. -/
theorem rateOrder_only_eligible (st : Store) (ready : Bool) (now : Nat)
    (catalog : ItemCatalog) (userId : Option Id) (orderId : Id) (parsedRating : Option ℚ)
    (order : Order) (ho : findOrderById st orderId = some order) :
    (∀ (i j : Nat) (so : ShopOrder) (it : OrderItem),
      order.shopOrder[i]? = some so → so.shopOrderItems[j]? = some it →
      (so.status ≠ ShopOrderStatus.delivered ∨ it.userRating ≠ none) →
      (∃ o1 so1,
        findOrderById (rateOrder st ready now catalog userId orderId parsedRating).outcome.store
          orderId = some o1 ∧
        o1.shopOrder[i]? = some so1 ∧ so1.shopOrderItems[j]? = some it) ∧
      ∀ id, (i, j, id) ∉ rateableItems order) ∧
    (∀ data,
      (rateOrder st ready now catalog userId orderId parsedRating).outcome.response.data
        = some data →
      ∃ rated : List (Nat × Nat × Id), rated.Sublist (rateableItems order) ∧
        data.ratedItems = rated.map (fun e => (e.2.2, data.rating))) ∧
    ((∀ (i j : Nat) (so : ShopOrder) (it : OrderItem),
        order.shopOrder[i]? = some so → so.shopOrderItems[j]? = some it →
        (so.status ≠ ShopOrderStatus.delivered ∨ it.userRating ≠ none ∨ it.item = none)) →
      (rateOrder st ready now catalog userId orderId parsedRating).outcome.store = st ∧
      (rateOrder st ready now catalog userId orderId parsedRating).outcome.response.success
        = false ∧
      (rateOrder st ready now catalog userId orderId parsedRating).outcome.emits = [] ∧
      (rateOrder st ready now catalog userId orderId parsedRating).catalogCalls = [] ∧
      (∀ r, parsedRating = some r → 1 ≤ r → r ≤ 5 → order.userId = userId →
        (rateOrder st ready now catalog userId orderId parsedRating).outcome.response.status
          = 400)) := by
  have hcases := rateOrder_store_cases st ready now catalog userId orderId parsedRating order ho
  refine ⟨?_, ?_, ?_⟩
  · intro i j so it hso hit hinel
    have hnot : ∀ id, (i, j, id) ∉ rateableItems order := by
      intro id hmem
      obtain ⟨so2, it2, hso2, hst, hit2, _, hrt⟩ := (mem_rateableItems order i j id).1 hmem
      rw [hso] at hso2
      cases hso2
      rw [hit] at hit2
      cases hit2
      rcases hinel with h | h
      · exact h hst
      · exact h hrt
    refine ⟨?_, hnot⟩
    rcases hcases with ⟨hstore, _⟩ | ⟨r, rfl, h1, h5, hu, hne⟩
    · rw [hstore]
      exact ⟨order, so, ho, hso, hit⟩
    · obtain ⟨o1, so1, hf, hs1, _, _, hitem⟩ := rateOrder_stored_item st ready now catalog
        userId orderId r order h1 h5 ho hu hne i j so it hso hit
      rw [rated_any_of_not_rateable catalog r order i j hnot] at hitem
      exact ⟨o1, so1, hf, hs1, hitem⟩
  · intro data hdata
    rcases hcases with ⟨_, _, hnone, _⟩ | ⟨r, rfl, h1, h5, hu, hne⟩
    · rw [hnone] at hdata
      cases hdata
    · obtain ⟨_, _, hresp⟩ :=
        rateOrder_rated st ready now catalog userId orderId r order h1 h5 ho hu hne
      rw [hresp] at hdata
      cases ready with
      | false => simp [internalError, failure] at hdata
      | true =>
        simp only [if_true, Option.some.injEq] at hdata
        subst hdata
        exact ⟨_, List.filter_sublist _, rfl⟩
  · intro hnone
    have hnil : rateableItems order = [] := by
      rw [List.eq_nil_iff_forall_not_mem]
      rintro ⟨i, j, id⟩ hmem
      obtain ⟨so, it, hso, hst, hit, hid, hrt⟩ := (mem_rateableItems order i j id).1 hmem
      rcases hnone i j so it hso hit with h | h | h
      · exact h hst
      · exact h hrt
      · rw [hid] at h
        cases h
    rcases hcases with ⟨hstore, hsucc, _, hem, hcalls⟩ | ⟨r, _, _, _, _, hne⟩
    · refine ⟨hstore, hsucc, hem, hcalls, ?_⟩
      intro r hr h1 h5 hu
      subst hr
      have hrange : ¬ (r < 1 ∨ r > 5) := by
        rintro (h | h)
        · exact absurd h (not_lt.2 h1)
        · exact absurd h (not_lt.2 h5)
      unfold rateOrder
      simp only [ho]
      rw [if_neg hrange, if_neg (by simp [hu])]
      by_cases hso : order.shopOrder.length = 0
      · rw [if_pos hso]
        rfl
      · rw [if_neg hso, if_pos (by simp [hnil])]
        rfl
    · exact absurd hnil hne

/-- C15, at the sample store: the already rated Vada of order 13 is stored
unchanged by a rating of 3, and order 11, whose only shop order is still being
prepared, cannot be rated. -/
theorem rateOrder_only_eligible_witness :
    (∃ o1 so1,
      findOrderById (rateOrder sampleStore4 true 70 catalogUp (some 33) 13 (some 3)).outcome.store
        13 = some o1 ∧
      o1.shopOrder[0]? = some so1 ∧ so1.shopOrderItems[1]? = some sampleItemVada) ∧
    (rateOrder sampleStore4 true 70 catalogUp (some 31) 11 (some 3)).outcome.response.status
      = 400 :=
  ⟨((rateOrder_only_eligible sampleStore4 true 70 catalogUp (some 33) 13 (some 3) sampleOrder4
      (by decide)).1 0 1 sampleShopOrder130 sampleItemVada (by decide) (by decide)
      (Or.inr (by decide))).1,
   ((rateOrder_only_eligible sampleStore4 true 70 catalogUp (some 31) 11 (some 3) sampleOrder2
      (by decide)).2.2 (by
        intro i j so it hso hit
        left
        cases i with
        | zero =>
          simp only [sampleOrder2, List.getElem?_cons_zero, Option.some.injEq] at hso
          subst hso
          decide
        | succ n => simp [sampleOrder2] at hso)).2.2.2.2 3 rfl (by norm_num) (by norm_num)
      (by decide)⟩

/-- C16, refuted as stated: user 33 rates order 13 with 3, in range; the order
has an eligible item (the unrated Idli of the delivered shop order 130), but
the item-catalog POST for it fails. The call answers 200 with no rated item,
and the item is stored without rating. -/
theorem rateOrder_rating_not_set_counterexample :
    (rateOrder sampleStore4 true 70 catalogDown (some 33) 13 (some 3)).outcome.response.status
      = 200 ∧
    (rateOrder sampleStore4 true 70 catalogDown (some 33) 13
        (some 3)).outcome.response.data.map (fun data => data.ratedItems) = some [] ∧
    (rateOrder sampleStore4 true 70 catalogDown (some 33) 13 (some 3)).catalogCalls
      = [(901, 3)] ∧
    ((findOrderById (rateOrder sampleStore4 true 70 catalogDown (some 33) 13
        (some 3)).outcome.store 13).bind (fun o => o.shopOrder[0]?)).bind
      (fun so => so.shopOrderItems[0]?) = some sampleItemIdli ∧
    sampleItemIdli.userRating = none := by
  decide

/-- C16, amended: a request whose parsed rating is not finite, below 1 or above
5 is answered 400 before any order is read, whatever the order id: the store is
returned as found, nothing is posted to the catalog and nothing is emitted. For
a rating in 1..5 on an order of the caller with an unrated item of a delivered
ShopOrder, the call answers 200 when the socket handle is initialised, and the
item is stored with the submitted rating and the rating timestamp when its
item-catalog POST succeeds, and stored as it was when that POST fails. -/
theorem rateOrder_rating_range (st : Store) (ready : Bool) (now : Nat)
    (catalog : ItemCatalog) (userId : Option Id) (orderId : Id) :
    (∀ parsedRating : Option ℚ,
      (parsedRating = none ∨ ∃ r, parsedRating = some r ∧ (r < 1 ∨ 5 < r)) →
      rateOrder st ready now catalog userId orderId parsedRating
        = ⟨⟨failure 400 "Rating must be a number between 1 and 5", st, []⟩, []⟩) ∧
    (∀ (r : ℚ) (order : Order) (i j : Nat) (so : ShopOrder) (it : OrderItem) (id : Id),
      1 ≤ r → r ≤ 5 → findOrderById st orderId = some order → order.userId = userId →
      order.shopOrder[i]? = some so → so.status = ShopOrderStatus.delivered →
      so.shopOrderItems[j]? = some it → it.item = some id → it.userRating = none →
      (ready = true →
        (rateOrder st ready now catalog userId orderId (some r)).outcome.response.status
          = 200) ∧
      ∃ o1 so1 it1,
        findOrderById (rateOrder st ready now catalog userId orderId (some r)).outcome.store
          orderId = some o1 ∧
        o1.shopOrder[i]? = some so1 ∧ so1.shopOrderItems[j]? = some it1 ∧
        (catalog i j id r = true →
          it1 = { it with userRating := some r, ratedAt := some now }) ∧
        (catalog i j id r = false → it1 = it)) := by
  constructor
  · rintro parsedRating (rfl | ⟨r, rfl, hr⟩)
    · rfl
    · unfold rateOrder
      simp only
      rw [if_pos hr]
  · intro r order i j so it id h1 h5 ho hu hso hst hit hid hrt
    have hmem : (i, j, id) ∈ rateableItems order :=
      (mem_rateableItems order i j id).2 ⟨so, it, hso, hst, hit, hid, hrt⟩
    have hne : rateableItems order ≠ [] := List.ne_nil_of_mem hmem
    obtain ⟨_, _, hresp⟩ :=
      rateOrder_rated st ready now catalog userId orderId r order h1 h5 ho hu hne
    obtain ⟨o1, so1, hf, hs1, _, _, hitem⟩ := rateOrder_stored_item st ready now catalog
      userId orderId r order h1 h5 ho hu hne i j so it hso hit
    rw [rated_any_iff catalog r order i j id hmem] at hitem
    refine ⟨?_, o1, so1, _, hf, hs1, hitem, ?_, ?_⟩
    · intro hr
      rw [hresp, hr]
      rfl
    · intro hc
      rw [hc]
      rfl
    · intro hc
      rw [hc]
      rfl

/-- C16 amended, at the sample store: 6 and 0 are rejected, and 3 is stored on
the unrated Idli of order 13 when the catalog is up. -/
theorem rateOrder_rating_range_witness :
    rateOrder sampleStore4 true 70 catalogUp (some 33) 13 (some 6)
      = ⟨⟨failure 400 "Rating must be a number between 1 and 5", sampleStore4, []⟩, []⟩ ∧
    rateOrder sampleStore4 true 70 catalogUp (some 33) 13 (some 0)
      = ⟨⟨failure 400 "Rating must be a number between 1 and 5", sampleStore4, []⟩, []⟩ ∧
    (rateOrder sampleStore4 true 70 catalogUp (some 33) 13 (some 3)).outcome.response.status
      = 200 ∧
    ∃ o1 so1 it1,
      findOrderById (rateOrder sampleStore4 true 70 catalogUp (some 33) 13
        (some 3)).outcome.store 13 = some o1 ∧
      o1.shopOrder[0]? = some so1 ∧ so1.shopOrderItems[0]? = some it1 ∧
      (catalogUp 0 0 901 3 = true →
        it1 = { sampleItemIdli with userRating := some 3, ratedAt := some 70 }) ∧
      (catalogUp 0 0 901 3 = false → it1 = sampleItemIdli) :=
  ⟨(rateOrder_rating_range sampleStore4 true 70 catalogUp (some 33) 13).1 (some 6)
      (Or.inr ⟨6, rfl, Or.inr (by norm_num)⟩),
   (rateOrder_rating_range sampleStore4 true 70 catalogUp (some 33) 13).1 (some 0)
      (Or.inr ⟨0, rfl, Or.inl (by norm_num)⟩),
   ((rateOrder_rating_range sampleStore4 true 70 catalogUp (some 33) 13).2 3 sampleOrder4 0 0
      sampleShopOrder130 sampleItemIdli 901 (by norm_num) (by norm_num) (by decide) (by decide)
      (by decide) (by decide) (by decide) (by decide) (by decide)).1 rfl,
   ((rateOrder_rating_range sampleStore4 true 70 catalogUp (some 33) 13).2 3 sampleOrder4 0 0
      sampleShopOrder130 sampleItemIdli 901 (by norm_num) (by norm_num) (by decide) (by decide)
      (by decide) (by decide) (by decide) (by decide) (by decide)).2⟩

/-- C17: rateOrder follows a partial-success policy. For a rating in 1..5 on an
order of the caller with at least one eligible item, the socket handle being
initialised: the call answers 200 whatever the catalog answers; every eligible
item is posted to the catalog, in eligibility order; the returned rated items
are exactly the eligible items whose POST succeeded, in eligibility order; and
an eligible item is stored with the submitted rating and the rating timestamp
if its POST succeeded and stored unrated, as it was, if its POST failed. -/
theorem rateOrder_partial_success (st : Store) (now : Nat) (catalog : ItemCatalog)
    (userId : Option Id) (orderId : Id) (r : ℚ) (order : Order)
    (h1 : 1 ≤ r) (h5 : r ≤ 5) (ho : findOrderById st orderId = some order)
    (hu : order.userId = userId) (hne : rateableItems order ≠ []) :
    (rateOrder st true now catalog userId orderId (some r)).outcome.response.status = 200 ∧
    (rateOrder st true now catalog userId orderId (some r)).catalogCalls
      = (rateableItems order).map (fun e => (e.2.2, r)) ∧
    (rateOrder st true now catalog userId orderId (some r)).outcome.response.data
      = some { rating := r
               ratedItems := ((rateableItems order).filter
                 (fun e => catalog e.1 e.2.1 e.2.2 r)).map (fun e => (e.2.2, r)) } ∧
    (∀ (i j : Nat) (id : Id), (i, j, id) ∈ rateableItems order →
      ∃ so it o1 so1 it1,
        order.shopOrder[i]? = some so ∧ so.shopOrderItems[j]? = some it ∧
        it.userRating = none ∧
        findOrderById (rateOrder st true now catalog userId orderId (some r)).outcome.store
          orderId = some o1 ∧
        o1.shopOrder[i]? = some so1 ∧ so1.shopOrderItems[j]? = some it1 ∧
        (it1.userRating = some r ↔ catalog i j id r = true) ∧
        (catalog i j id r = true →
          it1 = { it with userRating := some r, ratedAt := some now }) ∧
        (catalog i j id r = false → it1 = it)) := by
  obtain ⟨_, hcalls, hresp⟩ :=
    rateOrder_rated st true now catalog userId orderId r order h1 h5 ho hu hne
  refine ⟨?_, hcalls, ?_, ?_⟩
  · rw [hresp]
    rfl
  · rw [hresp]
    rfl
  · intro i j id hmem
    obtain ⟨so, it, hso, _, hit, _, hrt⟩ := (mem_rateableItems order i j id).1 hmem
    obtain ⟨o1, so1, hf, hs1, _, _, hitem⟩ := rateOrder_stored_item st true now catalog
      userId orderId r order h1 h5 ho hu hne i j so it hso hit
    rw [rated_any_iff catalog r order i j id hmem] at hitem
    refine ⟨so, it, o1, so1, _, hso, hit, hrt, hf, hs1, hitem, ?_, ?_, ?_⟩
    · cases hc : catalog i j id r with
      | true => simp
      | false => simp [hrt]
    · intro hc
      rw [hc]
      rfl
    · intro hc
      rw [hc]
      rfl

/-- C17, at the sample store: order 14 has two eligible items; the POST for the
first fails and the POST for the second succeeds. -/
theorem rateOrder_partial_success_witness :
    (rateOrder sampleStore5 true 70 catalogFirstDown (some 33) 14
        (some 5)).outcome.response.status = 200 ∧
    (rateOrder sampleStore5 true 70 catalogFirstDown (some 33) 14 (some 5)).catalogCalls
      = (rateableItems sampleOrder5).map (fun e => (e.2.2, (5 : ℚ))) ∧
    (rateOrder sampleStore5 true 70 catalogFirstDown (some 33) 14
        (some 5)).outcome.response.data
      = some { rating := 5
               ratedItems := ((rateableItems sampleOrder5).filter
                 (fun e => catalogFirstDown e.1 e.2.1 e.2.2 5)).map (fun e => (e.2.2, 5)) } ∧
    rateableItems sampleOrder5 = [(0, 0, 901), (0, 1, 904)] ∧
    ((rateableItems sampleOrder5).filter
      (fun e => catalogFirstDown e.1 e.2.1 e.2.2 5)).map (fun e => (e.2.2, (5 : ℚ)))
      = [(904, 5)] :=
  ⟨(rateOrder_partial_success sampleStore5 70 catalogFirstDown (some 33) 14 5 sampleOrder5
      (by norm_num) (by norm_num) (by decide) (by decide) (by decide)).1,
   (rateOrder_partial_success sampleStore5 70 catalogFirstDown (some 33) 14 5 sampleOrder5
      (by norm_num) (by norm_num) (by decide) (by decide) (by decide)).2.1,
   (rateOrder_partial_success sampleStore5 70 catalogFirstDown (some 33) 14 5 sampleOrder5
      (by norm_num) (by norm_num) (by decide) (by decide) (by decide)).2.2.1,
   by decide, by decide⟩

/-- C14, refuted as stated: a cart of one item of price 100 and quantity 1 is
sent with totalAmount 150. The order is created with one ShopOrder of subtotal
100 and is stored with total amount 150, which is not the sum of its
subtotals, 100. -/
theorem placeOrder_total_counterexample :
    (placeOrder sampleStore true shopsKnown none sampleHmac 15 sampleSubId 33
        sampleRequest).response.status = 201 ∧
    (placeOrder sampleStore true shopsKnown none sampleHmac 15 sampleSubId 33
        sampleRequest).response.data.map
      (fun p => (p.order.totalAmount, p.order.shopOrder.map (fun so => so.subtotal)))
      = some (150, [100]) ∧
    (findOrderById (placeOrder sampleStore true shopsKnown none sampleHmac 15 sampleSubId 33
        sampleRequest).store 15).map
      (fun o => (o.totalAmount, (o.shopOrder.map (fun so => so.subtotal)).foldl Number.add 0))
      = some (150, 100) ∧
    (150 : Number) ≠ 100 := by
  decide

/-- C14, amended: placeOrder does not compute the total. For every order it
creates, the stored total amount is the `totalAmount` of the request; the
order is appended to the collection; there is one ShopOrder per distinct shop
id of the cart, and each subtotal is the sum of price times quantity over that
shop's cart items, multiplied and added from left to right in the program's
numbers, starting at 0; a cart of two items from two different shops gives two
ShopOrders. When every price and quantity of the cart is a whole number and
the exact amounts of the cart add up to less than 2 ^ 53, each subtotal is the
exact sum over its shop's items, the subtotals add up to the exact sum over the
cart, and the stored total equals the sum of the subtotals exactly when the
request's `totalAmount` is that sum. -/
theorem placeOrder_totals (st : Store) (ready : Bool) (shops : ShopLookup)
    (secret : Option String) (hmac : String → String → String) (newId : Id)
    (subId : Nat → Id) (userId : Id) (req : PlaceRequest) (p : PlacedOrder)
    (h : (placeOrder st ready shops secret hmac newId subId userId req).response.data
      = some p) :
    ∃ (cart : List CartItem) (groups : List (Id × List CartItem)),
      req.cartItems = some cart ∧
      p.order.totalAmount = req.totalAmount ∧
      (placeOrder st ready shops secret hmac newId subId userId req).store.orders
        = st.orders ++ [p.order] ∧
      (groups.map Prod.fst).Nodup ∧
      (∀ k, k ∈ groups.map Prod.fst ↔ ∃ it, it ∈ cart ∧ it.shop = some k) ∧
      List.Forall₂ (fun g so =>
          g.2 = cart.filter (fun it => it.shop == some g.1) ∧
          so.subtotal = g.2.foldl (fun acc it => acc.add (it.price.mul it.quantity)) 0)
        groups p.order.shopOrder ∧
      (∀ a b : CartItem, cart = [a, b] → a.shop ≠ b.shop → p.order.shopOrder.length = 2) ∧
      ((∀ it, it ∈ cart →
          ∃ a b : Nat, it.price = Number.fin a ∧ it.quantity = Number.fin b) →
        (cart.map lineAmount).sum < 2 ^ 53 →
        List.Forall₂ (fun g so => so.subtotal = Number.fin ((g.2.map lineAmount).sum))
          groups p.order.shopOrder ∧
        (p.order.shopOrder.map (fun so => so.subtotal.toRat)).sum = (cart.map lineAmount).sum ∧
        (p.order.totalAmount
            = Number.fin ((p.order.shopOrder.map (fun so => so.subtotal.toRat)).sum)
          ↔ req.totalAmount = Number.fin ((cart.map lineAmount).sum))) := by
  obtain ⟨cart, address, groups, shopOrder, hc, _, _, hg, hb, hp, hstore, _⟩ :=
    placeOrder_created_inv st ready shops secret hmac newId subId userId req p h
  have hgrouped := groupItemsByShop_grouped cart [] [] groups hg grouped_nil
  simp only [List.nil_append] at hgrouped
  obtain ⟨hn, hfilter, hkeys, hsum⟩ := hgrouped
  have hall := buildShopOrders_subtotals shops subId 0 groups shopOrder hb
  have hso : p.order.shopOrder = shopOrder := by rw [hp]
  have htot : p.order.totalAmount = req.totalAmount := by rw [hp]
  have hboth : List.Forall₂ (fun g so =>
      g.2 = cart.filter (fun it => it.shop == some g.1) ∧ so.subtotal = subTotal g.2)
      groups shopOrder := by
    have := forall₂_and_left _ (fun g : Id × List CartItem =>
      g.2 = cart.filter (fun it => it.shop == some g.1)) groups shopOrder hall hfilter
    exact this.imp (fun _ _ hab => ⟨hab.1, hab.2.1⟩)
  refine ⟨cart, groups, hc, htot, hstore, hn, hkeys, ?_, ?_, ?_⟩
  · rw [hso]
    exact hboth
  · intro a b hcart hne
    subst hcart
    rw [hso, ← hall.length_eq]
    cases ha : a.shop with
    | none => simp [groupItemsByShop, ha] at hg
    | some ka =>
      cases hb2 : b.shop with
      | none => simp [groupItemsByShop, ha, hb2, pushGroup] at hg
      | some kb =>
        have hk : ¬ ka = kb := by
          intro h
          apply hne
          rw [ha, hb2, h]
        simp only [groupItemsByShop, ha, hb2, pushGroup, hk, if_false,
          Option.some.injEq] at hg
        rw [← hg]
        rfl
  · intro hwhole hsmall
    obtain ⟨hexact, hrat⟩ := forall₂_subtotal_whole cart groups shopOrder hwhole hsmall hboth
    rw [hso, htot, hrat, hsum]
    exact ⟨hexact, rfl, Iff.rfl⟩

/-- C14 amended, at the sample store: two items from two different shops give
two ShopOrders with subtotals 200 and 150, and the total sent, 350, is stored. -/
theorem placeOrder_totals_witness :
    (placeOrder sampleStore true shopsKnown none sampleHmac 15 sampleSubId 33
        sampleRequest2).response.data = some samplePlaced2 ∧
    (samplePlaced2.order.totalAmount,
        samplePlaced2.order.shopOrder.map (fun so => (so.shop, so.subtotal)))
      = (350, [(20, 200), (21, 150)]) ∧
    ∃ (cart : List CartItem) (groups : List (Id × List CartItem)),
      sampleRequest2.cartItems = some cart ∧
      samplePlaced2.order.totalAmount = sampleRequest2.totalAmount ∧
      (placeOrder sampleStore true shopsKnown none sampleHmac 15 sampleSubId 33
          sampleRequest2).store.orders
        = sampleStore.orders ++ [samplePlaced2.order] ∧
      (groups.map Prod.fst).Nodup ∧
      (∀ k, k ∈ groups.map Prod.fst ↔ ∃ it, it ∈ cart ∧ it.shop = some k) ∧
      List.Forall₂ (fun g so =>
          g.2 = cart.filter (fun it => it.shop == some g.1) ∧
          so.subtotal = g.2.foldl (fun acc it => acc.add (it.price.mul it.quantity)) 0)
        groups samplePlaced2.order.shopOrder ∧
      (∀ a b : CartItem, cart = [a, b] → a.shop ≠ b.shop →
        samplePlaced2.order.shopOrder.length = 2) ∧
      ((∀ it, it ∈ cart →
          ∃ a b : Nat, it.price = Number.fin a ∧ it.quantity = Number.fin b) →
        (cart.map lineAmount).sum < 2 ^ 53 →
        List.Forall₂ (fun g so => so.subtotal = Number.fin ((g.2.map lineAmount).sum))
          groups samplePlaced2.order.shopOrder ∧
        (samplePlaced2.order.shopOrder.map (fun so => so.subtotal.toRat)).sum
          = (cart.map lineAmount).sum ∧
        (samplePlaced2.order.totalAmount
            = Number.fin ((samplePlaced2.order.shopOrder.map (fun so => so.subtotal.toRat)).sum)
          ↔ sampleRequest2.totalAmount = Number.fin ((cart.map lineAmount).sum))) :=
  ⟨by decide, by decide,
   placeOrder_totals sampleStore true shopsKnown none sampleHmac 15 sampleSubId 33
     sampleRequest2 samplePlaced2 (by decide)⟩

/-- C18, refuted as stated, where the socket handle is not initialised:
acceptOrder, updateOrderStatus, orderDelivered and placeOrder are each called
with their preconditions met. Each call persists exactly what it persists when
the handle is there, and then answers 500 instead of its success envelope,
because `getIO` throws into the handler's `catch`. With the handle initialised
the same calls answer 200, 200, 200 and 201. -/
theorem fanout_uninitialised_counterexample :
    ((acceptOrder sampleStore false 50 5 (some 1)).response.status = 500 ∧
      (acceptOrder sampleStore true 50 5 (some 1)).response.status = 200 ∧
      (acceptOrder sampleStore false 50 5 (some 1)).store
        = (acceptOrder sampleStore true 50 5 (some 1)).store ∧
      (findAssignmentById (acceptOrder sampleStore false 50 5 (some 1)).store 1).map
        (fun a => (a.status, a.assignedTo)) = some (AssignmentStatus.assigned, some 5)) ∧
    ((updateOrderStatus sampleStore2 false 3 nearbyClose (some 11) (some 110)
        (some ShopOrderStatus.outForDelivery)).outcome.response.status = 500 ∧
      (updateOrderStatus sampleStore2 true 3 nearbyClose (some 11) (some 110)
        (some ShopOrderStatus.outForDelivery)).outcome.response.status = 200 ∧
      (updateOrderStatus sampleStore2 false 3 nearbyClose (some 11) (some 110)
        (some ShopOrderStatus.outForDelivery)).outcome.store
        = (updateOrderStatus sampleStore2 true 3 nearbyClose (some 11) (some 110)
            (some ShopOrderStatus.outForDelivery)).outcome.store ∧
      (updateOrderStatus sampleStore2 false 3 nearbyClose (some 11) (some 110)
        (some ShopOrderStatus.outForDelivery)).created
        = some (createAssignment 3 11 22 110 [8])) ∧
    ((orderDelivered sampleStore false 60 verifyCode 7 "4321").response.status = 500 ∧
      (orderDelivered sampleStore true 60 verifyCode 7 "4321").response.status = 200 ∧
      (orderDelivered sampleStore false 60 verifyCode 7 "4321").store
        = (orderDelivered sampleStore true 60 verifyCode 7 "4321").store ∧
      (findAssignmentById (orderDelivered sampleStore false 60 verifyCode 7 "4321").store
        2).map (fun a => a.status) = some AssignmentStatus.completed) ∧
    ((placeOrder sampleStore false shopsKnown none sampleHmac 15 sampleSubId 33
        sampleRequest2).response.status = 500 ∧
      (placeOrder sampleStore true shopsKnown none sampleHmac 15 sampleSubId 33
        sampleRequest2).response.status = 201 ∧
      (placeOrder sampleStore false shopsKnown none sampleHmac 15 sampleSubId 33
        sampleRequest2).store
        = (placeOrder sampleStore true shopsKnown none sampleHmac 15 sampleSubId 33
            sampleRequest2).store ∧
      (findOrderById (placeOrder sampleStore false shopsKnown none sampleHmac 15 sampleSubId 33
        sampleRequest2).store 15).map (fun o => o.totalAmount) = some 350) := by
  decide

/-- C18, amended: the fanout cannot fail the state transition while the socket
handle is initialised, and it is for every request the server handles.
`index.js` runs `initializeSocket` before it mounts the routes and before it
listens, so no state of the start-up in which a request reaches a handler has
the handle missing, and the running server hands every request to its handler
with the handle initialised. For every acceptOrder, updateOrderStatus,
orderDelivered and placeOrder call whose preconditions hold, the state change
is persisted whatever the state of the handle, and the call answers with its
success envelope (200, 200, 200, 201, `success` true) when the handle is
initialised. The
handlers do not tolerate a missing handle: `getIO` throws, and the call then
answers 500 after the same state change. -/
theorem fanout_needs_socket_handle :
    (startServer ∈ bootStates ∧
      (∀ (s : Server) (st : Store) (r : Request),
        s ∈ bootStates → serve s st r ≠ none → s.io = true) ∧
      (∀ (st : Store) (r : Request), serve startServer st r = some (dispatch true st r))) ∧
    (∀ (st : Store) (ready : Bool) (now : Nat) (d aid : Id) (a : Assignment) (o : Order)
        (so : ShopOrder),
      findAssignmentById st aid = some a → a.status = AssignmentStatus.broadcasted →
      d ∈ a.broadcastedTo → findOrderById st a.order = some o →
      o.shopOrder.find? (fun s => s._id == a.shopOrderId) = some so →
      (acceptOrder st ready now d (some aid)).store
        = saveOrder (saveAssignment st (acceptedBy a d now))
            (assignCourier o a.shopOrderId d) ∧
      (acceptOrder st ready now d (some aid)).response
        = (if ready then acceptedResponse aid a.order else internalError)) ∧
    (∀ (st : Store) (ready : Bool) (newId : Id) (nearby : NearbyCouriers) (oid sid : Id)
        (status : ShopOrderStatus) (order : Order) (shopOrder : ShopOrder),
      findOrderById st oid = some order →
      order.shopOrder.find? (fun so => so._id == sid) = some shopOrder →
      (updateOrderStatus st ready newId nearby (some oid) (some sid) (some status)).outcome.store
        = (updateOrderStatus st true newId nearby (some oid) (some sid)
            (some status)).outcome.store ∧
      (findOrderById (updateOrderStatus st ready newId nearby (some oid) (some sid)
          (some status)).outcome.store oid).map
        (fun o1 => (o1.shopOrder.find? (fun so => so._id == sid)).map (fun so => so.status))
        = some (some status) ∧
      (updateOrderStatus st ready newId nearby (some oid) (some sid)
          (some status)).outcome.response.status = (if ready then 200 else 500) ∧
      (updateOrderStatus st ready newId nearby (some oid) (some sid)
          (some status)).outcome.response.success = ready) ∧
    (∀ (st : Store) (ready : Bool) (now : Nat) (verify : OtpVerifier) (d : Id) (otp : String)
        (a : Assignment) (o : Order) (so : ShopOrder) (m : Option String),
      findCurrentAssignment st d = some a → findOrderById st a.order = some o →
      o.shopOrder.find? (fun s => s._id == a.shopOrderId) = some so →
      verify o.userId otp = VerifyAnswer.answered true m →
      (orderDelivered st ready now verify d otp).store
        = saveOrder (saveAssignment st (markCompleted a now))
            (markDelivered o a.shopOrderId) ∧
      (orderDelivered st ready now verify d otp).response.status
        = (if ready then 200 else 500) ∧
      (orderDelivered st ready now verify d otp).response.success = ready) ∧
    (∀ (st : Store) (ready : Bool) (shops : ShopLookup) (secret : Option String)
        (hmac : String → String → String) (newId : Id) (subId : Nat → Id) (userId : Id)
        (req : PlaceRequest) (cart : List CartItem) (address : DeliveryAddress)
        (groups : List (Id × List CartItem)) (shopOrder : List ShopOrder)
        (paymentStatus : String),
      req.cartItems = some cart → ¬ cart.length = 0 → req.deliveryAddress = some address →
      ¬ (address.text = "" ∨ address.latitude = 0 ∨ address.longitude = 0) →
      groupItemsByShop cart [] = some groups →
      buildShopOrders shops subId 0 groups = some shopOrder →
      checkPayment secret hmac req.paymentMethod req.payment
        = PaymentCheck.passed paymentStatus →
      (placeOrder st ready shops secret hmac newId subId userId req).store.orders
        = st.orders ++
          [{ _id := newId, userId := some userId, deliveryAddress := address,
             totalAmount := req.totalAmount, shopOrder := shopOrder }] ∧
      (placeOrder st ready shops secret hmac newId subId userId req).response.status
        = (if ready then 201 else 500) ∧
      (placeOrder st ready shops secret hmac newId subId userId req).response.success
        = ready) := by
  refine ⟨⟨by decide, ?_, ?_⟩, ?_, ?_, ?_, ?_⟩
  · intro s st r hs hserve
    simp only [bootStates, List.mem_cons, List.mem_singleton, List.not_mem_nil, or_false] at hs
    rcases hs with rfl | rfl | rfl | rfl
    · exact absurd rfl hserve
    · exact absurd rfl hserve
    · exact absurd rfl hserve
    · rfl
  · intro st r
    rfl
  · intro st ready now d aid a o so ha hs hm ho hso
    exact acceptOrder_of_pre st ready now d aid a o so ha hs hm ho hso
  · intro st ready newId nearby oid sid status order shopOrder ho hso
    have h1 := updateOrderStatus_found st ready newId nearby oid sid status order shopOrder ho hso
    have h2 := updateOrderStatus_found st true newId nearby oid sid status order shopOrder ho hso
    refine ⟨by rw [h1.2.2.1, h2.2.2.1], ?_, h1.2.2.2, ?_⟩
    · obtain ⟨o1, ho1, hso1⟩ :=
        updateOrderStatus_stored st ready newId nearby oid sid status order shopOrder ho hso
      rw [ho1, Option.map_some', hso1, Option.map_some',
        (broadcast_shopOrder_id st newId nearby order { shopOrder with status := status }).2.1]
    · unfold updateOrderStatus
      simp only [ho, hso]
      rcases broadcast st newId nearby order { shopOrder with status := status } with
        ⟨q, da, u, pl, s1⟩
      cases ready <;> simp [ getIO, internalError, failure]
  · intro st ready now verify d otp a o so m ha ho hso hv
    have h := orderDelivered_verified st ready now verify d otp a o so m ha ho hso hv
    refine ⟨h.1, h.2.1, ?_⟩
    have hoid : o._id = a.order := findOrderById_id ho
    have ho1 : findOrderById (saveAssignment st (markCompleted a now)) o._id = some o := by
      rw [hoid]
      exact ho
    have hso1 : o.shopOrder.find? (fun s => s._id == (markCompleted a now).shopOrderId)
        = some so := hso
    unfold orderDelivered
    simp only [ha, ho, hv, Bool.not_true, Bool.false_eq_true, if_false, ho1, hso1]
    cases ready <;> simp [ getIO, internalError, failure, markCompleted]
  · intro st ready shops secret hmac newId subId userId req cart address groups shopOrder
      paymentStatus hc hlen ha hbad hg hb hpay
    have h := placeOrder_created st ready shops secret hmac newId subId userId req cart address
      groups shopOrder paymentStatus hc hlen ha hbad hg hb hpay
    refine ⟨by rw [h.1], ?_, ?_⟩
    · rw [h.2]
      cases ready <;> rfl
    · rw [h.2]
      cases ready <;> rfl

/-- C18 amended, at the sample stores with the handle initialised: the four
calls answer with their success envelopes. -/
theorem fanout_needs_socket_handle_witness :
    (acceptOrder sampleStore true 50 5 (some 1)).response = acceptedResponse 1 10 ∧
    (updateOrderStatus sampleStore2 true 3 nearbyClose (some 11) (some 110)
        (some ShopOrderStatus.outForDelivery)).outcome.response.status = 200 ∧
    (orderDelivered sampleStore true 60 verifyCode 7 "4321").response.status = 200 ∧
    (placeOrder sampleStore true shopsKnown none sampleHmac 15 sampleSubId 33
        sampleRequest2).response.status = 201 :=
  ⟨(fanout_needs_socket_handle.2.1 sampleStore true 50 5 1 sampleOffer sampleOrder
      sampleShopOrder100 (by decide) (by decide) (by decide) (by decide) (by decide)).2,
   (fanout_needs_socket_handle.2.2.1 sampleStore2 true 3 nearbyClose 11 110
      ShopOrderStatus.outForDelivery sampleOrder2 sampleShopOrder110 (by decide)
      (by decide)).2.2.1,
   (fanout_needs_socket_handle.2.2.2.1 sampleStore true 60 verifyCode 7 "4321" sampleHeld
      sampleOrder sampleShopOrder101 none (by decide) (by decide) (by decide) (by decide)).2.1,
   (fanout_needs_socket_handle.2.2.2.2 sampleStore true shopsKnown none sampleHmac 15
      sampleSubId 33 sampleRequest2
      [{ shop := some 20, id := some 901, name := "Idli", quantity := 2, price := 100 },
       { shop := some 21, id := some 905, name := "Lassi", quantity := 3, price := 50 }]
      sampleAddress
      [(20, [{ shop := some 20, id := some 901, name := "Idli", quantity := 2, price := 100 }]),
       (21, [{ shop := some 21, id := some 905, name := "Lassi", quantity := 3, price := 50 }])]
      samplePlaced2.order.shopOrder "pending" (by decide) (by decide) (by decide) (by decide)
      (by decide) (by decide) (by decide)).2.1⟩

end OrderService
